import Mathlib

/-!
# libgpiod: chip lookup, line registry, find-by-name and line watching

A shallow embedding of the chip-level helpers of libgpiod
(`lib/helpers.c`), of the tools' lookup helper (`tools/tools-common.c`) and of
the option and snapshot handling of `tools/gpiowatch.c`, of the GLib objects
(`bindings/glib/chip.c`, `line.c`, `event.c`, `misc.c`, `error.c`) and of the
C++ chip class (`bindings/cxx/chip.cpp`).

C strings are modelled as `String` (a NUL-free sequence of characters), pointers
that may be NULL as `Option`, `errno` as an explicit field of the state, and C++
exceptions as the error side of `Except`.
-/

namespace Gpiod

/-! ## errno values (Linux) -/

def EPERM : Nat := 1
def ENOENT : Nat := 2
def EINTR : Nat := 4
def EIO : Nat := 5
def ENXIO : Nat := 6
def ECHILD : Nat := 10
def EAGAIN : Nat := 11
def ENOMEM : Nat := 12
def EACCES : Nat := 13
def EFAULT : Nat := 14
def EBUSY : Nat := 16
def EEXIST : Nat := 17
def ENODEV : Nat := 19
def EINVAL : Nat := 22
def ENOTTY : Nat := 25
def EPIPE : Nat := 32
def EBADFD : Nat := 77

/-! ## Core objects -/

/-- Core line handle (struct gpiod_line): a line of a chip is identified by its offset. -/
structure gpiod_line where
  offset : Nat
deriving DecidableEq, Repr

/-- Kernel-side record of one line of a chip: its name (none when the line is
unnamed), whether it is currently watched, and the errno with which the kernel
rejects a watch or unwatch request on it (none when it accepts them). -/
structure line_info where
  name : Option String
  watched : Bool
  ioerr : Option Nat
deriving DecidableEq, Repr

/-- The C struct timespec. -/
structure timespec where
  tv_sec : Int
  tv_nsec : Int
deriving DecidableEq, Repr

/-- The C struct gpiod_watch_event: one record of the chip-level watch FIFO. -/
structure gpiod_watch_event where
  event_type : Nat
  ts : timespec
  line : gpiod_line
deriving DecidableEq, Repr

/-- An open chip (struct gpiod_chip together with the kernel state behind its
descriptor): identity, the lines in offset order, the errno with which creating a
line iterator fails (none when it succeeds), the queued watch events, the errno
with which polling the watch descriptor fails, and the watch descriptor number. -/
structure gpiod_chip where
  name : String
  label : String
  lines : List line_info
  iter_err : Option Nat
  fifo : List gpiod_watch_event
  poll_err : Option Nat
  watch_fd : Int
deriving DecidableEq, Repr

/-! ## lib/helpers.c: opening a chip -/

/-- The C library isdigit on a character of a C string. -/
def isdigit (c : Char) : Bool := decide (48 ≤ c.toNat ∧ c.toNat ≤ 57)

/-- Scan of helpers.c isuint: advance over digits, then test for the terminator. -/
def isuint_chars : List Char → Bool
  | [] => true
  | c :: cs => if isdigit c then isuint_chars cs else false

/-- Function isuint of helpers.c (and its copy in tools-common.c). -/
def isuint (str : String) : Bool := isuint_chars str.toList

/-- Largest unsigned long (LP64). -/
def ULONG_MAX : Nat := 2 ^ 64 - 1

/-- Conversion of an argument to an unsigned int parameter (32 bits). -/
def to_uint (v : Nat) : Nat := v % 2 ^ 32

/-- Digit accumulation of strtoul in base 10: stops at the first non-digit. -/
def strtoul_digits : Nat → List Char → Nat
  | acc, [] => acc
  | acc, c :: cs => if isdigit c then strtoul_digits (acc * 10 + (c.toNat - 48)) cs else acc

/-- The C library strtoul(str, NULL, 10) on a string that starts with its digits
(the only use here is after isuint): the value of the digit run, or ULONG_MAX
when that value is not representable. -/
def strtoul (str : String) : Nat := min (strtoul_digits 0 str.toList) ULONG_MAX

/-- What a lookup touches outside the process: a device node opened by path, or a
scan of all chips of the system. -/
inductive Probe where
  | open_path (path : String)
  | scan_chips
deriving DecidableEq, Repr

/-- The system a chip is opened in: what gpiod_chip_open gives for a path (a chip,
or the errno of the failure) and what the chip iterator gives (the chips in
iteration order, or the errno with which gpiod_chip_iter_new fails). -/
structure World where
  dev : String → Except Nat gpiod_chip
  chip_iter : Except Nat (List gpiod_chip)

/-- Result of an open function: the chip, or NULL with errno, and the probes made. -/
abbrev OpenResult := Except Nat gpiod_chip × List Probe

/-- Modelled from the spec: core gpiod_chip_open (lib/core.c is not among the
sources): a path resolves to a chip or fails with a system error code. -/
def gpiod_chip_open (w : World) (path : String) : OpenResult :=
  (w.dev path, [Probe.open_path path])

/-- Function gpiod_chip_open_by_name of helpers.c (asprintf taken to succeed). -/
def gpiod_chip_open_by_name (w : World) (name : String) : OpenResult :=
  gpiod_chip_open w ("/dev/" ++ name)

/-- Function gpiod_chip_open_by_number of helpers.c: the argument is received in
the unsigned int parameter num, which is printed with %u (asprintf taken to
succeed). -/
def gpiod_chip_open_by_number (w : World) (num : Nat) : OpenResult :=
  gpiod_chip_open w ("/dev/gpiochip" ++ Nat.repr (to_uint num))

/-- Loop of gpiod_chip_open_by_label: the first chip whose label compares equal. -/
def first_with_label (label : String) : List gpiod_chip → Option gpiod_chip
  | [] => none
  | c :: cs => if label = c.label then some c else first_with_label label cs

/-- Function gpiod_chip_open_by_label of helpers.c. -/
def gpiod_chip_open_by_label (w : World) (label : String) : OpenResult :=
  match w.chip_iter with
  | Except.error e => (Except.error e, [Probe.scan_chips])
  | Except.ok chips =>
    match first_with_label label chips with
    | some c => (Except.ok c, [Probe.scan_chips])
    | none => (Except.error ENOENT, [Probe.scan_chips])

/-- The test strncmp(descr, "/dev/", 5) == 0. -/
def starts_with_dev (descr : String) : Bool := descr.toList.take 5 == "/dev/".toList

/-- Function gpiod_chip_open_lookup of helpers.c. -/
def gpiod_chip_open_lookup (w : World) (descr : String) : OpenResult :=
  if isuint descr then
    gpiod_chip_open_by_number w (strtoul descr)
  else
    match gpiod_chip_open_by_label w descr with
    | (Except.ok c, tr) => (Except.ok c, tr)
    | (Except.error _, tr) =>
      if !starts_with_dev descr then
        let r := gpiod_chip_open_by_name w descr
        (r.1, tr ++ r.2)
      else
        let r := gpiod_chip_open w descr
        (r.1, tr ++ r.2)

/-! ## tools/tools-common.c: opening a chip -/

/-- Function chip_open_by_name of tools-common.c. -/
def chip_open_by_name (w : World) (name : String) : OpenResult :=
  gpiod_chip_open w ("/dev/" ++ name)

/-- Function chip_open_by_number of tools-common.c: the argument is received in
the unsigned int parameter num. -/
def chip_open_by_number (w : World) (num : Nat) : OpenResult :=
  gpiod_chip_open w ("/dev/gpiochip" ++ Nat.repr (to_uint num))

/-- Function chip_open_lookup of tools-common.c. -/
def chip_open_lookup (w : World) (device : String) : OpenResult :=
  if isuint device then
    chip_open_by_number w (strtoul device)
  else
    if !starts_with_dev device then
      chip_open_by_name w device
    else
      gpiod_chip_open w device

/-! ## Core line acquisition -/

/-- Modelled from the spec: core gpiod_chip_num_lines (lib/core.c is not among the
sources): the line count of the open chip. -/
def gpiod_chip_num_lines (chip : gpiod_chip) : Nat := chip.lines.length

/-- Modelled from the spec: core gpiod_chip_get_line (lib/core.c is not among the
sources): the handle of the line at a valid offset, whose reported offset is that
offset; NULL with errno EINVAL when the offset is not below the line count. -/
def gpiod_chip_get_line (chip : gpiod_chip) (offset : Nat) : Except Nat gpiod_line :=
  if offset < chip.lines.length then Except.ok ⟨offset⟩ else Except.error EINVAL

/-- Modelled from the spec: core gpiod_line_offset (lib/core.c is not among the
sources): the offset a line handle reports. -/
def gpiod_line_offset (line : gpiod_line) : Nat := line.offset

/-! ## bindings/glib/error.c -/

/-- The enum GpiodError of gpiod-glib-error.h. -/
inductive GpiodError where
  | G_GPIOD_ERR_FAILED | G_GPIOD_ERR_PERM | G_GPIOD_ERR_NOENT | G_GPIOD_ERR_INTR
  | G_GPIOD_ERR_IO | G_GPIOD_ERR_NXIO | G_GPIOD_ERR_BADFD | G_GPIOD_ERR_CHILD
  | G_GPIOD_ERR_AGAIN | G_GPIOD_ERR_NOMEM | G_GPIOD_ERR_ACCES | G_GPIOD_ERR_FAULT
  | G_GPIOD_ERR_BUSY | G_GPIOD_ERR_EXIST | G_GPIOD_ERR_NODEV | G_GPIOD_ERR_INVAL
  | G_GPIOD_ERR_NOTTY | G_GPIOD_ERR_PIPE
deriving DecidableEq, Repr

open GpiodError in
/-- Function g_gpiod_error_from_errno of error.c: the switch over errno values. -/
def g_gpiod_error_from_errno (errnum : Int) : GpiodError :=
  if errnum = EPERM then G_GPIOD_ERR_PERM
  else if errnum = ENOENT then G_GPIOD_ERR_NOENT
  else if errnum = EINTR then G_GPIOD_ERR_INTR
  else if errnum = EIO then G_GPIOD_ERR_IO
  else if errnum = ENXIO then G_GPIOD_ERR_NXIO
  else if errnum = EBADFD then G_GPIOD_ERR_BADFD
  else if errnum = ECHILD then G_GPIOD_ERR_CHILD
  else if errnum = EAGAIN then G_GPIOD_ERR_AGAIN
  else if errnum = ENOMEM then G_GPIOD_ERR_NOMEM
  else if errnum = EACCES then G_GPIOD_ERR_ACCES
  else if errnum = EFAULT then G_GPIOD_ERR_FAULT
  else if errnum = EBUSY then G_GPIOD_ERR_BUSY
  else if errnum = EEXIST then G_GPIOD_ERR_EXIST
  else if errnum = ENODEV then G_GPIOD_ERR_NODEV
  else if errnum = EINVAL then G_GPIOD_ERR_INVAL
  else if errnum = ENOTTY then G_GPIOD_ERR_NOTTY
  else if errnum = EPIPE then G_GPIOD_ERR_PIPE
  else G_GPIOD_ERR_FAILED

/-! ## bindings/glib/chip.c -/

/-- The GObject GpiodLine as chip.c sees it: the identity of the object (its
address) and the core line handle it was constructed with. -/
structure GpiodLine where
  id : Nat
  handle : gpiod_line
deriving DecidableEq, Repr

/-- GLib pointer array of GpiodLine pointers; none is a NULL element. -/
abbrev GPtrArray := List (Option GpiodLine)

/-- GLib g_ptr_array_sized_new followed by g_ptr_array_set_size: an array of the
given length whose elements are all NULL. -/
def g_ptr_array_set_size (n : Nat) : GPtrArray := List.replicate n none

/-- GLib macro g_ptr_array_index: plain indexing into the element buffer, no
bounds check; an index at or past the length reads outside the array (none). -/
def g_ptr_array_index (a : GPtrArray) (i : Nat) : Option (Option GpiodLine) := a.get? i

/-- GLib g_ptr_array_insert: the elements at and after the index move up by one
and the array grows by one element. -/
def g_ptr_array_insert (a : GPtrArray) (i : Nat) (x : GpiodLine) : GPtrArray :=
  a.take i ++ some x :: a.drop i

/-- The struct _GpiodChip of chip.c. -/
structure GpiodChip where
  devname : Option String
  construct_err : Option GpiodError
  handle : Option gpiod_chip
  lines : Option GPtrArray
deriving DecidableEq, Repr

/-- Function g_gpiod_chip_init of chip.c. -/
def g_gpiod_chip_init : GpiodChip :=
  { devname := none, construct_err := none, handle := none, lines := none }

/-- Function g_gpiod_chip_constructed of chip.c; none is the failed g_assert on
the device name. -/
def g_gpiod_chip_constructed (w : World) (self : GpiodChip) : Option GpiodChip :=
  match self.handle with
  | some _ => some self
  | none =>
    match self.devname with
    | none => none
    | some devname =>
      match (gpiod_chip_open_lookup w devname).1 with
      | Except.error e =>
        some { self with construct_err := some (g_gpiod_error_from_errno e), devname := none }
      | Except.ok c =>
        some { self with handle := some c,
                         lines := some (g_ptr_array_set_size (gpiod_chip_num_lines c)),
                         devname := none }

/-- Function g_gpiod_chip_initable_init of chip.c. -/
def g_gpiod_chip_initable_init (self : GpiodChip) : Except GpiodError Unit :=
  match self.construct_err with
  | some e => Except.error e
  | none => Except.ok ()

/-- Function g_gpiod_chip_new of chip.c: g_initable_new with the devname property;
the outer none is the abort of a failed assertion. -/
def g_gpiod_chip_new (w : World) (devname : String) : Option (Except GpiodError GpiodChip) :=
  match g_gpiod_chip_constructed w { g_gpiod_chip_init with devname := some devname } with
  | none => none
  | some self =>
    match g_gpiod_chip_initable_init self with
    | Except.error e => some (Except.error e)
    | Except.ok _ => some (Except.ok self)

/-- A GpiodChip in its process: the object, the identity the next g_object_new
hands out, and the offsets with which the core gpiod_chip_get_line has been
called (oldest first). -/
structure GHeap where
  chip : GpiodChip
  next_id : Nat
  core_calls : List Nat
deriving DecidableEq, Repr

/-- Outcome of g_gpiod_chip_get_line: a line object (with a new reference), NULL
with the error set, or a read through a NULL registry or outside its elements
(undefined behaviour, nothing is reported). -/
inductive GLineResult where
  | line (l : GpiodLine)
  | error (code : GpiodError)
  | invalid_read
deriving DecidableEq, Repr

/-- Function g_gpiod_chip_get_line of chip.c. -/
def g_gpiod_chip_get_line (h : GHeap) (offset : Nat) : GLineResult × GHeap :=
  match h.chip.lines with
  | none => (GLineResult.invalid_read, h)
  | some lines =>
    match g_ptr_array_index lines offset with
    | none => (GLineResult.invalid_read, h)
    | some (some line) => (GLineResult.line line, h)
    | some none =>
      match h.chip.handle with
      | none => (GLineResult.invalid_read, h)
      | some chip =>
        match gpiod_chip_get_line chip offset with
        | Except.error e =>
          (GLineResult.error (g_gpiod_error_from_errno e),
           { h with core_calls := h.core_calls ++ [offset] })
        | Except.ok handle =>
          let line : GpiodLine := { id := h.next_id, handle := handle }
          (GLineResult.line line,
           { chip := { h.chip with lines := some (g_ptr_array_insert lines offset line) },
             next_id := h.next_id + 1,
             core_calls := h.core_calls ++ [offset] })

/-- A sequence of g_gpiod_chip_get_line calls on one chip, in order; the results
are listed in call order. -/
def get_line_calls : GHeap → List Nat → List GLineResult × GHeap
  | h, [] => ([], h)
  | h, o :: os =>
    let r := g_gpiod_chip_get_line h o
    let rs := get_line_calls r.2 os
    (r.1 :: rs.1, rs.2)

/-- Function g_gpiod_line_get_offset of line.c: the offset property reads
gpiod_line_offset of the handle. -/
def g_gpiod_line_get_offset (self : GpiodLine) : Nat := gpiod_line_offset self.handle

/-- A chip of n unnamed, unwatched lines with an empty watch queue. -/
def plain_chip (n : Nat) : gpiod_chip :=
  { name := "gpiochip0", label := "gpio-mockup-A",
    lines := List.replicate n { name := none, watched := false, ioerr := none },
    iter_err := none, fifo := [], poll_err := none, watch_fd := 3 }

/-- A system whose only device node is /dev/gpiochip0, the given chip. -/
def one_chip_world (c : gpiod_chip) : World :=
  { dev := fun path => if path = "/dev/gpiochip0" then Except.ok c else Except.error ENOENT,
    chip_iter := Except.ok [c] }

/-- The GpiodChip that g_gpiod_chip_new("gpiochip0") builds over a chip of n plain
lines, before any line was asked for. -/
def fresh_glib_chip (n : Nat) : GHeap :=
  { chip := { devname := none, construct_err := none, handle := some (plain_chip n),
              lines := some (g_ptr_array_set_size n) },
    next_id := 0, core_calls := [] }

/-! ## Core state of one open chip

The core library (lib/core.c, lib/iter.c) is not among the sources; its
operations are modelled from the specification, over the state of one open chip.
Every call into the core is recorded, oldest first. -/

/-- A call of a core function on the chip handle or on one of its lines. -/
inductive core_call where
  | chip_name
  | chip_label
  | chip_num_lines
  | chip_get_line (offset : Nat)
  | chip_get_line_watched (offset : Nat)
  | line_iter_new
  | line_watch (offset : Nat)
  | line_unwatch (offset : Nat)
  | watch_event_wait (ts : timespec)
  | watch_event_read
  | watch_event_read_multiple (num : Nat)
  | watch_get_fd
deriving DecidableEq, Repr

/-- The process state around one open chip: the chip, errno, and the core calls
made so far. -/
structure State where
  chip : gpiod_chip
  errno : Nat
  calls : List core_call
deriving DecidableEq, Repr

/-- Replace the watched flag of the line at an offset. -/
def set_watched : List line_info → Nat → Bool → List line_info
  | [], _, _ => []
  | li :: rest, 0, v => { li with watched := v } :: rest
  | li :: rest, n + 1, v => li :: set_watched rest n v

namespace Core

/-- Modelled from the spec: core gpiod_chip_name, a pure read from the open handle. -/
def gpiod_chip_name (s : State) : String × State :=
  (s.chip.name, { s with calls := s.calls ++ [core_call.chip_name] })

/-- Modelled from the spec: core gpiod_chip_label, a pure read from the open handle. -/
def gpiod_chip_label (s : State) : String × State :=
  (s.chip.label, { s with calls := s.calls ++ [core_call.chip_label] })

/-- Modelled from the spec: core gpiod_chip_num_lines, a pure read from the open handle. -/
def gpiod_chip_num_lines (s : State) : Nat × State :=
  (s.chip.lines.length, { s with calls := s.calls ++ [core_call.chip_num_lines] })

/-- Modelled from the spec: core gpiod_line_watch. Watching an already watched
line fails with EBUSY; a kernel rejection fails with its errno; otherwise the line
becomes watched. Returns 0 or -1. -/
def gpiod_line_watch (s : State) (line : gpiod_line) : Int × State :=
  let s1 := { s with calls := s.calls ++ [core_call.line_watch line.offset] }
  match s.chip.lines.get? line.offset with
  | none => (-1, { s1 with errno := EINVAL })
  | some li =>
    if li.watched then (-1, { s1 with errno := EBUSY })
    else match li.ioerr with
      | some e => (-1, { s1 with errno := e })
      | none =>
        (0, { s1 with chip := { s.chip with lines := set_watched s.chip.lines line.offset true } })

/-- Modelled from the spec: core gpiod_line_unwatch. Unwatching a line that is
not watched fails with EBUSY; a kernel rejection fails with its errno; otherwise
the line is no longer watched. Returns 0 or -1. -/
def gpiod_line_unwatch (s : State) (line : gpiod_line) : Int × State :=
  let s1 := { s with calls := s.calls ++ [core_call.line_unwatch line.offset] }
  match s.chip.lines.get? line.offset with
  | none => (-1, { s1 with errno := EINVAL })
  | some li =>
    if !li.watched then (-1, { s1 with errno := EBUSY })
    else match li.ioerr with
      | some e => (-1, { s1 with errno := e })
      | none =>
        (0, { s1 with chip := { s.chip with lines := set_watched s.chip.lines line.offset false } })

/-- Modelled from the spec: core gpiod_chip_get_line on the recorded state. -/
def gpiod_chip_get_line (s : State) (offset : Nat) : Option gpiod_line × State :=
  let s1 := { s with calls := s.calls ++ [core_call.chip_get_line offset] }
  match Gpiod.gpiod_chip_get_line s.chip offset with
  | Except.ok l => (some l, s1)
  | Except.error e => (none, { s1 with errno := e })

/-- Modelled from the spec: core gpiod_chip_get_line_watched: the line at the
offset, marked watched at acquisition time; NULL when either step fails. -/
def gpiod_chip_get_line_watched (s : State) (offset : Nat) : Option gpiod_line × State :=
  let s1 := { s with calls := s.calls ++ [core_call.chip_get_line_watched offset] }
  match Gpiod.gpiod_chip_get_line s.chip offset with
  | Except.error e => (none, { s1 with errno := e })
  | Except.ok l =>
    let r := gpiod_line_watch s1 l
    if r.1 = 0 then (some l, r.2) else (none, r.2)

/-- Modelled from the spec: core gpiod_line_iter_new with the lines that
gpiod_foreach_line then visits: every line of the chip, in offset order; NULL with
errno when the iterator cannot be created. -/
def gpiod_line_iter_new (s : State) : Option (List gpiod_line) × State :=
  let s1 := { s with calls := s.calls ++ [core_call.line_iter_new] }
  match s.chip.iter_err with
  | some e => (none, { s1 with errno := e })
  | none => (some ((List.range s.chip.lines.length).map gpiod_line.mk), s1)

/-- Modelled from the spec: core gpiod_line_name, the kernel-reported name cached
in the line handle; NULL for a line that has no name. -/
def gpiod_line_name (s : State) (line : gpiod_line) : Option String :=
  match s.chip.lines.get? line.offset with
  | none => none
  | some li => li.name

/-- Modelled from the spec: core gpiod_chip_watch_event_wait: 1 when at least one
event is queued, 0 on timeout, -1 with errno on a poll failure. -/
def gpiod_chip_watch_event_wait (s : State) (ts : timespec) : Int × State :=
  let s1 := { s with calls := s.calls ++ [core_call.watch_event_wait ts] }
  match s.chip.poll_err with
  | some e => (-1, { s1 with errno := e })
  | none => if s.chip.fifo.isEmpty then (0, s1) else (1, s1)

/-- Modelled from the spec: core gpiod_chip_watch_event_read: dequeues exactly one
event; fails with an I/O error when the queue is empty. -/
def gpiod_chip_watch_event_read (s : State) : Option gpiod_watch_event × State :=
  let s1 := { s with calls := s.calls ++ [core_call.watch_event_read] }
  match s.chip.fifo with
  | [] => (none, { s1 with errno := EIO })
  | ev :: rest => (some ev, { s1 with chip := { s.chip with fifo := rest } })

/-- Modelled from the spec: core gpiod_chip_watch_event_read_multiple: dequeues up
to num events in queue order; the events read, or NULL-like failure with errno. -/
def gpiod_chip_watch_event_read_multiple (s : State) (num : Nat) :
    Option (List gpiod_watch_event) × State :=
  let s1 := { s with calls := s.calls ++ [core_call.watch_event_read_multiple num] }
  match s.chip.poll_err with
  | some e => (none, { s1 with errno := e })
  | none =>
    (some (s.chip.fifo.take num), { s1 with chip := { s.chip with fifo := s.chip.fifo.drop num } })

/-- Modelled from the spec: core gpiod_chip_watch_get_fd: the pollable descriptor. -/
def gpiod_chip_watch_get_fd (s : State) : Int × State :=
  (s.chip.watch_fd, { s with calls := s.calls ++ [core_call.watch_get_fd] })

end Core

/-! ## lib/helpers.c: find by name, unwatch all -/

/-- Loop body of chip_find_line over the iterated lines: the first line whose
name is present and compares equal to the requested one. -/
def find_line_scan (s : State) (name : String) : List gpiod_line → Option gpiod_line
  | [] => none
  | line :: rest =>
    match Core.gpiod_line_name s line with
    | some tmp => if tmp = name then some line else find_line_scan s name rest
    | none => find_line_scan s name rest

/-- Function chip_find_line of helpers.c. -/
def chip_find_line (s : State) (name : String) (watched : Bool) : Option gpiod_line × State :=
  match Core.gpiod_line_iter_new s with
  | (none, s1) => (none, s1)
  | (some iter, s1) =>
    match find_line_scan s1 name iter with
    | some line =>
      if watched then
        let r := Core.gpiod_line_watch s1 line
        if r.1 ≠ 0 then (none, r.2) else (some line, r.2)
      else (some line, s1)
    | none => (none, { s1 with errno := ENOENT })

/-- Function gpiod_chip_find_line of helpers.c. -/
def gpiod_chip_find_line (s : State) (name : String) : Option gpiod_line × State :=
  chip_find_line s name false

/-- Function gpiod_chip_find_line_watched of helpers.c. -/
def gpiod_chip_find_line_watched (s : State) (name : String) : Option gpiod_line × State :=
  chip_find_line s name true

/-- Loop of gpiod_chip_unwatch_all: unwatch each line, stop at the first failure
whose errno is not EBUSY; ret is the result of the last unwatch made. -/
def unwatch_all_loop : State → Int → List gpiod_line → Int × State
  | s, ret, [] => (ret, s)
  | s, _, line :: rest =>
    let r := Core.gpiod_line_unwatch s line
    if r.1 ≠ 0 ∧ r.2.errno ≠ EBUSY then (r.1, r.2) else unwatch_all_loop r.2 r.1 rest

/-- Function gpiod_chip_unwatch_all of helpers.c. -/
def gpiod_chip_unwatch_all (s : State) : Int × State :=
  match Core.gpiod_line_iter_new s with
  | (none, s1) => (-1, s1)
  | (some iter, s1) => unwatch_all_loop s1 0 iter

/-! ## bindings/cxx/chip.cpp -/

/-- The C++ exceptions the chip class raises: std::logic_error (invalid state),
std::out_of_range, and std::system_error carrying errno. -/
inductive exn where
  | logic_error
  | out_of_range
  | system_error (code : Nat)
deriving DecidableEq, Repr

/-- The C++ class chip: a shared pointer to the core chip handle (none when the
object holds no chip); the number is the address of the handle. -/
structure chip where
  _m_chip : Option Nat
deriving DecidableEq, Repr

/-- The C++ class line: the core line handle (none for an empty line) and the
owning chip object. -/
structure line where
  _m_line : Option gpiod_line
  _m_chip : chip
deriving DecidableEq, Repr

/-- The default-constructed, empty line. -/
def line.empty : line := { _m_line := none, _m_chip := { _m_chip := none } }

/-- The C++ operator! of line: true for an empty line. -/
def line.is_empty (l : line) : Bool := l._m_line.isNone

/-- The C++ class line_bulk: the lines it holds, in index order. -/
abbrev line_bulk := List line

/-- Modelled from the spec: capacity of a bulk set (GPIOD_LINE_BULK_MAX_LINES of
gpiod.h, not among the sources). -/
def MAX_LINES : Nat := 64

/-- Modelled from the spec: line_bulk::append (line_bulk.cpp is not among the
sources): appends, and fails as a precondition violation when the set is at
capacity or the line's chip differs from the chip of the lines already held. -/
def line_bulk.append (b : line_bulk) (l : line) : Except exn line_bulk :=
  if MAX_LINES ≤ b.length then Except.error exn.logic_error
  else match b.head? with
    | some l0 => if l0._m_chip ≠ l._m_chip then Except.error exn.logic_error else Except.ok (b ++ [l])
    | none => Except.ok (b ++ [l])

/-- Method chip::reset of chip.cpp. -/
def chip.reset (_self : chip) : chip := { _m_chip := none }

/-- Method chip::throw_if_noref of chip.cpp. -/
def chip.throw_if_noref (self : chip) : Except exn Unit :=
  match self._m_chip with
  | none => Except.error exn.logic_error
  | some _ => Except.ok ()

/-- Method chip::name of chip.cpp. -/
def chip.name (self : chip) (s : State) : Except exn String × State :=
  match self.throw_if_noref with
  | Except.error e => (Except.error e, s)
  | Except.ok _ => let r := Core.gpiod_chip_name s; (Except.ok r.1, r.2)

/-- Method chip::label of chip.cpp. -/
def chip.label (self : chip) (s : State) : Except exn String × State :=
  match self.throw_if_noref with
  | Except.error e => (Except.error e, s)
  | Except.ok _ => let r := Core.gpiod_chip_label s; (Except.ok r.1, r.2)

/-- Method chip::num_lines of chip.cpp. -/
def chip.num_lines (self : chip) (s : State) : Except exn Nat × State :=
  match self.throw_if_noref with
  | Except.error e => (Except.error e, s)
  | Except.ok _ => let r := Core.gpiod_chip_num_lines s; (Except.ok r.1, r.2)

/-- Method chip::get_line of chip.cpp. -/
def chip.get_line (self : chip) (s : State) (offset : Nat) (watched : Bool) :
    Except exn line × State :=
  match self.throw_if_noref with
  | Except.error e => (Except.error e, s)
  | Except.ok _ =>
    match self.num_lines s with
    | (Except.error e, s1) => (Except.error e, s1)
    | (Except.ok n, s1) =>
      if offset ≥ n then (Except.error exn.out_of_range, s1)
      else
        let r := if watched then Core.gpiod_chip_get_line_watched s1 offset
                 else Core.gpiod_chip_get_line s1 offset
        match r.1 with
        | none => (Except.error (exn.system_error r.2.errno), r.2)
        | some line_handle => (Except.ok { _m_line := some line_handle, _m_chip := self }, r.2)

/-- Method chip::find_line of chip.cpp. -/
def chip.find_line (self : chip) (s : State) (name : String) (watched : Bool) :
    Except exn line × State :=
  match self.throw_if_noref with
  | Except.error e => (Except.error e, s)
  | Except.ok _ =>
    let r := if watched then gpiod_chip_find_line_watched s name
             else gpiod_chip_find_line s name
    match r.1 with
    | none =>
      if r.2.errno ≠ ENOENT then (Except.error (exn.system_error r.2.errno), r.2)
      else (Except.ok line.empty, r.2)
    | some handle => (Except.ok { _m_line := some handle, _m_chip := self }, r.2)

/-- Loop of chip::get_lines over the offsets still to be fetched. -/
def chip.get_lines_loop (self : chip) (watched : Bool) :
    State → line_bulk → List Nat → Except exn line_bulk × State
  | s, lines, [] => (Except.ok lines, s)
  | s, lines, it :: rest =>
    match self.get_line s it watched with
    | (Except.error e, s1) => (Except.error e, s1)
    | (Except.ok l, s1) =>
      match line_bulk.append lines l with
      | Except.error e => (Except.error e, s1)
      | Except.ok lines1 => chip.get_lines_loop self watched s1 lines1 rest

/-- Method chip::get_lines of chip.cpp. -/
def chip.get_lines (self : chip) (s : State) (offsets : List Nat) (watched : Bool) :
    Except exn line_bulk × State :=
  chip.get_lines_loop self watched s [] offsets

/-- Loop of chip::get_all_lines from index i: the bound num_lines() is read
again before every iteration; fuel bounds the number of iterations, none when it
runs out. -/
def chip.get_all_lines_loop (self : chip) (watched : Bool) :
    Nat → State → line_bulk → Nat → Option (Except exn line_bulk × State)
  | 0, _, _, _ => none
  | fuel + 1, s, lines, i =>
    match self.num_lines s with
    | (Except.error e, s1) => some (Except.error e, s1)
    | (Except.ok n, s1) =>
      if i < n then
        match self.get_line s1 i watched with
        | (Except.error e, s2) => some (Except.error e, s2)
        | (Except.ok l, s2) =>
          match line_bulk.append lines l with
          | Except.error e => some (Except.error e, s2)
          | Except.ok lines1 => chip.get_all_lines_loop self watched fuel s2 lines1 (i + 1)
      else some (Except.ok lines, s1)

/-- Method chip::get_all_lines of chip.cpp, with an iteration budget. -/
def chip.get_all_lines (self : chip) (fuel : Nat) (s : State) (watched : Bool) :
    Option (Except exn line_bulk × State) :=
  chip.get_all_lines_loop self watched fuel s [] 0

/-- Loop of chip::find_lines over the names still to be looked up. -/
def chip.find_lines_loop (self : chip) (watched : Bool) :
    State → line_bulk → List String → Except exn line_bulk × State
  | s, lines, [] => (Except.ok lines, s)
  | s, lines, it :: rest =>
    match self.find_line s it watched with
    | (Except.error e, s1) => (Except.error e, s1)
    | (Except.ok l, s1) =>
      if l.is_empty then (Except.ok [], s1)
      else
        match line_bulk.append lines l with
        | Except.error e => (Except.error e, s1)
        | Except.ok lines1 => chip.find_lines_loop self watched s1 lines1 rest

/-- Method chip::find_lines of chip.cpp. -/
def chip.find_lines (self : chip) (s : State) (names : List String) (watched : Bool) :
    Except exn line_bulk × State :=
  chip.find_lines_loop self watched s [] names

/-- The timespec chip::watch_event_wait builds from a nanosecond count: the count
(a signed 64-bit value) is converted to unsigned long long for the division and
the remainder by 1000000000ULL. -/
def timeout_to_timespec (timeout : Int) : timespec :=
  let u : Int := timeout % 2 ^ 64
  { tv_sec := u / 1000000000, tv_nsec := u % 1000000000 }

/-- Method chip::watch_event_wait of chip.cpp. -/
def chip.watch_event_wait (self : chip) (s : State) (timeout : Int) : Except exn Bool × State :=
  match self.throw_if_noref with
  | Except.error e => (Except.error e, s)
  | Except.ok _ =>
    let r := Core.gpiod_chip_watch_event_wait s (timeout_to_timespec timeout)
    if r.1 < 0 then (Except.error (exn.system_error r.2.errno), r.2)
    else (Except.ok (decide (r.1 > 0)), r.2)

/-- Modelled from the spec: the event type constants of gpiod.h (not among the
sources); only their being distinct matters. -/
def GPIOD_WATCH_EVENT_LINE_REQUESTED : Nat := 1

/-- Modelled from the spec: see GPIOD_WATCH_EVENT_LINE_REQUESTED. -/
def GPIOD_WATCH_EVENT_LINE_RELEASED : Nat := 2

/-- Modelled from the spec: see GPIOD_WATCH_EVENT_LINE_REQUESTED. -/
def GPIOD_WATCH_EVENT_LINE_CONFIG_CHANGED : Nat := 3

/-- The event types of the C++ struct watch_event. -/
inductive watch_event_type where
  | REQUESTED
  | RELEASED
  | CONFIG_CHANGED
deriving DecidableEq, Repr

/-- The C++ struct watch_event; the type is none when make_watch_event assigned
none of the three values (the member is then left as constructed). -/
structure watch_event where
  event_type : Option watch_event_type
  timestamp : Int
  source : line
deriving DecidableEq, Repr

/-- The value a signed 64-bit integer (long on LP64, also the count of
std::chrono::nanoseconds) holds for the result x of an arithmetic operation:
x reduced into [-2^63, 2^63) modulo 2^64. -/
def to_int64 (x : Int) : Int := (x + 2 ^ 63) % 2 ^ 64 - 2 ^ 63

/-- Method chip::make_watch_event of chip.cpp; the product and the sum of the
timestamp are computed in long (LP64), each reduced to 64 bits. -/
def chip.make_watch_event (self : chip) (event_buf : gpiod_watch_event) : watch_event :=
  { event_type :=
      if event_buf.event_type = GPIOD_WATCH_EVENT_LINE_REQUESTED then
        some watch_event_type.REQUESTED
      else if event_buf.event_type = GPIOD_WATCH_EVENT_LINE_RELEASED then
        some watch_event_type.RELEASED
      else if event_buf.event_type = GPIOD_WATCH_EVENT_LINE_CONFIG_CHANGED then
        some watch_event_type.CONFIG_CHANGED
      else none,
    timestamp := to_int64 (event_buf.ts.tv_nsec + to_int64 (event_buf.ts.tv_sec * 1000000000)),
    source := { _m_line := some event_buf.line, _m_chip := self } }

/-- Method chip::watch_event_read of chip.cpp. -/
def chip.watch_event_read (self : chip) (s : State) : Except exn watch_event × State :=
  match self.throw_if_noref with
  | Except.error e => (Except.error e, s)
  | Except.ok _ =>
    let r := Core.gpiod_chip_watch_event_read s
    match r.1 with
    | none => (Except.error (exn.system_error r.2.errno), r.2)
    | some event_buf => (Except.ok (self.make_watch_event event_buf), r.2)

/-- Method chip::watch_event_read_multiple of chip.cpp: the buffer holds 32
records. -/
def chip.watch_event_read_multiple (self : chip) (s : State) :
    Except exn (List watch_event) × State :=
  match self.throw_if_noref with
  | Except.error e => (Except.error e, s)
  | Except.ok _ =>
    let r := Core.gpiod_chip_watch_event_read_multiple s 32
    match r.1 with
    | none => (Except.error (exn.system_error r.2.errno), r.2)
    | some event_buf => (Except.ok (event_buf.map self.make_watch_event), r.2)

/-- Method chip::watch_event_get_fd of chip.cpp. -/
def chip.watch_event_get_fd (self : chip) (s : State) : Except exn Int × State :=
  match self.throw_if_noref with
  | Except.error e => (Except.error e, s)
  | Except.ok _ => let r := Core.gpiod_chip_watch_get_fd s; (Except.ok r.1, r.2)

/-- Method chip::unwatch_all of chip.cpp: the result of the C call is dropped. -/
def chip.unwatch_all (self : chip) (s : State) : Except exn Unit × State :=
  match self.throw_if_noref with
  | Except.error e => (Except.error e, s)
  | Except.ok _ => let r := gpiod_chip_unwatch_all s; (Except.ok (), r.2)

/-! ## bindings/glib/line.c and event.c -/

/-- Modelled from the spec: the request types of gpiod.h (not among the
sources): the three directions and the three edge-event selections. -/
inductive request_type where
  | GPIOD_LINE_REQUEST_DIRECTION_AS_IS
  | GPIOD_LINE_REQUEST_DIRECTION_INPUT
  | GPIOD_LINE_REQUEST_DIRECTION_OUTPUT
  | GPIOD_LINE_REQUEST_EVENT_FALLING_EDGE
  | GPIOD_LINE_REQUEST_EVENT_RISING_EDGE
  | GPIOD_LINE_REQUEST_EVENT_BOTH_EDGES
deriving DecidableEq, Repr

/-- Modelled from the spec: the active-low request flag of gpiod.h (not among
the sources); only its being non-zero matters. -/
def GPIOD_LINE_REQUEST_FLAG_ACTIVE_LOW : Nat := 4

/-- The C struct gpiod_line_request_config. -/
structure gpiod_line_request_config where
  consumer : String
  request_type : request_type
  flags : Nat
deriving DecidableEq, Repr

/-- A call line.c makes on the core line handle or on the GLib main loop. -/
inductive line_call where
  | line_request (config : gpiod_line_request_config) (default_val : Int)
  | line_event_get_fd
  | line_release
  | unix_fd_add (fd : Int)
  | source_remove (tag : Nat)
deriving DecidableEq, Repr

/-- How the core and GLib answer the calls made for one line: the errno with
which gpiod_line_request fails (none when it succeeds), what
gpiod_line_event_get_fd returns and the errno it leaves when that is negative,
and the source id g_unix_fd_add hands out. -/
structure LineEnv where
  request_err : Option Nat
  event_fd : Int
  event_fd_errno : Nat
  source_tag : Nat

/-- A GpiodLine object while line.c works on it: the object with its handle, the
stored event source id, and the calls made so far. -/
structure GpiodLineState where
  self : GpiodLine
  event_source : Nat
  calls : List line_call
deriving DecidableEq, Repr

/-- Function g_gpiod_line_request of line.c; the error is the code set in err. -/
def g_gpiod_line_request (env : LineEnv) (st : GpiodLineState) (consumer : String)
    (rt : request_type) (active_low : Bool) (default_value : Int) :
    Except GpiodError Unit × GpiodLineState :=
  let config : gpiod_line_request_config :=
    { consumer := consumer, request_type := rt,
      flags := if active_low then GPIOD_LINE_REQUEST_FLAG_ACTIVE_LOW else 0 }
  let st1 := { st with calls := st.calls ++ [line_call.line_request config default_value] }
  match env.request_err with
  | some e => (Except.error (g_gpiod_error_from_errno e), st1)
  | none => (Except.ok (), st1)

/-- Function g_gpiod_line_request_input of line.c. -/
def g_gpiod_line_request_input (env : LineEnv) (st : GpiodLineState) (consumer : String)
    (active_low : Bool) : Except GpiodError Unit × GpiodLineState :=
  g_gpiod_line_request env st consumer request_type.GPIOD_LINE_REQUEST_DIRECTION_INPUT
    active_low 0

/-- Function g_gpiod_line_request_output of line.c. -/
def g_gpiod_line_request_output (env : LineEnv) (st : GpiodLineState) (consumer : String)
    (active_low : Bool) (default_value : Int) : Except GpiodError Unit × GpiodLineState :=
  g_gpiod_line_request env st consumer request_type.GPIOD_LINE_REQUEST_DIRECTION_OUTPUT
    active_low default_value

/-- The tail of g_gpiod_line_request_event of line.c once the request type is
chosen: the request, the event descriptor, the main-loop source. -/
def request_event_with (env : LineEnv) (st : GpiodLineState) (consumer : String)
    (active_low : Bool) (rt : request_type) : Except GpiodError Unit × GpiodLineState :=
  match g_gpiod_line_request env st consumer rt active_low 0 with
  | (Except.error e, st1) => (Except.error e, st1)
  | (Except.ok _, st1) =>
    let st2 := { st1 with calls := st1.calls ++ [line_call.line_event_get_fd] }
    let fd := env.event_fd
    if fd < 0 then
      (Except.error (g_gpiod_error_from_errno env.event_fd_errno),
       { st2 with calls := st2.calls ++ [line_call.line_release] })
    else
      (Except.ok (),
       { st2 with calls := st2.calls ++ [line_call.unix_fd_add fd],
                  event_source := env.source_tag })

/-- Function g_gpiod_line_request_event of line.c: ok is TRUE, an error is FALSE
with that code set in err. -/
def g_gpiod_line_request_event (env : LineEnv) (st : GpiodLineState) (consumer : String)
    (active_low rising_edge falling_edge : Bool) : Except GpiodError Unit × GpiodLineState :=
  if rising_edge && falling_edge then
    request_event_with env st consumer active_low
      request_type.GPIOD_LINE_REQUEST_EVENT_BOTH_EDGES
  else if rising_edge then
    request_event_with env st consumer active_low
      request_type.GPIOD_LINE_REQUEST_EVENT_RISING_EDGE
  else if falling_edge then
    request_event_with env st consumer active_low
      request_type.GPIOD_LINE_REQUEST_EVENT_FALLING_EDGE
  else
    (Except.error GpiodError.G_GPIOD_ERR_INVAL, st)

/-- Function g_gpiod_line_release of line.c. -/
def g_gpiod_line_release (st : GpiodLineState) : GpiodLineState :=
  let st1 := if st.event_source > 0
    then { st with calls := st.calls ++ [line_call.source_remove st.event_source] }
    else st
  { st1 with calls := st1.calls ++ [line_call.line_release] }

/-- The line requests among the calls made, in order. -/
def requests_made : List line_call → List (gpiod_line_request_config × Int)
  | [] => []
  | line_call.line_request config v :: rest => (config, v) :: requests_made rest
  | _ :: rest => requests_made rest

/-- A GpiodLine object for offset 4 on which nothing was called yet. -/
def fresh_line : GpiodLineState :=
  { self := { id := 0, handle := ⟨4⟩ }, event_source := 0, calls := [] }

/-- A core that accepts every request and hands out descriptor 7, source id 1. -/
def willing_env : LineEnv :=
  { request_err := none, event_fd := 7, event_fd_errno := 0, source_tag := 1 }

/-! ## lib/helpers.c: find a line on any chip -/

/-- What gpiod_line_find leaves behind: the line returned with the chip it
belongs to (none for NULL), errno, and the chips on which the lookup was made,
in order. -/
structure FindResult where
  line : Option (gpiod_chip × gpiod_line)
  errno : Nat
  examined : List gpiod_chip
deriving DecidableEq, Repr

/-- Loop of gpiod_line_find of helpers.c over the chips the iterator still has to
visit, with the label out and the final errno = ENOENT. -/
def line_find_loop (name : String) : Nat → List gpiod_chip → List gpiod_chip → FindResult
  | _, [], seen => { line := none, errno := ENOENT, examined := seen }
  | errno, chip :: rest, seen =>
    let r := gpiod_chip_find_line { chip := chip, errno := errno, calls := [] } name
    match r.1 with
    | some line => { line := some (chip, line), errno := r.2.errno, examined := seen ++ [chip] }
    | none =>
      if r.2.errno ≠ ENOENT then
        { line := none, errno := r.2.errno, examined := seen ++ [chip] }
      else line_find_loop name r.2.errno rest (seen ++ [chip])

/-- Function gpiod_line_find of helpers.c. -/
def gpiod_line_find (w : World) (errno : Nat) (name : String) : FindResult :=
  match w.chip_iter with
  | Except.error e => { line := none, errno := e, examined := [] }
  | Except.ok chips => line_find_loop name errno chips []

/-! ## bindings/glib/misc.c and the rest of chip.c -/

/-- The g_object_new(G_GPIOD_TYPE_CHIP, "handle", handle, NULL) of misc.c: the
instance is initialised, the handle property is set, and constructed runs. -/
def g_object_new_chip (w : World) (handle : gpiod_chip) : Option GpiodChip :=
  g_gpiod_chip_constructed w { g_gpiod_chip_init with handle := some handle }

/-- Function g_gpiod_get_all_chips of misc.c; the outer none is the abort of a
failed assertion. -/
def g_gpiod_get_all_chips (w : World) : Option (Except GpiodError (List GpiodChip)) :=
  match w.chip_iter with
  | Except.error e => some (Except.error (g_gpiod_error_from_errno e))
  | Except.ok handles =>
    match handles.mapM (g_object_new_chip w) with
    | none => none
    | some chips => some (Except.ok chips)

/-- Outcome of g_gpiod_chip_get_all_lines: the array of lines, NULL with the error
set, a read through a NULL registry or outside it, or a failed g_assert. -/
inductive GAllLinesResult where
  | lines (ls : List GpiodLine)
  | error (code : GpiodError)
  | invalid_read
  | assert_failed
deriving DecidableEq, Repr

/-- Loop of g_gpiod_chip_get_all_lines over the indices still to be fetched. -/
def g_gpiod_chip_get_all_lines_loop :
    GHeap → List GpiodLine → List Nat → GAllLinesResult × GHeap
  | h, lines, [] => (GAllLinesResult.lines lines, h)
  | h, lines, i :: rest =>
    match g_gpiod_chip_get_line h i with
    | (GLineResult.error e, h1) => (GAllLinesResult.error e, h1)
    | (GLineResult.invalid_read, h1) => (GAllLinesResult.invalid_read, h1)
    | (GLineResult.line line, h1) => g_gpiod_chip_get_all_lines_loop h1 (lines ++ [line]) rest

/-- Function g_gpiod_chip_get_all_lines of chip.c. -/
def g_gpiod_chip_get_all_lines (h : GHeap) : GAllLinesResult × GHeap :=
  match h.chip.handle with
  | none => (GAllLinesResult.assert_failed, h)
  | some handle =>
    g_gpiod_chip_get_all_lines_loop h [] (List.range (gpiod_chip_num_lines handle))

/-! ## Observations and sample systems used in the statements -/

/-- The offset reported by the line object a call returned, when it returned one. -/
def result_offset : GLineResult → Option Nat
  | GLineResult.line l => some (g_gpiod_line_get_offset l)
  | _ => none

/-- The identity of the line object a call returned, when it returned one. -/
def result_id : GLineResult → Option Nat
  | GLineResult.line l => some l.id
  | _ => none

/-- The number a string of decimal digits denotes. -/
def decimal_value (d : String) : Nat :=
  d.toList.foldl (fun n c => n * 10 + (c.toNat - 48)) 0

/-- A system with one chip, labelled gpio-mockup-A and reachable as /dev/gpiochip0. -/
def demo_world : World := one_chip_world (plain_chip 2)

/-- The scan over all lines of the chip: what chip_find_line looks for. -/
def scan_all (s : State) (name : String) : Option gpiod_line :=
  find_line_scan s name ((List.range s.chip.lines.length).map gpiod_line.mk)

/-- A chip of four lines named gpio-a, (unnamed), gpio-b, gpio-a; none watched. -/
def named_chip : gpiod_chip :=
  { name := "gpiochip0", label := "gpio-mockup-A",
    lines := [ { name := some "gpio-a", watched := false, ioerr := none },
               { name := none, watched := false, ioerr := none },
               { name := some "gpio-b", watched := false, ioerr := none },
               { name := some "gpio-a", watched := false, ioerr := none } ],
    iter_err := none, fifo := [], poll_err := none, watch_fd := 3 }

/-- The state of a process that has just opened named_chip. -/
def named_state : State := { chip := named_chip, errno := 0, calls := [] }

/-- The same process when creating a line iterator fails with EIO. -/
def failing_state : State :=
  { chip := { named_chip with iter_err := some EIO }, errno := 0, calls := [] }

/-! ## lib/helpers.c: bulk acquisition -/

/-- The C struct gpiod_line_bulk: the lines it holds, in index order. -/
abbrev gpiod_line_bulk := List gpiod_line

/-- Modelled from the spec: capacity of a bulk set (GPIOD_LINE_BULK_MAX_LINES of
gpiod.h, not among the sources). -/
def GPIOD_LINE_BULK_MAX_LINES : Nat := 64

/-- Modelled from the spec: gpiod_line_bulk_init (gpiod.h is not among the
sources): a bulk set is constructed empty. -/
def gpiod_line_bulk_init : gpiod_line_bulk := []

/-- Modelled from the spec: gpiod_line_bulk_add (gpiod.h is not among the
sources): appends the line at the end; adding to a set that is at capacity is a
precondition violation, which the C function cannot report (none). -/
def gpiod_line_bulk_add (bulk : gpiod_line_bulk) (line : gpiod_line) : Option gpiod_line_bulk :=
  if bulk.length < GPIOD_LINE_BULK_MAX_LINES then some (bulk ++ [line]) else none

/-- What a bulk acquisition leaves behind: the returned int, the output bulk set
and the state; none when a line was added to a full bulk set. -/
abbrev BulkResult := Option (Int × gpiod_line_bulk × State)

/-- Loop of chip_get_lines of helpers.c over the offsets still to be fetched. -/
def chip_get_lines_loop (watched : Bool) : State → gpiod_line_bulk → List Nat → BulkResult
  | s, bulk, [] => some (0, bulk, s)
  | s, bulk, off :: rest =>
    let r := if watched then Core.gpiod_chip_get_line_watched s off
             else Core.gpiod_chip_get_line s off
    match r.1 with
    | none =>
      if watched then some (-1, bulk, (gpiod_chip_unwatch_all r.2).2)
      else some (-1, bulk, r.2)
    | some line =>
      match gpiod_line_bulk_add bulk line with
      | none => none
      | some bulk1 => chip_get_lines_loop watched r.2 bulk1 rest

/-- Function chip_get_lines of helpers.c; the array offsets with its count
num_offsets is the list of offsets. -/
def chip_get_lines (s : State) (offsets : List Nat) (watched : Bool) : BulkResult :=
  chip_get_lines_loop watched s gpiod_line_bulk_init offsets

/-- Function gpiod_chip_get_lines of helpers.c. -/
def gpiod_chip_get_lines (s : State) (offsets : List Nat) : BulkResult :=
  chip_get_lines s offsets false

/-- Function gpiod_chip_get_lines_watched of helpers.c. -/
def gpiod_chip_get_lines_watched (s : State) (offsets : List Nat) : BulkResult :=
  chip_get_lines s offsets true

/-- Loop of chip_get_all_lines of helpers.c over the lines the iterator still
has to visit; on a failed watch the loop is left with the result of that watch. -/
def chip_get_all_lines_loop (watched : Bool) :
    State → gpiod_line_bulk → List gpiod_line → BulkResult
  | s, bulk, [] => some (0, bulk, s)
  | s, bulk, line :: rest =>
    if watched then
      let r := Core.gpiod_line_watch s line
      if r.1 ≠ 0 then some (r.1, bulk, (gpiod_chip_unwatch_all r.2).2)
      else
        match gpiod_line_bulk_add bulk line with
        | none => none
        | some bulk1 => chip_get_all_lines_loop watched r.2 bulk1 rest
    else
      match gpiod_line_bulk_add bulk line with
      | none => none
      | some bulk1 => chip_get_all_lines_loop watched s bulk1 rest

/-- Function chip_get_all_lines of helpers.c. -/
def chip_get_all_lines (s : State) (watched : Bool) : BulkResult :=
  match Core.gpiod_line_iter_new s with
  | (none, s1) => some (-1, gpiod_line_bulk_init, s1)
  | (some iter, s1) => chip_get_all_lines_loop watched s1 gpiod_line_bulk_init iter

/-- Function gpiod_chip_get_all_lines of helpers.c. -/
def gpiod_chip_get_all_lines (s : State) : BulkResult :=
  chip_get_all_lines s false

/-- Function gpiod_chip_get_all_lines_watched of helpers.c. -/
def gpiod_chip_get_all_lines_watched (s : State) : BulkResult :=
  chip_get_all_lines s true

/-- Loop of chip_find_lines of helpers.c over the names up to the NULL that ends
the array. -/
def chip_find_lines_loop (watched : Bool) : State → gpiod_line_bulk → List String → BulkResult
  | s, bulk, [] => some (0, bulk, s)
  | s, bulk, name :: rest =>
    let r := chip_find_line s name watched
    match r.1 with
    | none =>
      if watched then some (-1, bulk, (gpiod_chip_unwatch_all r.2).2)
      else some (-1, bulk, r.2)
    | some line =>
      match gpiod_line_bulk_add bulk line with
      | none => none
      | some bulk1 => chip_find_lines_loop watched r.2 bulk1 rest

/-- Function chip_find_lines of helpers.c. -/
def chip_find_lines (s : State) (names : List String) (watched : Bool) : BulkResult :=
  chip_find_lines_loop watched s gpiod_line_bulk_init names

/-- Function gpiod_chip_find_lines of helpers.c. -/
def gpiod_chip_find_lines (s : State) (names : List String) : BulkResult :=
  chip_find_lines s names false

/-- Function gpiod_chip_find_lines_watched of helpers.c. -/
def gpiod_chip_find_lines_watched (s : State) (names : List String) : BulkResult :=
  chip_find_lines s names true

/-- The state of a process that has just opened a chip of n plain lines. -/
def plain_state (n : Nat) : State := { chip := plain_chip n, errno := 0, calls := [] }

/-- The named chip with its first line already watched, in a process where
creating a line iterator fails with ENOMEM. -/
def stuck_state : State :=
  { chip := { named_chip with
                lines := [ { name := some "gpio-a", watched := true, ioerr := none },
                           { name := none, watched := false, ioerr := none },
                           { name := some "gpio-b", watched := false, ioerr := none },
                           { name := some "gpio-a", watched := false, ioerr := none } ],
                iter_err := some ENOMEM },
    errno := 0, calls := [] }

/-- Every watched line accepts an unwatch request: a per-line unwatch then fails
only with EBUSY, on a line that is not watched. -/
def unwatch_accepted (s : State) : Prop :=
  ∀ li ∈ s.chip.lines, li.watched = true → li.ioerr = none

/-- No line of the chip is watched. -/
def none_watched (s : State) : Prop :=
  ∀ li ∈ s.chip.lines, li.watched = false

/-- The named chip with the lines at offsets 0 and 2 watched. -/
def watching_state : State :=
  { chip := { named_chip with
                lines := [ { name := some "gpio-a", watched := true, ioerr := none },
                           { name := none, watched := false, ioerr := none },
                           { name := some "gpio-b", watched := true, ioerr := none },
                           { name := some "gpio-a", watched := false, ioerr := none } ] },
    errno := 0, calls := [] }

/-- The state a bulk acquisition returned in (the given state when a line was
added to a full bulk set). -/
def final_state (r : BulkResult) (s : State) : State :=
  match r with
  | some (_, _, s1) => s1
  | none => s

/-- The int a bulk acquisition returned, when it returned. -/
def returned (r : BulkResult) : Option Int := r.map fun x => x.1

/-- The bulk set a bulk acquisition left, when it returned. -/
def output_bulk (r : BulkResult) : Option gpiod_line_bulk := r.map fun x => x.2.1

/-- The named chip with three watch events queued for line 2: requested,
configuration changed, released. -/
def queued_state : State :=
  { chip := { named_chip with
                fifo := [ ⟨GPIOD_WATCH_EVENT_LINE_REQUESTED, ⟨10, 0⟩, ⟨2⟩⟩,
                          ⟨GPIOD_WATCH_EVENT_LINE_CONFIG_CHANGED, ⟨10, 500⟩, ⟨2⟩⟩,
                          ⟨GPIOD_WATCH_EVENT_LINE_RELEASED, ⟨11, 0⟩, ⟨2⟩⟩ ] },
    errno := 0, calls := [] }

/-! ## tools/gpiowatch.c -/

/-- The short option string of gpiowatch.c. -/
def shortopts : String := "+hvbn:sVf:"

/-- The long option table of gpiowatch.c: name, whether an argument is
required, and the option character returned. -/
def longopts : List (String × Bool × Char) :=
  [ ("help", false, 'h'), ("version", false, 'v'), ("line-buffered", false, 'b'),
    ("num-events", true, 'n'), ("silent", false, 's'), ("verbose", false, 'V'),
    ("filter", true, 'f') ]

/-- What getopt_long returns for a short option character: the character itself
when the option string lists it, the question mark otherwise. -/
def getopt_short (c : Char) : Char :=
  if c ≠ ':' ∧ c ≠ '+' ∧ c ∈ shortopts.toList then c else '?'

/-- What getopt_long returns for a long option name (the text between the two
dashes and an equals sign): the character of the table entry with exactly that
name; without one, the character of the only entry whose name starts with it;
the question mark when no entry or more than one entry starts with it (the
characters of the table are pairwise different, so two candidates are
ambiguous). -/
def getopt_long_name (name : String) : Char :=
  match longopts.find? (fun e => e.1 == name) with
  | some e => e.2.2
  | none =>
    match longopts.filter (fun e => name.toList.isPrefixOf e.1.toList) with
    | [e] => e.2.2
    | _ => '?'

/-- The C library isspace on a character of a C string. -/
def isspace (c : Char) : Bool := c.toNat = 32 ∨ (9 ≤ c.toNat ∧ c.toNat ≤ 13)

/-- The C library strtoul(str, &end, 10) with its end pointer: leading blanks, an
optional sign, then the digit run; the value (negated modulo 2^64 after a minus
sign, ULONG_MAX when out of range) and the characters left at end. Without any
digit the value is 0 and end is the whole string. -/
def strtoul_end (str : List Char) : Nat × List Char :=
  let body := str.dropWhile isspace
  let neg := body.head? == some '-'
  let digits := if body.head? == some '-' ∨ body.head? == some '+' then body.tail else body
  let run := digits.takeWhile isdigit
  if run.isEmpty then (0, str)
  else
    let v := strtoul_digits 0 run
    let v1 := if v > ULONG_MAX then ULONG_MAX else if neg then (2 ^ 64 - v) % 2 ^ 64 else v
    (v1, digits.dropWhile isdigit)

/-- The settings the option loop of gpiowatch main builds up. -/
structure watch_settings where
  line_buffered : Bool
  max_events : Nat
  silent : Bool
  verbose : Bool
deriving DecidableEq, Repr

/-- How the option loop of gpiowatch main goes on after an option: with new
settings, by leaving with EXIT_SUCCESS, through die, or through abort. -/
inductive opt_outcome where
  | proceed (settings : watch_settings)
  | exit_success
  | die
  | abort
deriving DecidableEq, Repr

/-- The switch of the option loop of gpiowatch main on the value getopt_long
returned, with its argument. -/
def handle_option (settings : watch_settings) (optc : Char) (optarg : String) : opt_outcome :=
  if optc = 'h' then opt_outcome.exit_success
  else if optc = 'v' then opt_outcome.exit_success
  else if optc = 'b' then opt_outcome.proceed { settings with line_buffered := true }
  else if optc = 'n' then
    let r := strtoul_end optarg.toList
    if r.2 ≠ [] then opt_outcome.die
    else opt_outcome.proceed { settings with max_events := to_uint r.1 }
  else if optc = 's' then opt_outcome.proceed { settings with silent := true }
  else if optc = 'V' then opt_outcome.proceed { settings with verbose := true }
  else if optc = '?' then opt_outcome.die
  else opt_outcome.abort

/-- The option loop of gpiowatch main over what getopt_long returns, option by
option. -/
def option_loop : watch_settings → List (Char × String) → opt_outcome
  | settings, [] => opt_outcome.proceed settings
  | settings, (optc, optarg) :: rest =>
    match handle_option settings optc optarg with
    | opt_outcome.proceed s1 => option_loop s1 rest
    | other => other

/-- The settings gpiowatch main starts from. -/
def initial_settings : watch_settings :=
  { line_buffered := false, max_events := 0, silent := false, verbose := false }

/-- The events of one batch that the event loop of gpiowatch main passes to
print_event. -/
def printed_events (settings : watch_settings) (events : List gpiod_watch_event) :
    List gpiod_watch_event :=
  if !settings.silent then events else []

/-- The memset of the snapshot array cfg of gpiowatch main: one NULL pointer per
slot, GPIOD_LINE_BULK_MAX_LINES slots. -/
def cfg_init (α : Type) : List (Option α) := List.replicate GPIOD_LINE_BULK_MAX_LINES none

/-- The snapshot loop of gpiowatch main (verbose mode) over the bulk set, from
position i: the slot cfg[offset] receives the snapshot of the line, where offset
is the loop variable that the macro gpiod_line_bulk_foreach_line_off (gpiod.h,
not among the sources) sets for the line at position i, here idx i line; none
when a slot outside the array is written. -/
def store_snapshots {α : Type} (idx : Nat → gpiod_line → Nat) (snap : gpiod_line → α) :
    List (Option α) → Nat → List gpiod_line → Option (List (Option α))
  | cfg, _, [] => some cfg
  | cfg, i, line :: rest =>
    if idx i line < cfg.length then
      store_snapshots idx snap (cfg.set (idx i line) (some (snap line))) (i + 1) rest
    else none

/-- The index into cfg used when an event is printed in verbose mode:
gpiod_line_offset of the event's line. -/
def snapshot_index (event : gpiod_watch_event) : Nat := gpiod_line_offset event.line

/-- The snapshot pointer cfg[offset] read for an event: the outer none is a read
outside the array, the inner none a NULL pointer. -/
def lookup_snapshot {α : Type} (cfg : List (Option α)) (event : gpiod_watch_event) :
    Option (Option α) :=
  cfg.get? (snapshot_index event)

/-- The seventeen errno values that the translation of error.c lists, in the
order of its switch. -/
def listed_errnos : List Int :=
  [EPERM, ENOENT, EINTR, EIO, ENXIO, EBADFD, ECHILD, EAGAIN, ENOMEM, EACCES, EFAULT, EBUSY,
   EEXIST, ENODEV, EINVAL, ENOTTY, EPIPE]

/-- The GpiodChip that g_gpiod_get_all_chips builds around the open handle of a
chip of two plain lines. -/
def handle_built_chip : GpiodChip :=
  { devname := none, construct_err := none, handle := some (plain_chip 2), lines := none }

/-- A system with three chips, in iteration order: a chip of two unnamed lines,
the named chip, and the named chip in a state where its line iterator fails with
EIO. -/
def three_chip_world : World :=
  { dev := fun _ => Except.error ENOENT,
    chip_iter := Except.ok [plain_chip 2, named_chip, failing_state.chip] }

/-- The same three chips with the failing one in the middle. -/
def broken_middle_world : World :=
  { dev := fun _ => Except.error ENOENT,
    chip_iter := Except.ok [plain_chip 2, failing_state.chip, named_chip] }

/-- The named chip in a state where creating its line iterator fails with
ENOENT. -/
def enoent_chip : gpiod_chip := { named_chip with iter_err := some ENOENT }

/-- A system whose only chip cannot be scanned, the failure being ENOENT. -/
def enoent_scan_world : World :=
  { dev := fun _ => Except.error ENOENT, chip_iter := Except.ok [enoent_chip] }

/-- A system with the chip that cannot be scanned followed by the named chip. -/
def enoent_then_named_world : World :=
  { dev := fun _ => Except.error ENOENT, chip_iter := Except.ok [enoent_chip, named_chip] }

/-- A system in which the chip iterator cannot be created, the failure being
ENOENT. -/
def no_chip_iter_world : World :=
  { dev := fun _ => Except.error ENOENT, chip_iter := Except.error ENOENT }

/-! # Theorems -/

/-! ## Theorems: the GLib line registry -/

/-- The chip object built by g_gpiod_chip_new over a chip of n lines is the
fresh GLib chip: an open handle and a registry of n NULL slots. -/
theorem g_gpiod_chip_new_fresh (n : Nat) :
    g_gpiod_chip_new (one_chip_world (plain_chip n)) "gpiochip0"
      = some (Except.ok (fresh_glib_chip n).chip) := by
  have h : gpiod_chip_open_lookup (one_chip_world (plain_chip n)) "gpiochip0"
      = (Except.ok (plain_chip n), [Probe.scan_chips, Probe.open_path "/dev/gpiochip0"]) := by
    have hu : isuint "gpiochip0" = false := by decide
    have hd : starts_with_dev "gpiochip0" = false := by decide
    have hl : first_with_label "gpiochip0" [plain_chip n] = none := by
      simp [first_with_label, plain_chip]
    simp [gpiod_chip_open_lookup, hu, hd, gpiod_chip_open_by_label, one_chip_world, hl,
      gpiod_chip_open_by_name, gpiod_chip_open]
  simp only [g_gpiod_chip_new, g_gpiod_chip_constructed, g_gpiod_chip_init, h]
  simp [g_gpiod_chip_initable_init, fresh_glib_chip, gpiod_chip_num_lines, plain_chip]

/-- C1, evaluated on the code: on the GpiodChip of any chip with at least three
lines, the calls g_gpiod_chip_get_line with offsets 1, 0, 2 all return a line
object (every core call succeeds), and the third call, made with offset 2,
returns the line object whose offset is 1. -/
theorem g_gpiod_chip_get_line_wrong_offset (n : Nat) :
    (get_line_calls (fresh_glib_chip (n + 3)) [1, 0, 2]).1.map result_offset
      = [some 1, some 0, some 1] := by
  simp [get_line_calls, g_gpiod_chip_get_line, fresh_glib_chip, g_ptr_array_index,
    g_ptr_array_set_size, List.replicate_succ, g_ptr_array_insert, gpiod_chip_get_line,
    plain_chip, result_offset, g_gpiod_line_get_offset, gpiod_line_offset]

/-- C2, evaluated on the code: on the GpiodChip of any chip with at least three
lines, the calls g_gpiod_chip_get_line with offsets 1, 0, 1 return for offset 1
two different line objects (identities 0 and 2), and the core
gpiod_chip_get_line is invoked twice with offset 1. -/
theorem g_gpiod_chip_get_line_duplicate_allocation (n : Nat) :
    (get_line_calls (fresh_glib_chip (n + 3)) [1, 0, 1]).1.map result_id
        = [some 0, some 1, some 2]
      ∧ (get_line_calls (fresh_glib_chip (n + 3)) [1, 0, 1]).1.map result_offset
        = [some 1, some 0, some 1]
      ∧ (get_line_calls (fresh_glib_chip (n + 3)) [1, 0, 1]).2.core_calls = [1, 0, 1]
      ∧ (get_line_calls (fresh_glib_chip (n + 3)) [1, 0, 1]).2.core_calls.count 1 = 2 := by
  have h : (get_line_calls (fresh_glib_chip (n + 3)) [1, 0, 1]).2.core_calls = [1, 0, 1] := by
    simp [get_line_calls, g_gpiod_chip_get_line, fresh_glib_chip, g_ptr_array_index,
      g_ptr_array_set_size, List.replicate_succ, g_ptr_array_insert, gpiod_chip_get_line,
      plain_chip]
  refine ⟨?_, ?_, h, ?_⟩
  · simp [get_line_calls, g_gpiod_chip_get_line, fresh_glib_chip, g_ptr_array_index,
      g_ptr_array_set_size, List.replicate_succ, g_ptr_array_insert, gpiod_chip_get_line,
      plain_chip, result_id]
  · simp [get_line_calls, g_gpiod_chip_get_line, fresh_glib_chip, g_ptr_array_index,
      g_ptr_array_set_size, List.replicate_succ, g_ptr_array_insert, gpiod_chip_get_line,
      plain_chip, result_offset, g_gpiod_line_get_offset, gpiod_line_offset]
  · rw [h]
    decide

/-- C3, evaluated on the code: on a freshly constructed GpiodChip of n lines,
g_gpiod_chip_get_line with any offset n + k (at or past the number of lines)
indexes the registry outside its n elements; no error is reported, the core is
not consulted and the object is unchanged. -/
theorem g_gpiod_chip_get_line_no_offset_check (n k : Nat) :
    g_gpiod_chip_get_line (fresh_glib_chip n) (n + k)
      = (GLineResult.invalid_read, fresh_glib_chip n) := by
  have h : (List.replicate n (none : Option GpiodLine)).get? (n + k) = none := by
    apply List.get?_eq_none.mpr
    simp
  simp only [g_gpiod_chip_get_line, fresh_glib_chip, g_ptr_array_index, g_ptr_array_set_size, h]

/-! ## Theorems: lookup-mode open -/

theorem isuint_chars_iff (cs : List Char) :
    isuint_chars cs = true ↔ ∀ c ∈ cs, isdigit c = true := by
  induction cs with
  | nil => simp [isuint_chars]
  | cons c cs ih =>
    by_cases hc : isdigit c = true
    · simp [isuint_chars, hc, ih]
    · simp [isuint_chars, hc]

theorem strtoul_digits_eq_foldl (cs : List Char) (h : ∀ c ∈ cs, isdigit c = true) (acc : Nat) :
    strtoul_digits acc cs = cs.foldl (fun n c => n * 10 + (c.toNat - 48)) acc := by
  induction cs generalizing acc with
  | nil => simp [strtoul_digits]
  | cons c cs ih =>
    have hc : isdigit c = true := h c (by simp)
    have hcs : ∀ x ∈ cs, isdigit x = true := fun x hx => h x (by simp [hx])
    simp [strtoul_digits, hc, ih hcs]

theorem strtoul_eq_decimal_value (d : String) (h : ∀ c ∈ d.toList, isdigit c = true)
    (hv : decimal_value d ≤ ULONG_MAX) : strtoul d = decimal_value d := by
  unfold strtoul
  rw [strtoul_digits_eq_foldl d.toList h 0]
  unfold decimal_value at hv ⊢
  exact Nat.min_eq_left hv

/-- For a descriptor of decimal digits whose value is below 2^32, both lookups
open exactly the device /dev/gpiochip followed by that number. -/
theorem open_lookup_number_small (w : World) (d : String)
    (h : ∀ c ∈ d.toList, isdigit c = true) (hv : decimal_value d < 2 ^ 32) :
    gpiod_chip_open_lookup w d
        = gpiod_chip_open w ("/dev/gpiochip" ++ Nat.repr (decimal_value d))
    ∧ chip_open_lookup w d
        = gpiod_chip_open w ("/dev/gpiochip" ++ Nat.repr (decimal_value d)) := by
  have hu : isuint d = true := (isuint_chars_iff d.toList).mpr h
  have hs : strtoul d = decimal_value d :=
    strtoul_eq_decimal_value d h (by unfold ULONG_MAX; omega)
  have ht : to_uint (decimal_value d) = decimal_value d := Nat.mod_eq_of_lt hv
  simp only [gpiod_chip_open_lookup, chip_open_lookup, hu, if_true, gpiod_chip_open_by_number,
    chip_open_by_number, hs, ht, and_self]

theorem starts_with_dev_iff (d : String) :
    starts_with_dev d = true ↔ "/dev/".toList <+: d.toList := by
  unfold starts_with_dev
  rw [List.prefix_iff_eq_take]
  have h5 : "/dev/".toList.length = 5 := by decide
  rw [h5]
  constructor
  · intro h
    exact (eq_of_beq h).symm
  · intro h
    rw [← h]
    exact beq_self_eq_true _

/-- C5, evaluated on the code: the descriptor 4294967296 (ten decimal digits,
denoting 2^32) makes both gpiod_chip_open_lookup and the tools' chip_open_lookup
open /dev/gpiochip0 and nothing else, in every system. -/
theorem open_lookup_number_wraps (w : World) :
    decimal_value "4294967296" = 4294967296
    ∧ gpiod_chip_open_lookup w "4294967296" = gpiod_chip_open w "/dev/gpiochip0"
    ∧ chip_open_lookup w "4294967296" = gpiod_chip_open w "/dev/gpiochip0" := by
  have hu : isuint "4294967296" = true := by decide
  have hv : to_uint (strtoul "4294967296") = 0 := by decide
  have hp : "/dev/gpiochip" ++ Nat.repr 0 = "/dev/gpiochip0" := by decide
  refine ⟨by decide, ?_, ?_⟩
  · simp only [gpiod_chip_open_lookup, hu, if_true, gpiod_chip_open_by_number, hv, hp]
  · simp only [chip_open_lookup, hu, if_true, chip_open_by_number, hv, hp]

/-- The value strtoul parses from a string of decimal digits: the number the
digits denote, or ULONG_MAX when an unsigned long cannot hold that number. -/
theorem strtoul_eq_min (d : String) (h : ∀ c ∈ d.toList, isdigit c = true) :
    strtoul d = min (decimal_value d) ULONG_MAX := by
  unfold strtoul
  rw [strtoul_digits_eq_foldl d.toList h 0]
  rfl

/-- C4 (amended): gpiod_chip_open_lookup is one ordered decision. If the
descriptor consists only of decimal digits, the whole lookup is the call
gpiod_chip_open_by_number on the number the digits denote when an unsigned long
holds it (at most ULONG_MAX), on ULONG_MAX when it does not, and the only probe
made is the path that call opens. Otherwise, when gpiod_chip_open_by_label
succeeds, the lookup is that call and its chip. Otherwise, when the descriptor
does not start with /dev/, the result is that of gpiod_chip_open_by_name, tried
after the label scan; and when it does start with /dev/, the result is that of
gpiod_chip_open on the descriptor as a path. -/
theorem gpiod_chip_open_lookup_ordered (w : World) (d : String) :
    ((∀ c ∈ d.toList, isdigit c = true) →
        (decimal_value d ≤ ULONG_MAX →
          gpiod_chip_open_lookup w d = gpiod_chip_open_by_number w (decimal_value d))
        ∧ (ULONG_MAX < decimal_value d →
          gpiod_chip_open_lookup w d = gpiod_chip_open_by_number w ULONG_MAX)
        ∧ (gpiod_chip_open_lookup w d).2
            = [Probe.open_path
                ("/dev/gpiochip" ++ Nat.repr (to_uint (min (decimal_value d) ULONG_MAX)))])
    ∧ (¬ (∀ c ∈ d.toList, isdigit c = true) →
        (∀ c, (gpiod_chip_open_by_label w d).1 = Except.ok c →
            gpiod_chip_open_lookup w d = gpiod_chip_open_by_label w d)
        ∧ (∀ e, (gpiod_chip_open_by_label w d).1 = Except.error e →
            (¬ "/dev/".toList <+: d.toList →
              gpiod_chip_open_lookup w d
                = ((gpiod_chip_open_by_name w d).1,
                   (gpiod_chip_open_by_label w d).2 ++ (gpiod_chip_open_by_name w d).2))
            ∧ ("/dev/".toList <+: d.toList →
              gpiod_chip_open_lookup w d
                = ((gpiod_chip_open w d).1,
                   (gpiod_chip_open_by_label w d).2 ++ (gpiod_chip_open w d).2)))) := by
  refine ⟨?_, ?_⟩
  · intro h
    have hu : isuint d = true := (isuint_chars_iff d.toList).mpr h
    have hs := strtoul_eq_min d h
    have hl : gpiod_chip_open_lookup w d
        = gpiod_chip_open_by_number w (min (decimal_value d) ULONG_MAX) := by
      simp [gpiod_chip_open_lookup, hu, hs]
    refine ⟨?_, ?_, ?_⟩
    · intro hv
      rw [hl, Nat.min_eq_left hv]
    · intro hv
      rw [hl, Nat.min_eq_right (Nat.le_of_lt hv)]
    · rw [hl]
      rfl
  · intro h
    have hu : isuint d = false := by
      cases hb : isuint d with
      | false => rfl
      | true => exact absurd ((isuint_chars_iff d.toList).mp hb) h
    refine ⟨?_, ?_⟩
    · intro c hc
      unfold gpiod_chip_open_lookup
      rcases hr : gpiod_chip_open_by_label w d with ⟨r, tr⟩
      rw [hr] at hc
      simp only at hc
      subst hc
      simp [hu]
    · intro e he
      rcases hr : gpiod_chip_open_by_label w d with ⟨r, tr⟩
      rw [hr] at he
      simp only at he
      subst he
      refine ⟨?_, ?_⟩
      · intro hp
        have hs : starts_with_dev d = false := by
          cases hb : starts_with_dev d with
          | false => rfl
          | true => exact absurd ((starts_with_dev_iff d).mp hb) hp
        simp [gpiod_chip_open_lookup, hu, hr, hs]
      · intro hp
        have hs : starts_with_dev d = true := (starts_with_dev_iff d).mpr hp
        simp [gpiod_chip_open_lookup, hu, hr, hs]

/-- Instances of the amended C4 in a system with one chip (label gpio-mockup-A,
node /dev/gpiochip0): a number, a number past ULONG_MAX, a label, a bare name
and a path. -/
theorem gpiod_chip_open_lookup_ordered_witness :
    gpiod_chip_open_lookup demo_world "0"
        = gpiod_chip_open_by_number demo_world (decimal_value "0")
    ∧ gpiod_chip_open_lookup demo_world "18446744073709551616"
        = gpiod_chip_open_by_number demo_world ULONG_MAX
    ∧ (gpiod_chip_open_lookup demo_world "0").2
        = [Probe.open_path
            ("/dev/gpiochip" ++ Nat.repr (to_uint (min (decimal_value "0") ULONG_MAX)))]
    ∧ gpiod_chip_open_lookup demo_world "gpio-mockup-A"
        = gpiod_chip_open_by_label demo_world "gpio-mockup-A"
    ∧ gpiod_chip_open_lookup demo_world "gpiochip0"
        = ((gpiod_chip_open_by_name demo_world "gpiochip0").1,
           (gpiod_chip_open_by_label demo_world "gpiochip0").2
             ++ (gpiod_chip_open_by_name demo_world "gpiochip0").2)
    ∧ gpiod_chip_open_lookup demo_world "/dev/gpiochip0"
        = ((gpiod_chip_open demo_world "/dev/gpiochip0").1,
           (gpiod_chip_open_by_label demo_world "/dev/gpiochip0").2
             ++ (gpiod_chip_open demo_world "/dev/gpiochip0").2) := by
  refine ⟨?_, ?_, ?_, ?_, ?_, ?_⟩
  · exact ((gpiod_chip_open_lookup_ordered demo_world "0").1 (by decide)).1 (by decide)
  · exact ((gpiod_chip_open_lookup_ordered demo_world "18446744073709551616").1
      (by decide)).2.1 (by decide)
  · exact ((gpiod_chip_open_lookup_ordered demo_world "0").1 (by decide)).2.2
  · exact ((gpiod_chip_open_lookup_ordered demo_world "gpio-mockup-A").2 (by decide)).1
      (plain_chip 2) rfl
  · exact ((((gpiod_chip_open_lookup_ordered demo_world "gpiochip0").2 (by decide)).2
      ENOENT rfl).1 (by decide))
  · exact ((((gpiod_chip_open_lookup_ordered demo_world "/dev/gpiochip0").2 (by decide)).2
      ENOENT rfl).2 (by decide))

/-- C4 as stated fails: the descriptor 18446744073709551616 consists only of
decimal digits and denotes 2^64; gpiod_chip_open_by_number of that value opens
/dev/gpiochip0, but gpiod_chip_open_lookup opens /dev/gpiochip4294967295, the
device of ULONG_MAX, so the lookup is not gpiod_chip_open_by_number of the value
of the descriptor. -/
theorem gpiod_chip_open_lookup_saturates :
    (∀ c ∈ "18446744073709551616".toList, isdigit c = true)
    ∧ decimal_value "18446744073709551616" = 2 ^ 64
    ∧ (∀ w : World, gpiod_chip_open_by_number w (decimal_value "18446744073709551616")
        = gpiod_chip_open w "/dev/gpiochip0")
    ∧ (∀ w : World, gpiod_chip_open_lookup w "18446744073709551616"
        = gpiod_chip_open w "/dev/gpiochip4294967295")
    ∧ ¬ (∀ (w : World) (d : String), (∀ c ∈ d.toList, isdigit c = true) →
          gpiod_chip_open_lookup w d = gpiod_chip_open_by_number w (decimal_value d)) := by
  have hd : ∀ c ∈ "18446744073709551616".toList, isdigit c = true := by decide
  have hv : decimal_value "18446744073709551616" = 2 ^ 64 := by decide
  have hn : ∀ w : World, gpiod_chip_open_by_number w (decimal_value "18446744073709551616")
      = gpiod_chip_open w "/dev/gpiochip0" := by
    intro w
    have hp : "/dev/gpiochip" ++ Nat.repr (to_uint (2 ^ 64)) = "/dev/gpiochip0" := by decide
    simp only [gpiod_chip_open_by_number, hv, hp]
  have hl : ∀ w : World, gpiod_chip_open_lookup w "18446744073709551616"
      = gpiod_chip_open w "/dev/gpiochip4294967295" := by
    intro w
    have hu : isuint "18446744073709551616" = true := by decide
    have hs : to_uint (strtoul "18446744073709551616") = 4294967295 := by decide
    have hp : "/dev/gpiochip" ++ Nat.repr 4294967295 = "/dev/gpiochip4294967295" := by decide
    simp only [gpiod_chip_open_lookup, hu, if_true, gpiod_chip_open_by_number, hs, hp]
  refine ⟨hd, hv, hn, hl, ?_⟩
  intro hall
  have h := hall demo_world "18446744073709551616" hd
  rw [hn, hl] at h
  have h2 := congrArg Prod.snd h
  simp only [gpiod_chip_open] at h2
  exact absurd h2 (by decide)

/-! ## Theorems: the C++ chip class -/

theorem throw_if_noref_open (self : chip) (a : Nat) (h : self._m_chip = some a) :
    self.throw_if_noref = Except.ok () := by
  simp [chip.throw_if_noref, h]

theorem num_lines_open (self : chip) (a : Nat) (h : self._m_chip = some a) (s : State) :
    self.num_lines s
      = (Except.ok s.chip.lines.length,
         { s with calls := s.calls ++ [core_call.chip_num_lines] }) := by
  simp [chip.num_lines, throw_if_noref_open self a h, Core.gpiod_chip_num_lines]

/-- C6: on an open chip, chip::get_line(offset, watched) raises std::out_of_range
exactly when offset >= num_lines(); in that case the only core call made is the
read of the number of lines (no gpiod_chip_get_line or
gpiod_chip_get_line_watched), and the chip, with the watch status of every line,
is as before, also when watched is true. -/
theorem chip_get_line_out_of_range (self : chip) (a : Nat) (h : self._m_chip = some a)
    (s : State) (offset : Nat) (watched : Bool) :
    ((self.get_line s offset watched).1 = Except.error exn.out_of_range
        ↔ offset ≥ gpiod_chip_num_lines s.chip)
    ∧ (offset ≥ gpiod_chip_num_lines s.chip →
        (self.get_line s offset watched).2
            = { s with calls := s.calls ++ [core_call.chip_num_lines] }
        ∧ (self.get_line s offset watched).2.chip = s.chip) := by
  unfold gpiod_chip_num_lines
  by_cases hge : offset ≥ s.chip.lines.length
  · have hr : self.get_line s offset watched
        = (Except.error exn.out_of_range,
           { s with calls := s.calls ++ [core_call.chip_num_lines] }) := by
      simp [chip.get_line, throw_if_noref_open self a h, num_lines_open self a h, hge]
    simp [hr, hge]
  · have hne : (self.get_line s offset watched).1 ≠ Except.error exn.out_of_range := by
      simp only [chip.get_line, throw_if_noref_open self a h, num_lines_open self a h, hge,
        if_false]
      split <;> simp
    simp [hne, hge]

/-- Instance of C6: an open chip of two lines, offset 2, watched true. -/
theorem chip_get_line_out_of_range_witness :
    ((chip.get_line { _m_chip := some 1 } { chip := plain_chip 2, errno := 0, calls := [] } 2 true).1
        = Except.error exn.out_of_range
        ↔ 2 ≥ gpiod_chip_num_lines (plain_chip 2))
    ∧ (2 ≥ gpiod_chip_num_lines (plain_chip 2) →
        (chip.get_line { _m_chip := some 1 } { chip := plain_chip 2, errno := 0, calls := [] } 2 true).2
            = { chip := plain_chip 2, errno := 0, calls := [] ++ [core_call.chip_num_lines] }
        ∧ (chip.get_line { _m_chip := some 1 } { chip := plain_chip 2, errno := 0, calls := [] } 2 true).2.chip
            = plain_chip 2) :=
  chip_get_line_out_of_range { _m_chip := some 1 } 1 rfl
    { chip := plain_chip 2, errno := 0, calls := [] } 2 true

/-- C7, evaluated on the code: after chip::reset(), name, label, num_lines,
get_line, find_line, get_all_lines, watch_event_wait, watch_event_read,
watch_event_read_multiple, watch_event_get_fd and unwatch_all raise
std::logic_error and make no core call, and so do get_lines and find_lines on a
non-empty list; but get_lines and find_lines on an empty list return an empty
bulk set without raising. -/
theorem chip_reset_empty_lists_return (c : chip) (s : State) (watched : Bool) :
    c.reset.get_lines s [] watched = (Except.ok [], s)
    ∧ c.reset.find_lines s [] watched = (Except.ok [], s)
    ∧ c.reset.name s = (Except.error exn.logic_error, s)
    ∧ c.reset.label s = (Except.error exn.logic_error, s)
    ∧ c.reset.num_lines s = (Except.error exn.logic_error, s)
    ∧ (∀ offset, c.reset.get_line s offset watched = (Except.error exn.logic_error, s))
    ∧ (∀ name, c.reset.find_line s name watched = (Except.error exn.logic_error, s))
    ∧ (∀ o os, c.reset.get_lines s (o :: os) watched = (Except.error exn.logic_error, s))
    ∧ (∀ n ns, c.reset.find_lines s (n :: ns) watched = (Except.error exn.logic_error, s))
    ∧ (∀ fuel, c.reset.get_all_lines (fuel + 1) s watched
        = some (Except.error exn.logic_error, s))
    ∧ (∀ timeout, c.reset.watch_event_wait s timeout = (Except.error exn.logic_error, s))
    ∧ c.reset.watch_event_read s = (Except.error exn.logic_error, s)
    ∧ c.reset.watch_event_read_multiple s = (Except.error exn.logic_error, s)
    ∧ c.reset.watch_event_get_fd s = (Except.error exn.logic_error, s)
    ∧ c.reset.unwatch_all s = (Except.error exn.logic_error, s) := by
  have hn : c.reset.throw_if_noref = Except.error exn.logic_error := rfl
  have hnum : c.reset.num_lines s = (Except.error exn.logic_error, s) := by
    simp [chip.num_lines, hn]
  have hget : ∀ offset, c.reset.get_line s offset watched
      = (Except.error exn.logic_error, s) := by
    intro offset
    simp [chip.get_line, hn]
  have hfind : ∀ name, c.reset.find_line s name watched
      = (Except.error exn.logic_error, s) := by
    intro name
    simp [chip.find_line, hn]
  refine ⟨rfl, rfl, ?_, ?_, hnum, hget, hfind, ?_, ?_, ?_, ?_, ?_, ?_, ?_, ?_⟩
  · simp [chip.name, hn]
  · simp [chip.label, hn]
  · intro o os
    simp [chip.get_lines, chip.get_lines_loop, hget]
  · intro n ns
    simp [chip.find_lines, chip.find_lines_loop, hfind]
  · intro fuel
    simp [chip.get_all_lines, chip.get_all_lines_loop, hnum]
  · intro timeout
    simp [chip.watch_event_wait, hn]
  · simp [chip.watch_event_read, hn]
  · simp [chip.watch_event_read_multiple, hn]
  · simp [chip.watch_event_get_fd, hn]
  · simp [chip.unwatch_all, hn]

/-! ## Theorems: find by name -/

/-- What the scan loop of chip_find_line establishes over the lines with offsets
b, b + 1, ..., b + k - 1. -/
theorem find_line_scan_range (s : State) (name : String) (k b : Nat) :
    match find_line_scan s name ((List.range' b k).map gpiod_line.mk) with
    | some l =>
        b ≤ l.offset ∧ l.offset < b + k ∧ Core.gpiod_line_name s l = some name
          ∧ ∀ j, b ≤ j → j < l.offset → Core.gpiod_line_name s ⟨j⟩ ≠ some name
    | none => ∀ j, b ≤ j → j < b + k → Core.gpiod_line_name s ⟨j⟩ ≠ some name := by
  induction k generalizing b with
  | zero =>
    simp only [List.range', List.map_nil, find_line_scan]
    intro j h1 h2
    omega
  | succ k ih =>
    simp only [List.range', List.map_cons, find_line_scan]
    have ih1 := ih (b + 1)
    cases hn : Core.gpiod_line_name s ⟨b⟩ with
    | none =>
      simp only
      cases hr : find_line_scan s name ((List.range' (b + 1) k).map gpiod_line.mk) with
      | none =>
        rw [hr] at ih1
        simp only at ih1 ⊢
        intro j h1 h2
        by_cases hj : j = b
        · subst hj
          rw [hn]
          simp
        · exact ih1 j (by omega) (by omega)
      | some l =>
        rw [hr] at ih1
        simp only at ih1 ⊢
        obtain ⟨h1, h2, h3, h4⟩ := ih1
        refine ⟨by omega, by omega, h3, ?_⟩
        intro j hj1 hj2
        by_cases hj : j = b
        · subst hj
          rw [hn]
          simp
        · exact h4 j (by omega) hj2
    | some tmp =>
      simp only
      by_cases ht : tmp = name
      · subst ht
        simp only [if_true]
        refine ⟨le_refl _, by omega, hn, ?_⟩
        intro j hj1 hj2
        omega
      · simp only [ht, if_false]
        cases hr : find_line_scan s name ((List.range' (b + 1) k).map gpiod_line.mk) with
        | none =>
          rw [hr] at ih1
          simp only at ih1 ⊢
          intro j h1 h2
          by_cases hj : j = b
          · subst hj
            rw [hn]
            simp [ht]
          · exact ih1 j (by omega) (by omega)
        | some l =>
          rw [hr] at ih1
          simp only at ih1 ⊢
          obtain ⟨h1, h2, h3, h4⟩ := ih1
          refine ⟨by omega, by omega, h3, ?_⟩
          intro j hj1 hj2
          by_cases hj : j = b
          · subst hj
            rw [hn]
            simp [ht]
          · exact h4 j (by omega) hj2

/-- The scan reads the state only through the chip. -/
theorem find_line_scan_chip (t s : State) (name : String) (ls : List gpiod_line)
    (ht : t.chip.lines.map line_info.name = s.chip.lines.map line_info.name) :
    find_line_scan t name ls = find_line_scan s name ls := by
  have hname : ∀ l, Core.gpiod_line_name t l = Core.gpiod_line_name s l := by
    intro l
    have h1 : (t.chip.lines.map line_info.name).get? l.offset
        = (s.chip.lines.map line_info.name).get? l.offset := by rw [ht]
    rw [List.get?_eq_getElem?, List.get?_eq_getElem?, List.getElem?_map, List.getElem?_map] at h1
    unfold Core.gpiod_line_name
    rw [List.get?_eq_getElem?, List.get?_eq_getElem?]
    cases ha : t.chip.lines[l.offset]? <;> cases hb : s.chip.lines[l.offset]? <;>
      rw [ha, hb] at h1 <;> simp at h1 ⊢
    exact h1
  induction ls with
  | nil => rfl
  | cons l ls ih => simp [find_line_scan, hname, ih]

/-- Function chip_find_line without watching, when the iterator can be created. -/
theorem chip_find_line_unwatched (s : State) (name : String) (h : s.chip.iter_err = none) :
    chip_find_line s name false
      = match scan_all s name with
        | some l => (some l, { s with calls := s.calls ++ [core_call.line_iter_new] })
        | none => (none, { s with calls := s.calls ++ [core_call.line_iter_new],
                                  errno := ENOENT }) := by
  simp only [chip_find_line, Core.gpiod_line_iter_new, h, scan_all]
  rw [find_line_scan_chip { s with calls := s.calls ++ [core_call.line_iter_new] } s name _ rfl]
  cases find_line_scan s name ((List.range s.chip.lines.length).map gpiod_line.mk) <;> simp

/-- The scan over all lines, characterised: a result is the first line carrying
the name; no result means no line below the line count carries it. -/
theorem scan_all_spec (s : State) (name : String) :
    match scan_all s name with
    | some l =>
        l.offset < s.chip.lines.length ∧ Core.gpiod_line_name s l = some name
          ∧ ∀ j, j < l.offset → Core.gpiod_line_name s ⟨j⟩ ≠ some name
    | none => ∀ j, j < s.chip.lines.length → Core.gpiod_line_name s ⟨j⟩ ≠ some name := by
  have h := find_line_scan_range s name s.chip.lines.length 0
  rw [← List.range_eq_range'] at h
  unfold scan_all
  cases hr : find_line_scan s name ((List.range s.chip.lines.length).map gpiod_line.mk) with
  | none =>
    rw [hr] at h
    simp only at h ⊢
    intro j hj
    exact h j (Nat.zero_le _) (by omega)
  | some l =>
    rw [hr] at h
    simp only at h ⊢
    obtain ⟨_, h2, h3, h4⟩ := h
    exact ⟨by omega, h3, fun j hj => h4 j (Nat.zero_le _) hj⟩

theorem scan_all_none_of_no_name (s : State) (name : String)
    (h : ∀ li ∈ s.chip.lines, li.name ≠ some name) : scan_all s name = none := by
  have hs := scan_all_spec s name
  cases hr : scan_all s name with
  | none => rfl
  | some l =>
    rw [hr] at hs
    simp only at hs
    obtain ⟨h1, h2, _⟩ := hs
    exfalso
    unfold Core.gpiod_line_name at h2
    rw [List.get?_eq_getElem?, List.getElem?_eq_getElem h1] at h2
    simp only at h2
    exact h _ (List.getElem_mem _) h2

theorem scan_all_some_of_name (s : State) (name : String)
    (h : ∃ li ∈ s.chip.lines, li.name = some name) : ∃ l, scan_all s name = some l := by
  have hs := scan_all_spec s name
  cases hr : scan_all s name with
  | some l => exact ⟨l, rfl⟩
  | none =>
    rw [hr] at hs
    simp only at hs
    exfalso
    obtain ⟨li, hmem, hname⟩ := h
    obtain ⟨j, hj, hget⟩ := List.getElem_of_mem hmem
    apply hs j hj
    unfold Core.gpiod_line_name
    rw [List.get?_eq_getElem?, List.getElem?_eq_getElem hj]
    simp only
    rw [hget, hname]

/-- Function chip_find_line when no line carries the name: NULL with errno ENOENT,
whether or not the line was to be watched. -/
theorem chip_find_line_not_found (s : State) (name : String) (watched : Bool)
    (h : s.chip.iter_err = none) (hscan : scan_all s name = none) :
    chip_find_line s name watched
      = (none, { s with calls := s.calls ++ [core_call.line_iter_new], errno := ENOENT }) := by
  unfold scan_all at hscan
  simp only [chip_find_line, Core.gpiod_line_iter_new, h]
  rw [find_line_scan_chip { s with calls := s.calls ++ [core_call.line_iter_new] } s name _ rfl,
    hscan]

/-- C8: for an open chip whose line enumeration succeeds and on which no line
carries the name, gpiod_chip_find_line returns NULL with errno ENOENT and
chip::find_line (watched or not) returns the empty line without raising; and
whenever the C lookup that chip::find_line calls returns NULL with an errno
other than ENOENT, chip::find_line raises std::system_error with that errno. -/
theorem find_line_not_found_is_not_failure (self : chip) (a : Nat)
    (hopen : self._m_chip = some a) :
    (∀ (s : State) (name : String) (watched : Bool),
        s.chip.iter_err = none → (∀ li ∈ s.chip.lines, li.name ≠ some name) →
        (gpiod_chip_find_line s name).1 = none
        ∧ (gpiod_chip_find_line s name).2.errno = ENOENT
        ∧ (self.find_line s name watched).1 = Except.ok line.empty)
    ∧ (∀ (s : State) (name : String) (watched : Bool),
        (if watched then gpiod_chip_find_line_watched s name
          else gpiod_chip_find_line s name).1 = none →
        (if watched then gpiod_chip_find_line_watched s name
          else gpiod_chip_find_line s name).2.errno ≠ ENOENT →
        (self.find_line s name watched).1
          = Except.error (exn.system_error
              (if watched then gpiod_chip_find_line_watched s name
                else gpiod_chip_find_line s name).2.errno)) := by
  refine ⟨?_, ?_⟩
  · intro s name watched hiter hnone
    have hscan := scan_all_none_of_no_name s name hnone
    have hf := chip_find_line_not_found s name false hiter hscan
    have hw := chip_find_line_not_found s name watched hiter hscan
    refine ⟨?_, ?_, ?_⟩
    · simp [gpiod_chip_find_line, hf]
    · simp [gpiod_chip_find_line, hf]
    · cases watched <;>
        simp [chip.find_line, throw_if_noref_open self a hopen, gpiod_chip_find_line,
          gpiod_chip_find_line_watched, hf, hw]
  · intro s name watched h1 h2
    simp only [chip.find_line, throw_if_noref_open self a hopen]
    rw [h1]
    simp [h2]

/-- Instances of C8 on a four-line chip: a name no line carries, and a lookup
whose line iterator cannot be created (errno EIO). -/
theorem find_line_not_found_is_not_failure_witness :
    ((gpiod_chip_find_line named_state "nonexistent").1 = none
      ∧ (gpiod_chip_find_line named_state "nonexistent").2.errno = ENOENT
      ∧ (chip.find_line { _m_chip := some 1 } named_state "nonexistent" true).1
          = Except.ok line.empty)
    ∧ (chip.find_line { _m_chip := some 1 } failing_state "gpio-a" false).1
        = Except.error (exn.system_error EIO) :=
  ⟨(find_line_not_found_is_not_failure { _m_chip := some 1 } 1 rfl).1
      named_state "nonexistent" true rfl (by decide),
   (find_line_not_found_is_not_failure { _m_chip := some 1 } 1 rfl).2
      failing_state "gpio-a" false rfl (by decide)⟩

/-- C9: gpiod_chip_find_line is a linear scan. Whenever it returns a line, the
line is one of the chip, its kernel-reported name equals the requested name, and
no line of lower offset (earlier in the iteration) carries that name; a line
without a name is never returned, whatever name is requested; and when the line
iterator can be created and some line carries the name, a line is returned. -/
theorem gpiod_chip_find_line_linear_scan (s : State) (name : String) :
    (∀ l, (gpiod_chip_find_line s name).1 = some l →
        l.offset < gpiod_chip_num_lines s.chip
        ∧ Core.gpiod_line_name s l = some name
        ∧ ∀ j, j < l.offset → Core.gpiod_line_name s ⟨j⟩ ≠ some name)
    ∧ (∀ l, Core.gpiod_line_name s l = none → (gpiod_chip_find_line s name).1 ≠ some l)
    ∧ (s.chip.iter_err = none → (∃ li ∈ s.chip.lines, li.name = some name) →
        ∃ l, (gpiod_chip_find_line s name).1 = some l) := by
  have key : ∀ l, (gpiod_chip_find_line s name).1 = some l →
      l.offset < gpiod_chip_num_lines s.chip
      ∧ Core.gpiod_line_name s l = some name
      ∧ ∀ j, j < l.offset → Core.gpiod_line_name s ⟨j⟩ ≠ some name := by
    intro l hl
    cases hiter : s.chip.iter_err with
    | some e =>
      simp [gpiod_chip_find_line, chip_find_line, Core.gpiod_line_iter_new, hiter] at hl
    | none =>
      have hs := scan_all_spec s name
      rw [gpiod_chip_find_line, chip_find_line_unwatched s name hiter] at hl
      cases hr : scan_all s name with
      | none =>
        rw [hr] at hl
        simp at hl
      | some l1 =>
        rw [hr] at hl hs
        simp only [Option.some.injEq] at hl hs
        subst hl
        exact hs
  refine ⟨key, ?_, ?_⟩
  · intro l hnone hl
    have h := (key l hl).2.1
    rw [hnone] at h
    exact Option.noConfusion h
  · intro hiter hex
    obtain ⟨l, hl⟩ := scan_all_some_of_name s name hex
    refine ⟨l, ?_⟩
    rw [gpiod_chip_find_line, chip_find_line_unwatched s name hiter, hl]

/-- Instance of C9: on the chip with lines gpio-a, (unnamed), gpio-b, gpio-a the
lookup of gpio-b returns the line at offset 2, after passing the unnamed line. -/
theorem gpiod_chip_find_line_linear_scan_witness :
    (gpiod_chip_find_line named_state "gpio-b").1 = some ⟨2⟩
    ∧ (2 < gpiod_chip_num_lines named_state.chip
        ∧ Core.gpiod_line_name named_state ⟨2⟩ = some "gpio-b"
        ∧ ∀ j, j < 2 → Core.gpiod_line_name named_state ⟨j⟩ ≠ some "gpio-b")
    ∧ (gpiod_chip_find_line named_state "gpio-a").1 ≠ some ⟨1⟩
    ∧ ∃ l, (gpiod_chip_find_line named_state "gpio-a").1 = some l :=
  ⟨rfl,
   (gpiod_chip_find_line_linear_scan named_state "gpio-b").1 ⟨2⟩ rfl,
   (gpiod_chip_find_line_linear_scan named_state "gpio-a").2.1 ⟨1⟩ rfl,
   (gpiod_chip_find_line_linear_scan named_state "gpio-a").2.2 rfl
     ⟨{ name := some "gpio-a", watched := false, ioerr := none }, by decide, rfl⟩⟩

/-! ## Theorems: chip::find_lines -/

theorem set_watched_names (ls : List line_info) (o : Nat) (v : Bool) :
    (set_watched ls o v).map line_info.name = ls.map line_info.name := by
  induction ls generalizing o with
  | nil => rfl
  | cons li rest ih =>
    cases o with
    | zero => simp [set_watched]
    | succ n => simp [set_watched, ih]

theorem set_watched_get_ne (ls : List line_info) (o j : Nat) (v : Bool) (h : j ≠ o) :
    (set_watched ls o v).get? j = ls.get? j := by
  induction ls generalizing o j with
  | nil => rfl
  | cons li rest ih =>
    cases o with
    | zero =>
      cases j with
      | zero => exact absurd rfl h
      | succ m => simp [set_watched]
    | succ n =>
      cases j with
      | zero => simp [set_watched]
      | succ m =>
        have := ih n m (by omega)
        simpa [set_watched] using this

theorem scan_all_congr (t s : State) (name : String)
    (h : t.chip.lines.map line_info.name = s.chip.lines.map line_info.name) :
    scan_all t name = scan_all s name := by
  have hlen : t.chip.lines.length = s.chip.lines.length := by
    have := congrArg List.length h
    simpa using this
  unfold scan_all
  rw [hlen]
  exact find_line_scan_chip t s name _ h

/-- With the iterator available, the unwatched C lookup returns the scan result,
and NULL comes with errno ENOENT. -/
theorem gpiod_chip_find_line_eq_scan (s : State) (name : String) (h : s.chip.iter_err = none) :
    (gpiod_chip_find_line s name).1 = scan_all s name
    ∧ (scan_all s name = none → (gpiod_chip_find_line s name).2.errno = ENOENT) := by
  rw [gpiod_chip_find_line, chip_find_line_unwatched s name h]
  cases scan_all s name <;> simp

/-- Method chip::find_line when the scan finds no line: the empty line. -/
theorem find_line_missing (self : chip) (a : Nat) (hopen : self._m_chip = some a)
    (s : State) (name : String) (watched : Bool)
    (hiter : s.chip.iter_err = none) (hscan : scan_all s name = none) :
    self.find_line s name watched
      = (Except.ok line.empty,
         { s with calls := s.calls ++ [core_call.line_iter_new], errno := ENOENT }) := by
  have hw := chip_find_line_not_found s name watched hiter hscan
  have hf := chip_find_line_not_found s name false hiter hscan
  cases watched <;>
    simp [chip.find_line, throw_if_noref_open self a hopen, gpiod_chip_find_line,
      gpiod_chip_find_line_watched, hf, hw]

/-- Core gpiod_line_watch on a line that is not watched and that the kernel
accepts: success, and exactly that line becomes watched. -/
theorem gpiod_line_watch_ok (s : State) (l : gpiod_line) (li : line_info)
    (hget : s.chip.lines.get? l.offset = some li) (hwf : li.watched = false)
    (hio : li.ioerr = none) :
    Core.gpiod_line_watch s l
      = (0, { chip := { s.chip with lines := set_watched s.chip.lines l.offset true },
              errno := s.errno,
              calls := s.calls ++ [core_call.line_watch l.offset] }) := by
  unfold Core.gpiod_line_watch
  rw [hget]
  simp [hwf, hio]

/-- Method chip::find_line when the scan finds a line (and, if it is to be
watched, the line is not yet watched and the kernel accepts the request): that
line, bound to this chip; the names and the iterator are as before, and only the
found line may have become watched. -/
theorem find_line_found (self : chip) (a : Nat) (hopen : self._m_chip = some a)
    (s : State) (name : String) (watched : Bool) (l : gpiod_line)
    (hiter : s.chip.iter_err = none) (hscan : scan_all s name = some l)
    (hw : watched = true →
      ∃ li, s.chip.lines.get? l.offset = some li ∧ li.watched = false ∧ li.ioerr = none) :
    ∃ s1, self.find_line s name watched = (Except.ok { _m_line := some l, _m_chip := self }, s1)
      ∧ s1.chip.iter_err = none
      ∧ s1.chip.lines = (if watched then set_watched s.chip.lines l.offset true
                          else s.chip.lines) := by
  have hscan1 : find_line_scan { s with calls := s.calls ++ [core_call.line_iter_new] } name
      ((List.range s.chip.lines.length).map gpiod_line.mk) = some l :=
    (find_line_scan_chip { s with calls := s.calls ++ [core_call.line_iter_new] } s name _
      rfl).trans hscan
  cases watched with
  | false =>
    refine ⟨{ s with calls := s.calls ++ [core_call.line_iter_new] }, ?_, hiter, by simp⟩
    simp [chip.find_line, throw_if_noref_open self a hopen, gpiod_chip_find_line,
      chip_find_line, Core.gpiod_line_iter_new, hiter, hscan1]
  | true =>
    obtain ⟨li, hget, hwf, hio⟩ := hw rfl
    have hwatch := gpiod_line_watch_ok { s with calls := s.calls ++ [core_call.line_iter_new] }
      l li hget hwf hio
    refine ⟨{ chip := { s.chip with lines := set_watched s.chip.lines l.offset true },
              errno := s.errno,
              calls := s.calls ++ [core_call.line_iter_new] ++ [core_call.line_watch l.offset] },
            ?_, hiter, by simp⟩
    simp only [chip.find_line, throw_if_noref_open self a hopen, gpiod_chip_find_line_watched,
      chip_find_line, Core.gpiod_line_iter_new, hiter, hscan1, hwatch]
    simp

/-- The append of line_bulk below capacity, for a line of the same chip as the
lines already held. -/
theorem line_bulk_append_ok (acc : line_bulk) (l : line) (hlen : acc.length < MAX_LINES)
    (hchip : ∀ x ∈ acc, x._m_chip = l._m_chip) :
    line_bulk.append acc l = Except.ok (acc ++ [l]) := by
  unfold line_bulk.append
  rw [if_neg (by omega)]
  cases acc with
  | nil => rfl
  | cons x xs =>
    have hx : x._m_chip = l._m_chip := hchip x (by simp)
    simp [hx]

/-- The loop of chip::find_lines, from any point of the iteration: with room
left in the bulk set for the remaining names and every watch request bound to
succeed, the loop ends with the empty set when a remaining name has no line, and
otherwise with the lines gathered so far followed by the lines of the remaining
names, in order. -/
theorem find_lines_loop_spec (self : chip) (a : Nat) (hopen : self._m_chip = some a)
    (watched : Bool) (names : List String) :
    ∀ (s : State) (acc : line_bulk),
      s.chip.iter_err = none →
      acc.length + names.length ≤ MAX_LINES →
      (∀ x ∈ acc, x._m_chip = self) →
      (watched = true → names.Nodup ∧ ∀ n ∈ names, ∀ l, scan_all s n = some l →
          ∃ li, s.chip.lines.get? l.offset = some li ∧ li.watched = false ∧ li.ioerr = none) →
      ((∃ n ∈ names, scan_all s n = none) →
          (chip.find_lines_loop self watched s acc names).1 = Except.ok [])
      ∧ ((∀ n ∈ names, scan_all s n ≠ none) →
          (chip.find_lines_loop self watched s acc names).1
            = Except.ok (acc ++ names.map fun n => { _m_line := scan_all s n, _m_chip := self })) := by
  induction names with
  | nil =>
    intro s acc _ _ _ _
    refine ⟨?_, ?_⟩
    · rintro ⟨n, hn, _⟩
      simp at hn
    · intro _
      simp [chip.find_lines_loop]
  | cons n ns ih =>
    intro s acc hiter hcap hacc hwatch
    cases hsc : scan_all s n with
    | none =>
      have hm := find_line_missing self a hopen s n watched hiter hsc
      refine ⟨?_, ?_⟩
      · intro _
        simp [chip.find_lines_loop, hm, line.empty, line.is_empty]
      · intro hall
        exact absurd hsc (hall n (by simp))
    | some l =>
      have hwl : watched = true →
          ∃ li, s.chip.lines.get? l.offset = some li ∧ li.watched = false ∧ li.ioerr = none :=
        fun hw => (hwatch hw).2 n (by simp) l hsc
      obtain ⟨s1, hfl, hit1, hlines1⟩ := find_line_found self a hopen s n watched l hiter hsc hwl
      have hnames1 : s1.chip.lines.map line_info.name = s.chip.lines.map line_info.name := by
        rw [hlines1]
        cases watched
        · simp
        · simp [set_watched_names]
      have hscan1 : ∀ m, scan_all s1 m = scan_all s m :=
        fun m => scan_all_congr s1 s m hnames1
      have hlen : acc.length < MAX_LINES := by
        simp only [List.length_cons] at hcap
        omega
      have happ := line_bulk_append_ok acc { _m_line := some l, _m_chip := self } hlen
        (fun x hx => hacc x hx)
      have hstep : chip.find_lines_loop self watched s acc (n :: ns)
          = chip.find_lines_loop self watched s1
              (acc ++ [{ _m_line := some l, _m_chip := self }]) ns := by
        simp [chip.find_lines_loop, hfl, line.is_empty, happ]
      have hacc1 : ∀ x ∈ acc ++ [({ _m_line := some l, _m_chip := self } : line)],
          x._m_chip = self := by
        intro x hx
        rcases List.mem_append.mp hx with h | h
        · exact hacc x h
        · simp at h
          rw [h]
      have hcap1 : (acc ++ [({ _m_line := some l, _m_chip := self } : line)]).length
          + ns.length ≤ MAX_LINES := by
        simp only [List.length_cons, List.length_append, List.length_nil] at hcap ⊢
        omega
      have hwatch1 : watched = true → ns.Nodup ∧ ∀ m ∈ ns, ∀ l1, scan_all s1 m = some l1 →
          ∃ li, s1.chip.lines.get? l1.offset = some li ∧ li.watched = false ∧ li.ioerr = none := by
        intro hw
        obtain ⟨hnd, hall⟩ := hwatch hw
        have hnd1 : ns.Nodup := (List.nodup_cons.mp hnd).2
        have hnotin : n ∉ ns := (List.nodup_cons.mp hnd).1
        refine ⟨hnd1, ?_⟩
        intro m hm l1 hl1
        rw [hscan1 m] at hl1
        obtain ⟨li, hget, hwf, hio⟩ := hall m (by simp [hm]) l1 hl1
        have hne : l1.offset ≠ l.offset := by
          intro heq
          have h1 := scan_all_spec s m
          have h2 := scan_all_spec s n
          rw [hl1] at h1
          rw [hsc] at h2
          simp only at h1 h2
          have e1 : l1 = l := by
            cases l1
            cases l
            simp_all
          have hmn : some m = some n := by
            rw [← h1.2.1, ← h2.2.1, e1]
          have : m = n := Option.some.inj hmn
          exact hnotin (this ▸ hm)
        refine ⟨li, ?_, hwf, hio⟩
        rw [hlines1, hw]
        simp only [if_true]
        rw [set_watched_get_ne _ _ _ _ hne]
        exact hget
      obtain ⟨ihA, ihB⟩ := ih s1 _ hit1 hcap1 hacc1 hwatch1
      refine ⟨?_, ?_⟩
      · rintro ⟨m, hm, hmn⟩
        rw [hstep]
        apply ihA
        rcases List.mem_cons.mp hm with h | h
        · rw [h, hsc] at hmn
          exact Option.noConfusion hmn
        · exact ⟨m, h, (hscan1 m).trans hmn⟩
      · intro hall
        rw [hstep, ihB (fun m hm => by rw [hscan1 m]; exact hall m (by simp [hm]))]
        have hf : (fun m => ({ _m_line := scan_all s1 m, _m_chip := self } : line))
            = fun m => { _m_line := scan_all s m, _m_chip := self } := by
          funext m
          rw [hscan1 m]
        rw [hf]
        simp [hsc]

/-- Function chip_find_line when the line iterator cannot be created: NULL with
the errno of that failure. -/
theorem chip_find_line_iter_fails (s : State) (name : String) (watched : Bool) (e : Nat)
    (h : s.chip.iter_err = some e) :
    chip_find_line s name watched
      = (none, { s with calls := s.calls ++ [core_call.line_iter_new], errno := e }) := by
  simp [chip_find_line, Core.gpiod_line_iter_new, h]

/-- C10 (amended): chip::find_lines is short-circuiting. On an open chip, for
every list of at most 64 names (the capacity of a bulk set) - and, when the
lines are to be watched, pairwise different names whose lines are not yet watched
and accept the watch request - if some name is not found (the C lookup gives NULL
with ENOENT) the result is the empty bulk set, and if every name is found the
result has exactly one line per name, the i-th being the line found for the i-th
name, bound to this chip. -/
theorem chip_find_lines_short_circuit (self : chip) (a : Nat) (hopen : self._m_chip = some a)
    (s : State) (names : List String) (watched : Bool)
    (hcap : names.length ≤ MAX_LINES)
    (hwatch : watched = true → names.Nodup ∧
      ∀ n ∈ names, ∀ l, (gpiod_chip_find_line s n).1 = some l →
        ∃ li, s.chip.lines.get? l.offset = some li ∧ li.watched = false ∧ li.ioerr = none) :
    ((∃ n ∈ names, (gpiod_chip_find_line s n).1 = none
          ∧ (gpiod_chip_find_line s n).2.errno = ENOENT) →
        (self.find_lines s names watched).1 = Except.ok [])
    ∧ ((∀ n ∈ names, (gpiod_chip_find_line s n).1 ≠ none) →
        (self.find_lines s names watched).1
          = Except.ok (names.map fun n =>
              { _m_line := (gpiod_chip_find_line s n).1, _m_chip := self })
        ∧ ((self.find_lines s names watched).1.toOption.map List.length = some names.length)) := by
  cases hiter : s.chip.iter_err with
  | none =>
    have heq : ∀ n, (gpiod_chip_find_line s n).1 = scan_all s n :=
      fun n => (gpiod_chip_find_line_eq_scan s n hiter).1
    have hw1 : watched = true → names.Nodup ∧ ∀ n ∈ names, ∀ l, scan_all s n = some l →
        ∃ li, s.chip.lines.get? l.offset = some li ∧ li.watched = false ∧ li.ioerr = none := by
      intro hw
      refine ⟨(hwatch hw).1, fun n hn l hl => (hwatch hw).2 n hn l ?_⟩
      rw [heq n]
      exact hl
    obtain ⟨hA, hB⟩ := find_lines_loop_spec self a hopen watched names s [] hiter
      (by simpa using hcap) (by simp) hw1
    refine ⟨?_, ?_⟩
    · rintro ⟨n, hn, hnone, _⟩
      exact hA ⟨n, hn, by rw [← heq n]; exact hnone⟩
    · intro hall
      have hres := hB (fun n hn => by rw [← heq n]; exact hall n hn)
      have hf : (fun n => ({ _m_line := scan_all s n, _m_chip := self } : line))
          = fun n => { _m_line := (gpiod_chip_find_line s n).1, _m_chip := self } := by
        funext n
        rw [heq n]
      rw [hf] at hres
      simp only [List.nil_append] at hres
      unfold chip.find_lines
      rw [hres]
      simp [Except.toOption]
  | some e =>
    have hc : ∀ n w, chip_find_line s n w
        = (none, { s with calls := s.calls ++ [core_call.line_iter_new], errno := e }) :=
      fun n w => chip_find_line_iter_fails s n w e hiter
    refine ⟨?_, ?_⟩
    · rintro ⟨n, hn, _, herr⟩
      have he : e = ENOENT := by
        simpa [gpiod_chip_find_line, hc] using herr
      cases names with
      | nil => simp at hn
      | cons m ms =>
        cases watched <;>
          simp [chip.find_lines, chip.find_lines_loop, chip.find_line,
            throw_if_noref_open self a hopen, gpiod_chip_find_line,
            gpiod_chip_find_line_watched, hc, he, line.empty, line.is_empty]
    · intro hall
      cases names with
      | nil => simp [chip.find_lines, chip.find_lines_loop, Except.toOption]
      | cons m ms =>
        exact absurd (by simp [gpiod_chip_find_line, hc]) (hall m (by simp))

/-- On the four-line chip every line a lookup can return is unwatched and
accepts a watch request. -/
theorem named_state_lines_unwatched (n : String) (l : gpiod_line)
    (h : (gpiod_chip_find_line named_state n).1 = some l) :
    ∃ li, named_state.chip.lines.get? l.offset = some li ∧ li.watched = false
      ∧ li.ioerr = none := by
  have hlt : l.offset < 4 := by
    have h1 := (gpiod_chip_find_line_eq_scan named_state n rfl).1
    rw [h] at h1
    have h2 := scan_all_spec named_state n
    rw [← h1] at h2
    exact h2.1
  rcases l with ⟨o⟩
  simp only at hlt ⊢
  interval_cases o <;> exact ⟨_, rfl, rfl, rfl⟩

/-- Instances of the amended C10 on the chip with lines gpio-a, (unnamed), gpio-b,
gpio-a, watching the lines found: a list with a name no line carries gives the
empty set; a list of two names that are found gives their two lines in order. -/
theorem chip_find_lines_short_circuit_witness :
    (chip.find_lines { _m_chip := some 1 } named_state
        ["gpio-b", "nonexistent", "gpio-a"] true).1 = Except.ok []
    ∧ (chip.find_lines { _m_chip := some 1 } named_state ["gpio-b", "gpio-a"] true).1
        = Except.ok [ { _m_line := some ⟨2⟩, _m_chip := { _m_chip := some 1 } },
                      { _m_line := some ⟨0⟩, _m_chip := { _m_chip := some 1 } } ] :=
  ⟨(chip_find_lines_short_circuit { _m_chip := some 1 } 1 rfl named_state
        ["gpio-b", "nonexistent", "gpio-a"] true (by decide)
        (fun _ => ⟨by decide, fun n _ l hl => named_state_lines_unwatched n l hl⟩)).1
      ⟨"nonexistent", by decide, rfl, rfl⟩,
   ((chip_find_lines_short_circuit { _m_chip := some 1 } 1 rfl named_state
        ["gpio-b", "gpio-a"] true (by decide)
        (fun _ => ⟨by decide, fun n _ l hl => named_state_lines_unwatched n l hl⟩)).2
      (by decide)).1⟩

set_option maxRecDepth 100000 in
/-- C10 as stated fails: on the chip with lines gpio-a, (unnamed), gpio-b, gpio-a
the list of 65 times the name gpio-a has every name found, yet chip::find_lines
(without watching) raises std::logic_error from the 65th append instead of
returning a bulk set with one line per name. -/
theorem chip_find_lines_over_capacity :
    (∀ n ∈ List.replicate 65 "gpio-a", (gpiod_chip_find_line named_state n).1 = some ⟨0⟩)
    ∧ (chip.find_lines { _m_chip := some 1 } named_state (List.replicate 65 "gpio-a") false).1
        = Except.error exn.logic_error
    ∧ ¬ ∃ lines, (chip.find_lines { _m_chip := some 1 } named_state
          (List.replicate 65 "gpio-a") false).1 = Except.ok lines := by
  have hres : (chip.find_lines { _m_chip := some 1 } named_state
      (List.replicate 65 "gpio-a") false).1 = Except.error exn.logic_error := by rfl
  refine ⟨?_, hres, ?_⟩
  · intro n hn
    rw [List.eq_of_mem_replicate hn]
    rfl
  · rintro ⟨lines, hl⟩
    rw [hres] at hl
    exact Except.noConfusion hl

/-- With watching, a name listed twice is found both times, yet the second
lookup raises std::system_error(EBUSY): its line is already watched. -/
theorem chip_find_lines_watched_twice :
    (chip.find_lines { _m_chip := some 1 } named_state ["gpio-a", "gpio-a"] true).1
      = Except.error (exn.system_error EBUSY) := by
  rfl

/-! ## Theorems: unwatch all -/

theorem set_watched_length (ls : List line_info) (o : Nat) (v : Bool) :
    (set_watched ls o v).length = ls.length := by
  have h := congrArg List.length (set_watched_names ls o v)
  simpa using h

theorem set_watched_get_eq (ls : List line_info) (o : Nat) (v : Bool) :
    (set_watched ls o v).get? o = (ls.get? o).map fun li => { li with watched := v } := by
  induction ls generalizing o with
  | nil => rfl
  | cons li rest ih =>
    cases o with
    | zero => simp [set_watched]
    | succ n =>
      have := ih n
      simpa [set_watched] using this

theorem mem_of_get? {α : Type} (ls : List α) (j : Nat) (x : α) (h : ls.get? j = some x) :
    x ∈ ls := by
  exact List.get?_mem h

theorem get?_of_mem {α : Type} (ls : List α) (x : α) (h : x ∈ ls) :
    ∃ j, ls.get? j = some x := by
  obtain ⟨j, hj, hx⟩ := List.getElem_of_mem h
  refine ⟨j, ?_⟩
  rw [List.get?_eq_getElem?, List.getElem?_eq_getElem hj, hx]

/-- One step of the unwatch loop on a line of the chip, when every watched line
accepts the unwatch: the loop goes on, the line is not watched afterwards, the
other lines and the iterator are untouched. -/
theorem unwatch_step (s : State) (l : gpiod_line) (hlt : l.offset < s.chip.lines.length)
    (hacc : unwatch_accepted s) :
    ¬ ((Core.gpiod_line_unwatch s l).1 ≠ 0 ∧ (Core.gpiod_line_unwatch s l).2.errno ≠ EBUSY)
    ∧ (Core.gpiod_line_unwatch s l).2.chip.iter_err = s.chip.iter_err
    ∧ (Core.gpiod_line_unwatch s l).2.chip.lines.length = s.chip.lines.length
    ∧ (∀ li, (Core.gpiod_line_unwatch s l).2.chip.lines.get? l.offset = some li →
        li.watched = false)
    ∧ (∀ j, j ≠ l.offset →
        (Core.gpiod_line_unwatch s l).2.chip.lines.get? j = s.chip.lines.get? j)
    ∧ unwatch_accepted (Core.gpiod_line_unwatch s l).2 := by
  have hget : s.chip.lines.get? l.offset = some (s.chip.lines.get ⟨l.offset, hlt⟩) :=
    List.get?_eq_get hlt
  generalize s.chip.lines.get ⟨l.offset, hlt⟩ = li0 at hget
  cases hw : li0.watched with
  | false =>
    have hr : Core.gpiod_line_unwatch s l
        = (-1, { chip := s.chip, errno := EBUSY,
                 calls := s.calls ++ [core_call.line_unwatch l.offset] }) := by
      unfold Core.gpiod_line_unwatch
      rw [hget]
      simp [hw]
    rw [hr]
    refine ⟨by simp, rfl, rfl, ?_, fun _ _ => rfl, hacc⟩
    intro li hli
    simp only at hli
    rw [hget] at hli
    rw [← Option.some.inj hli]
    exact hw
  | true =>
    have hio : li0.ioerr = none := hacc li0 (mem_of_get? _ _ _ hget) hw
    have hr : Core.gpiod_line_unwatch s l
        = (0, { chip := { s.chip with lines := set_watched s.chip.lines l.offset false },
                errno := s.errno,
                calls := s.calls ++ [core_call.line_unwatch l.offset] }) := by
      unfold Core.gpiod_line_unwatch
      rw [hget]
      simp [hw, hio]
    rw [hr]
    refine ⟨by simp, rfl, set_watched_length _ _ _, ?_, ?_, ?_⟩
    · intro li hli
      simp only at hli
      rw [set_watched_get_eq, hget] at hli
      simp only [Option.map_some'] at hli
      rw [← Option.some.inj hli]
    · intro j hj
      exact set_watched_get_ne _ _ _ _ hj
    · intro li hmem hwli
      simp only at hmem
      obtain ⟨j, hj⟩ := get?_of_mem _ _ hmem
      by_cases hjo : j = l.offset
      · subst hjo
        rw [set_watched_get_eq, hget] at hj
        simp only [Option.map_some'] at hj
        rw [← Option.some.inj hj] at hwli
        simp at hwli
      · rw [set_watched_get_ne _ _ _ _ hjo] at hj
        exact hacc li (mem_of_get? _ _ _ hj) hwli

/-- The unwatch loop over the lines with offsets b, ..., b + k - 1, the last
lines of the chip: when every watched line accepts the unwatch and the lines
below b are not watched, no line is watched when the loop ends. -/
theorem unwatch_all_loop_clears (k : Nat) :
    ∀ (b : Nat) (s : State) (ret : Int),
      b + k = s.chip.lines.length → unwatch_accepted s →
      (∀ j li, j < b → s.chip.lines.get? j = some li → li.watched = false) →
      none_watched (unwatch_all_loop s ret ((List.range' b k).map gpiod_line.mk)).2
      ∧ (unwatch_all_loop s ret ((List.range' b k).map gpiod_line.mk)).2.chip.iter_err
          = s.chip.iter_err
      ∧ (unwatch_all_loop s ret ((List.range' b k).map gpiod_line.mk)).2.chip.lines.length
          = s.chip.lines.length := by
  induction k with
  | zero =>
    intro b s ret hlen _ hbelow
    simp only [List.range', List.map_nil, unwatch_all_loop]
    refine ⟨?_, trivial, trivial⟩
    intro li hmem
    obtain ⟨j, hj⟩ := get?_of_mem _ _ hmem
    have hjlt : j < s.chip.lines.length := by
      rw [List.get?_eq_getElem?] at hj
      exact (List.getElem?_eq_some_iff.mp hj).1
    exact hbelow j li (by omega) hj
  | succ k ih =>
    intro b s ret hlen hacc hbelow
    have hlt : (gpiod_line.mk b).offset < s.chip.lines.length := by
      simp only
      omega
    obtain ⟨hgo, hit, hl, hself, hother, hacc1⟩ := unwatch_step s ⟨b⟩ hlt hacc
    simp only [List.range', List.map_cons, unwatch_all_loop]
    rw [if_neg hgo]
    have hbelow1 : ∀ j li, j < b + 1 →
        (Core.gpiod_line_unwatch s ⟨b⟩).2.chip.lines.get? j = some li → li.watched = false := by
      intro j li hj hget
      by_cases hjb : j = b
      · subst hjb
        exact hself li hget
      · rw [hother j hjb] at hget
        exact hbelow j li (by omega) hget
    obtain ⟨h1, h2, h3⟩ := ih (b + 1) (Core.gpiod_line_unwatch s ⟨b⟩).2
      (Core.gpiod_line_unwatch s ⟨b⟩).1 (by rw [hl]; omega) hacc1 hbelow1
    exact ⟨h1, h2.trans hit, h3.trans hl⟩

/-- Function gpiod_chip_unwatch_all when the line iterator can be created and
every watched line accepts the unwatch: afterwards no line of the chip is
watched. -/
theorem unwatch_all_clears (s : State) (hiter : s.chip.iter_err = none)
    (hacc : unwatch_accepted s) :
    none_watched (gpiod_chip_unwatch_all s).2
    ∧ (gpiod_chip_unwatch_all s).2.chip.iter_err = none
    ∧ (gpiod_chip_unwatch_all s).2.chip.lines.length = s.chip.lines.length := by
  have h := unwatch_all_loop_clears s.chip.lines.length 0
    { s with calls := s.calls ++ [core_call.line_iter_new] } 0 (by simp) hacc
    (fun j li hj _ => absurd hj (Nat.not_lt_zero j))
  rw [← List.range_eq_range'] at h
  simp only [gpiod_chip_unwatch_all, Core.gpiod_line_iter_new, hiter]
  exact ⟨h.1, h.2.1.trans hiter, h.2.2⟩

/-- C15 (amended): gpiod_chip_unwatch_all clears the watch status of every line
on the chip: for every chip and every initial set of watched lines, when the
line iterator can be created and each per-line unwatch either succeeds or fails
with EBUSY on a line that is not watched, no line of the chip is watched after
the call. -/
theorem gpiod_chip_unwatch_all_clears_watches (s : State) (hiter : s.chip.iter_err = none)
    (hacc : unwatch_accepted s) :
    none_watched (gpiod_chip_unwatch_all s).2 :=
  (unwatch_all_clears s hiter hacc).1

/-- Instance of the amended C15: the four-line chip with lines 0 and 2 watched. -/
theorem gpiod_chip_unwatch_all_clears_watches_witness :
    ¬ none_watched watching_state ∧ none_watched (gpiod_chip_unwatch_all watching_state).2 :=
  ⟨by unfold none_watched; decide,
   gpiod_chip_unwatch_all_clears_watches watching_state rfl
     (by unfold unwatch_accepted; decide)⟩

/-- C15 as stated fails: when the line iterator cannot be created (here ENOMEM),
gpiod_chip_unwatch_all returns -1 before any per-line unwatch is made, so no
per-line unwatch fails at all, and the watched line at offset 0 is still
watched after the call. -/
theorem gpiod_chip_unwatch_all_iterator_failure :
    unwatch_accepted stuck_state
    ∧ (gpiod_chip_unwatch_all stuck_state).1 = -1
    ∧ (gpiod_chip_unwatch_all stuck_state).2.calls = [core_call.line_iter_new]
    ∧ ((gpiod_chip_unwatch_all stuck_state).2.chip.lines.get? 0).map line_info.watched
        = some true
    ∧ ¬ none_watched (gpiod_chip_unwatch_all stuck_state).2 := by
  refine ⟨by unfold unwatch_accepted; decide, by decide, by decide, by decide, ?_⟩
  unfold none_watched
  decide

/-! ## Theorems: watched bulk acquisition -/

/-- Core gpiod_line_watch leaves the iterator and the number of lines as they
are, and a line it puts under watch accepts the unwatch. -/
theorem watch_preserves (s : State) (l : gpiod_line) :
    (Core.gpiod_line_watch s l).2.chip.iter_err = s.chip.iter_err
    ∧ (Core.gpiod_line_watch s l).2.chip.lines.length = s.chip.lines.length
    ∧ (unwatch_accepted s → unwatch_accepted (Core.gpiod_line_watch s l).2) := by
  cases hget : s.chip.lines.get? l.offset with
  | none =>
    have hr : Core.gpiod_line_watch s l
        = (-1, { chip := s.chip, errno := EINVAL,
                 calls := s.calls ++ [core_call.line_watch l.offset] }) := by
      unfold Core.gpiod_line_watch
      rw [hget]
    rw [hr]
    exact ⟨rfl, rfl, fun h => h⟩
  | some li0 =>
    cases hw : li0.watched with
    | true =>
      have hr : Core.gpiod_line_watch s l
          = (-1, { chip := s.chip, errno := EBUSY,
                   calls := s.calls ++ [core_call.line_watch l.offset] }) := by
        unfold Core.gpiod_line_watch
        rw [hget]
        simp [hw]
      rw [hr]
      exact ⟨rfl, rfl, fun h => h⟩
    | false =>
      cases hio : li0.ioerr with
      | some e =>
        have hr : Core.gpiod_line_watch s l
            = (-1, { chip := s.chip, errno := e,
                     calls := s.calls ++ [core_call.line_watch l.offset] }) := by
          unfold Core.gpiod_line_watch
          rw [hget]
          simp [hw, hio]
        rw [hr]
        exact ⟨rfl, rfl, fun h => h⟩
      | none =>
        rw [gpiod_line_watch_ok s l li0 hget hw hio]
        refine ⟨rfl, set_watched_length _ _ _, ?_⟩
        intro hacc li hmem hwli
        simp only at hmem
        obtain ⟨j, hj⟩ := get?_of_mem _ _ hmem
        by_cases hjo : j = l.offset
        · subst hjo
          rw [set_watched_get_eq, hget] at hj
          simp only [Option.map_some'] at hj
          rw [← Option.some.inj hj]
          exact hio
        · rw [set_watched_get_ne _ _ _ _ hjo] at hj
          exact hacc li (mem_of_get? _ _ _ hj) hwli

/-- Core gpiod_chip_get_line_watched: same preservation as gpiod_line_watch. -/
theorem get_line_watched_preserves (s : State) (offset : Nat) :
    (Core.gpiod_chip_get_line_watched s offset).2.chip.iter_err = s.chip.iter_err
    ∧ (Core.gpiod_chip_get_line_watched s offset).2.chip.lines.length = s.chip.lines.length
    ∧ (unwatch_accepted s → unwatch_accepted (Core.gpiod_chip_get_line_watched s offset).2) := by
  unfold Core.gpiod_chip_get_line_watched
  cases hg : Gpiod.gpiod_chip_get_line s.chip offset with
  | error e => exact ⟨rfl, rfl, fun h => h⟩
  | ok l =>
    have hp := watch_preserves
      { s with calls := s.calls ++ [core_call.chip_get_line_watched offset] } l
    simp only
    split <;> exact hp

/-- Function chip_find_line: same preservation, watched or not. -/
theorem chip_find_line_preserves (s : State) (name : String) (watched : Bool) :
    (chip_find_line s name watched).2.chip.iter_err = s.chip.iter_err
    ∧ (chip_find_line s name watched).2.chip.lines.length = s.chip.lines.length
    ∧ (unwatch_accepted s → unwatch_accepted (chip_find_line s name watched).2) := by
  unfold chip_find_line Core.gpiod_line_iter_new
  cases hiter : s.chip.iter_err with
  | some e => exact ⟨hiter.symm ▸ rfl, rfl, fun h => h⟩
  | none =>
    simp only
    cases find_line_scan { s with calls := s.calls ++ [core_call.line_iter_new] } name
        ((List.range s.chip.lines.length).map gpiod_line.mk) with
    | none => exact ⟨hiter.symm ▸ rfl, rfl, fun h => h⟩
    | some l =>
      have hp := watch_preserves { s with calls := s.calls ++ [core_call.line_iter_new] } l
      simp only
      cases watched with
      | false => exact ⟨hiter.symm ▸ rfl, rfl, fun h => h⟩
      | true =>
        simp only [if_true]
        rw [hiter] at hp
        split <;> exact hp

/-- The loop of chip_get_lines with watching, from any point: a failure is
returned out of gpiod_chip_unwatch_all, with no line left watched. -/
theorem chip_get_lines_loop_failure (offs : List Nat) :
    ∀ (s : State) (acc : gpiod_line_bulk), s.chip.iter_err = none → unwatch_accepted s →
      ∀ ret b s1, chip_get_lines_loop true s acc offs = some (ret, b, s1) → ret ≠ 0 →
        (∃ sm, s1 = (gpiod_chip_unwatch_all sm).2) ∧ none_watched s1 := by
  induction offs with
  | nil =>
    intro s acc _ _ ret b s1 h hret
    simp only [chip_get_lines_loop, Option.some.injEq, Prod.mk.injEq] at h
    exact absurd h.1.symm hret
  | cons off rest ih =>
    intro s acc hiter hacc ret b s1 h hret
    obtain ⟨hp1, _, hp3⟩ := get_line_watched_preserves s off
    simp only [chip_get_lines_loop, if_true] at h
    cases hr : (Core.gpiod_chip_get_line_watched s off).1 with
    | none =>
      rw [hr] at h
      simp only [Option.some.injEq, Prod.mk.injEq] at h
      refine ⟨⟨_, h.2.2.symm⟩, ?_⟩
      rw [← h.2.2]
      exact (unwatch_all_clears _ (hp1.trans hiter) (hp3 hacc)).1
    | some line =>
      rw [hr] at h
      simp only at h
      cases hadd : gpiod_line_bulk_add acc line with
      | none =>
        rw [hadd] at h
        exact Option.noConfusion h
      | some b1 =>
        rw [hadd] at h
        exact ih _ b1 (hp1.trans hiter) (hp3 hacc) ret b s1 h hret

/-- The loop of chip_get_all_lines with watching, from any point of the
iteration: same as for chip_get_lines. -/
theorem chip_get_all_lines_loop_failure (ls : List gpiod_line) :
    ∀ (s : State) (acc : gpiod_line_bulk), s.chip.iter_err = none → unwatch_accepted s →
      ∀ ret b s1, chip_get_all_lines_loop true s acc ls = some (ret, b, s1) → ret ≠ 0 →
        (∃ sm, s1 = (gpiod_chip_unwatch_all sm).2) ∧ none_watched s1 := by
  induction ls with
  | nil =>
    intro s acc _ _ ret b s1 h hret
    simp only [chip_get_all_lines_loop, Option.some.injEq, Prod.mk.injEq] at h
    exact absurd h.1.symm hret
  | cons line rest ih =>
    intro s acc hiter hacc ret b s1 h hret
    obtain ⟨hp1, _, hp3⟩ := watch_preserves s line
    simp only [chip_get_all_lines_loop, if_true] at h
    by_cases hw : (Core.gpiod_line_watch s line).1 ≠ 0
    · rw [if_pos hw] at h
      simp only [Option.some.injEq, Prod.mk.injEq] at h
      refine ⟨⟨_, h.2.2.symm⟩, ?_⟩
      rw [← h.2.2]
      exact (unwatch_all_clears _ (hp1.trans hiter) (hp3 hacc)).1
    · rw [if_neg hw] at h
      cases hadd : gpiod_line_bulk_add acc line with
      | none =>
        rw [hadd] at h
        exact Option.noConfusion h
      | some b1 =>
        rw [hadd] at h
        exact ih _ b1 (hp1.trans hiter) (hp3 hacc) ret b s1 h hret

/-- The loop of chip_find_lines with watching, from any point: same as for
chip_get_lines. -/
theorem chip_find_lines_loop_failure (names : List String) :
    ∀ (s : State) (acc : gpiod_line_bulk), s.chip.iter_err = none → unwatch_accepted s →
      ∀ ret b s1, chip_find_lines_loop true s acc names = some (ret, b, s1) → ret ≠ 0 →
        (∃ sm, s1 = (gpiod_chip_unwatch_all sm).2) ∧ none_watched s1 := by
  induction names with
  | nil =>
    intro s acc _ _ ret b s1 h hret
    simp only [chip_find_lines_loop, Option.some.injEq, Prod.mk.injEq] at h
    exact absurd h.1.symm hret
  | cons name rest ih =>
    intro s acc hiter hacc ret b s1 h hret
    obtain ⟨hp1, _, hp3⟩ := chip_find_line_preserves s name true
    simp only [chip_find_lines_loop, if_true] at h
    cases hr : (chip_find_line s name true).1 with
    | none =>
      rw [hr] at h
      simp only [Option.some.injEq, Prod.mk.injEq] at h
      refine ⟨⟨_, h.2.2.symm⟩, ?_⟩
      rw [← h.2.2]
      exact (unwatch_all_clears _ (hp1.trans hiter) (hp3 hacc)).1
    | some line =>
      rw [hr] at h
      simp only at h
      cases hadd : gpiod_line_bulk_add acc line with
      | none =>
        rw [hadd] at h
        exact Option.noConfusion h
      | some b1 =>
        rw [hadd] at h
        exact ih _ b1 (hp1.trans hiter) (hp3 hacc) ret b s1 h hret

/-- C14 (amended): when a watched multi-line acquisition
(gpiod_chip_get_lines_watched, gpiod_chip_get_all_lines_watched,
gpiod_chip_find_lines_watched) fails partway, the state it returns in is the one
gpiod_chip_unwatch_all left, and - provided the line iterator can be created and
every per-line unwatch either succeeds or fails with EBUSY on a line that is not
watched - no line of the chip is watched afterwards. -/
theorem watched_acquisition_failure_unwatches (s : State) (hiter : s.chip.iter_err = none)
    (hacc : unwatch_accepted s) :
    (∀ offsets ret b s1, gpiod_chip_get_lines_watched s offsets = some (ret, b, s1) →
        ret ≠ 0 → (∃ sm, s1 = (gpiod_chip_unwatch_all sm).2) ∧ none_watched s1)
    ∧ (∀ ret b s1, gpiod_chip_get_all_lines_watched s = some (ret, b, s1) →
        ret ≠ 0 → (∃ sm, s1 = (gpiod_chip_unwatch_all sm).2) ∧ none_watched s1)
    ∧ (∀ names ret b s1, gpiod_chip_find_lines_watched s names = some (ret, b, s1) →
        ret ≠ 0 → (∃ sm, s1 = (gpiod_chip_unwatch_all sm).2) ∧ none_watched s1) := by
  refine ⟨?_, ?_, ?_⟩
  · intro offsets ret b s1 h hret
    exact chip_get_lines_loop_failure offsets s _ hiter hacc ret b s1 h hret
  · intro ret b s1 h hret
    simp only [gpiod_chip_get_all_lines_watched, chip_get_all_lines, Core.gpiod_line_iter_new,
      hiter] at h
    exact chip_get_all_lines_loop_failure _
      { s with calls := s.calls ++ [core_call.line_iter_new] } _ hiter hacc ret b s1 h hret
  · intro names ret b s1 h hret
    exact chip_find_lines_loop_failure names s _ hiter hacc ret b s1 h hret

theorem bulk_result_eq (r : BulkResult) (s : State) (ret : Int) (b : gpiod_line_bulk)
    (h1 : returned r = some ret) (h2 : output_bulk r = some b) :
    r = some (ret, b, final_state r s) := by
  cases r with
  | none => exact Option.noConfusion h1
  | some x =>
    obtain ⟨x1, x2, x3⟩ := x
    simp only [returned, output_bulk, Option.map_some', Option.some.injEq] at h1 h2
    subst h1
    subst h2
    rfl

/-- Instances of the amended C14 on the four-line chip: offsets 2 and 9 (9 is
not a line), all lines when line 0 is already watched, and the names gpio-b and
zz (no such line); each fails with -1 and leaves no line watched. -/
theorem watched_acquisition_failure_unwatches_witness :
    (returned (gpiod_chip_get_lines_watched named_state [2, 9]) = some (-1)
      ∧ none_watched (final_state (gpiod_chip_get_lines_watched named_state [2, 9]) named_state))
    ∧ (returned (gpiod_chip_get_all_lines_watched watching_state) = some (-1)
      ∧ none_watched (final_state (gpiod_chip_get_all_lines_watched watching_state)
          watching_state))
    ∧ (returned (gpiod_chip_find_lines_watched named_state ["gpio-b", "zz"]) = some (-1)
      ∧ none_watched (final_state (gpiod_chip_find_lines_watched named_state ["gpio-b", "zz"])
          named_state)) :=
  ⟨⟨rfl, ((watched_acquisition_failure_unwatches named_state rfl
        (by unfold unwatch_accepted; decide)).1 [2, 9] (-1) [⟨2⟩] _
        (bulk_result_eq _ named_state _ _ rfl rfl) (by decide)).2⟩,
   ⟨rfl, ((watched_acquisition_failure_unwatches watching_state rfl
        (by unfold unwatch_accepted; decide)).2.1 (-1) [] _
        (bulk_result_eq _ watching_state _ _ rfl rfl) (by decide)).2⟩,
   ⟨rfl, ((watched_acquisition_failure_unwatches named_state rfl
        (by unfold unwatch_accepted; decide)).2.2 ["gpio-b", "zz"] (-1) [⟨2⟩] _
        (bulk_result_eq _ named_state _ _ rfl rfl) (by decide)).2⟩⟩

/-- C14 as stated fails: on the four-line chip in a process where a line iterator
cannot be created, gpiod_chip_get_lines_watched with offsets 0 and 9 watches line
0, fails on offset 9 and runs gpiod_chip_unwatch_all, which gives up before any
per-line unwatch; no per-line unwatch fails, -1 is returned and line 0 is still
watched. -/
theorem get_lines_watched_iterator_failure :
    unwatch_accepted failing_state
    ∧ returned (gpiod_chip_get_lines_watched failing_state [0, 9]) = some (-1)
    ∧ (final_state (gpiod_chip_get_lines_watched failing_state [0, 9]) failing_state).calls
        = [core_call.chip_get_line_watched 0, core_call.line_watch 0,
           core_call.chip_get_line_watched 9, core_call.line_iter_new]
    ∧ ((final_state (gpiod_chip_get_lines_watched failing_state [0, 9])
          failing_state).chip.lines.get? 0).map line_info.watched = some true
    ∧ ¬ none_watched (final_state (gpiod_chip_get_lines_watched failing_state [0, 9])
          failing_state) := by
  refine ⟨by unfold unwatch_accepted; decide, by decide, by decide, by decide, ?_⟩
  unfold none_watched
  decide

/-! ## Theorems: the bulk set of chip_get_lines -/

/-- What one acquisition step of chip_get_lines gives: a line obtained is the
line of that offset, which is below the line count; without watching a failure
means the offset is not below the line count; the line count never changes. -/
theorem get_line_step (s : State) (off : Nat) (watched : Bool) :
    (∀ l, (if watched then Core.gpiod_chip_get_line_watched s off
            else Core.gpiod_chip_get_line s off).1 = some l →
        l = ⟨off⟩ ∧ off < s.chip.lines.length)
    ∧ (watched = false → (Core.gpiod_chip_get_line s off).1 = none →
        ¬ off < s.chip.lines.length)
    ∧ (if watched then Core.gpiod_chip_get_line_watched s off
        else Core.gpiod_chip_get_line s off).2.chip.lines.length = s.chip.lines.length := by
  by_cases hlt : off < s.chip.lines.length
  · have hg : Gpiod.gpiod_chip_get_line s.chip off = Except.ok ⟨off⟩ := by
      simp [Gpiod.gpiod_chip_get_line, hlt]
    refine ⟨?_, ?_, ?_⟩
    · intro l hl
      refine ⟨?_, hlt⟩
      cases watched with
      | false =>
        simp only [Bool.false_eq_true, if_false, Core.gpiod_chip_get_line, hg,
          Option.some.injEq] at hl
        exact hl.symm
      | true =>
        simp only [if_true, Core.gpiod_chip_get_line_watched, hg] at hl
        split at hl
        · simp only [Option.some.injEq] at hl
          exact hl.symm
        · exact Option.noConfusion hl
    · intro _ hn
      simp [Core.gpiod_chip_get_line, hg] at hn
    · cases watched with
      | false => simp [Core.gpiod_chip_get_line, hg]
      | true => exact (get_line_watched_preserves s off).2.1
  · have hg : Gpiod.gpiod_chip_get_line s.chip off = Except.error EINVAL := by
      simp [Gpiod.gpiod_chip_get_line, hlt]
    refine ⟨?_, fun _ _ => hlt, ?_⟩
    · intro l hl
      cases watched <;>
        simp [Core.gpiod_chip_get_line, Core.gpiod_chip_get_line_watched, hg] at hl
    · cases watched with
      | false => simp [Core.gpiod_chip_get_line, hg]
      | true => exact (get_line_watched_preserves s off).2.1

/-- The loop of chip_get_lines from any point, when it returns: on success the
bulk set is the lines gathered so far followed by the lines of the remaining
offsets, in order; on failure it is the lines gathered so far followed by the
lines of the offsets before the one that failed; it never exceeds the capacity. -/
theorem chip_get_lines_loop_spec (watched : Bool) (offs : List Nat) :
    ∀ (s : State) (acc : gpiod_line_bulk) (ret : Int) (b : gpiod_line_bulk) (s1 : State),
      chip_get_lines_loop watched s acc offs = some (ret, b, s1) →
      (ret = 0 → b = acc ++ offs.map gpiod_line.mk ∧ ∀ o ∈ offs, o < s.chip.lines.length)
      ∧ (ret ≠ 0 → ret = -1 ∧ ∃ k, k < offs.length
          ∧ b = acc ++ (offs.take k).map gpiod_line.mk
          ∧ (∀ o ∈ offs.take k, o < s.chip.lines.length)
          ∧ (watched = false → ∀ o, offs.get? k = some o → ¬ o < s.chip.lines.length))
      ∧ (acc.length ≤ GPIOD_LINE_BULK_MAX_LINES → b.length ≤ GPIOD_LINE_BULK_MAX_LINES) := by
  induction offs with
  | nil =>
    intro s acc ret b s1 h
    simp only [chip_get_lines_loop, Option.some.injEq, Prod.mk.injEq] at h
    obtain ⟨h1, h2, _⟩ := h
    subst h1
    subst h2
    refine ⟨fun _ => ⟨by simp, by simp⟩, fun hne => absurd rfl hne, fun hc => hc⟩
  | cons off rest ih =>
    intro s acc ret b s1 h
    obtain ⟨hsome, hnone, hlen⟩ := get_line_step s off watched
    simp only [chip_get_lines_loop] at h
    cases hr : (if watched then Core.gpiod_chip_get_line_watched s off
                else Core.gpiod_chip_get_line s off).1 with
    | none =>
      rw [hr] at h
      have hret : ret = -1 ∧ b = acc := by
        cases watched <;>
          simp only [Bool.false_eq_true, if_false, if_true, Option.some.injEq,
            Prod.mk.injEq] at h <;>
          exact ⟨h.1.symm, h.2.1.symm⟩
      obtain ⟨h1, h2⟩ := hret
      subst h1
      subst h2
      refine ⟨fun h0 => absurd h0 (by decide), fun _ => ⟨rfl, 0, by simp, by simp, by simp, ?_⟩,
        fun hc => hc⟩
      intro hw o ho
      simp only [List.get?_cons_zero, Option.some.injEq] at ho
      subst ho
      subst hw
      simp only [Bool.false_eq_true, if_false] at hr
      exact hnone rfl hr
    | some line =>
      rw [hr] at h
      simp only at h
      obtain ⟨hl, hoff⟩ := hsome line hr
      subst hl
      cases hadd : gpiod_line_bulk_add acc ⟨off⟩ with
      | none =>
        rw [hadd] at h
        exact Option.noConfusion h
      | some b1 =>
        rw [hadd] at h
        simp only at h
        have hb1 : b1 = acc ++ [⟨off⟩] ∧ acc.length < GPIOD_LINE_BULK_MAX_LINES := by
          unfold gpiod_line_bulk_add at hadd
          split at hadd
          · exact ⟨(Option.some.inj hadd).symm, by assumption⟩
          · exact Option.noConfusion hadd
        obtain ⟨hb1e, hb1l⟩ := hb1
        obtain ⟨i0, i1, i2⟩ := ih _ b1 ret b s1 h
        rw [hlen] at i0 i1
        refine ⟨?_, ?_, ?_⟩
        · intro h0
          obtain ⟨e1, e2⟩ := i0 h0
          refine ⟨?_, ?_⟩
          · rw [e1, hb1e]
            simp
          · intro o ho
            rcases List.mem_cons.mp ho with h | h
            · rw [h]
              exact hoff
            · exact e2 o h
        · intro hne
          obtain ⟨e1, k, hk, e2, e3, e4⟩ := i1 hne
          refine ⟨e1, k + 1, by simpa using hk, ?_, ?_, ?_⟩
          · rw [e2, hb1e]
            simp
          · intro o ho
            simp only [List.take_succ_cons, List.mem_cons] at ho
            rcases ho with h | h
            · rw [h]
              exact hoff
            · exact e3 o h
          · intro hw o ho
            simp only [List.get?_cons_succ] at ho
            exact e4 hw o ho
        · intro _
          apply i2
          rw [hb1e]
          simp only [List.length_append, List.length_singleton]
          omega

/-- The loop of chip_get_lines returns whenever the remaining offsets fit into
what is left of the bulk set. -/
theorem chip_get_lines_loop_returns (watched : Bool) (offs : List Nat) :
    ∀ (s : State) (acc : gpiod_line_bulk),
      acc.length + offs.length ≤ GPIOD_LINE_BULK_MAX_LINES →
      ∃ ret b s1, chip_get_lines_loop watched s acc offs = some (ret, b, s1) := by
  induction offs with
  | nil =>
    intro s acc _
    exact ⟨0, acc, s, rfl⟩
  | cons off rest ih =>
    intro s acc hcap
    simp only [List.length_cons] at hcap
    simp only [chip_get_lines_loop]
    cases hr : (if watched then Core.gpiod_chip_get_line_watched s off
                else Core.gpiod_chip_get_line s off).1 with
    | none =>
      cases watched
      · exact ⟨_, _, _, rfl⟩
      · exact ⟨_, _, _, rfl⟩
    | some line =>
      have hadd : gpiod_line_bulk_add acc line = some (acc ++ [line]) := by
        unfold gpiod_line_bulk_add
        rw [if_pos (by omega)]
      simp only [hadd]
      apply ih
      simp only [List.length_append, List.length_singleton]
      omega

/-- A run of the loop of chip_get_lines that succeeds on a first part of the
offsets goes on with the rest from the bulk set and the state it reached. -/
theorem chip_get_lines_loop_append (watched : Bool) (pre : List Nat) :
    ∀ (s : State) (acc b : gpiod_line_bulk) (sk : State),
      chip_get_lines_loop watched s acc pre = some (0, b, sk) →
      ∀ rest, chip_get_lines_loop watched s acc (pre ++ rest)
                = chip_get_lines_loop watched sk b rest := by
  induction pre with
  | nil =>
    intro s acc b sk h rest
    simp only [chip_get_lines_loop, Option.some.injEq, Prod.mk.injEq, true_and] at h
    obtain ⟨h1, h2⟩ := h
    subst h1
    subst h2
    rfl
  | cons off pre ih =>
    intro s acc b sk h rest
    simp only [List.cons_append, chip_get_lines_loop] at h ⊢
    cases hr : (if watched then Core.gpiod_chip_get_line_watched s off
                else Core.gpiod_chip_get_line s off).1 with
    | none =>
      rw [hr] at h
      exfalso
      cases watched <;> simp at h
    | some line =>
      rw [hr] at h
      simp only at h ⊢
      cases hadd : gpiod_line_bulk_add acc line with
      | none =>
        rw [hadd] at h
        exact Option.noConfusion h
      | some b1 =>
        rw [hadd] at h
        exact ih _ _ _ _ h rest

/-- A failure of the loop of chip_get_lines has a definite place: some offset
before which the loop ran with success, leaving the bulk set that is returned,
and whose acquisition in the state reached then gave NULL. -/
theorem chip_get_lines_loop_failure_point (watched : Bool) (offs : List Nat) :
    ∀ (s : State) (acc : gpiod_line_bulk) (ret : Int) (b : gpiod_line_bulk) (s1 : State),
      chip_get_lines_loop watched s acc offs = some (ret, b, s1) → ret ≠ 0 →
      ∃ k o sk, offs.get? k = some o
        ∧ chip_get_lines_loop watched s acc (offs.take k) = some (0, b, sk)
        ∧ (if watched then Core.gpiod_chip_get_line_watched sk o
            else Core.gpiod_chip_get_line sk o).1 = none
        ∧ s1 = (if watched then
                  (gpiod_chip_unwatch_all (Core.gpiod_chip_get_line_watched sk o).2).2
                else (Core.gpiod_chip_get_line sk o).2) := by
  induction offs with
  | nil =>
    intro s acc ret b s1 h hret
    simp only [chip_get_lines_loop, Option.some.injEq, Prod.mk.injEq] at h
    exact absurd h.1.symm hret
  | cons off rest ih =>
    intro s acc ret b s1 h hret
    simp only [chip_get_lines_loop] at h
    cases hr : (if watched then Core.gpiod_chip_get_line_watched s off
                else Core.gpiod_chip_get_line s off).1 with
    | none =>
      rw [hr] at h
      refine ⟨0, off, s, rfl, ?_, hr, ?_⟩
      · cases watched <;>
          simp only [Bool.false_eq_true, if_false, if_true, Option.some.injEq,
            Prod.mk.injEq] at h <;>
          simp [chip_get_lines_loop, h.2.1]
      · cases watched <;>
          simp only [Bool.false_eq_true, if_false, if_true, Option.some.injEq,
            Prod.mk.injEq] at h ⊢ <;>
          exact h.2.2.symm
    | some line =>
      rw [hr] at h
      simp only at h
      cases hadd : gpiod_line_bulk_add acc line with
      | none =>
        rw [hadd] at h
        exact Option.noConfusion h
      | some b1 =>
        rw [hadd] at h
        simp only at h
        obtain ⟨k, o, sk, hk, hrun, hfail, hs1⟩ := ih _ b1 ret b s1 h hret
        refine ⟨k + 1, o, sk, by simpa using hk, ?_, hfail, hs1⟩
        simp only [List.take_succ_cons, chip_get_lines_loop, hr, hadd]
        exact hrun

/-- The loop of chip_get_lines with watching succeeds when the remaining offsets
fit into what is left of the bulk set, are pairwise different and are lines of
the chip that are not watched and accept the watch. -/
theorem chip_get_lines_loop_watched_ok (offs : List Nat) :
    ∀ (s : State) (acc : gpiod_line_bulk),
      acc.length + offs.length ≤ GPIOD_LINE_BULK_MAX_LINES → offs.Nodup →
      (∀ o ∈ offs, ∃ li, s.chip.lines.get? o = some li ∧ li.watched = false
          ∧ li.ioerr = none) →
      ∃ s1, chip_get_lines_loop true s acc offs = some (0, acc ++ offs.map gpiod_line.mk, s1) := by
  induction offs with
  | nil =>
    intro s acc _ _ _
    exact ⟨s, by simp [chip_get_lines_loop]⟩
  | cons off rest ih =>
    intro s acc hcap hnd hlines
    simp only [List.length_cons] at hcap
    obtain ⟨li, hget, hwf, hio⟩ := hlines off (List.mem_cons_self _ _)
    have hlt : off < s.chip.lines.length := by
      by_contra hge
      rw [List.get?_eq_none.mpr (by omega)] at hget
      exact Option.noConfusion hget
    have hg : Gpiod.gpiod_chip_get_line s.chip off = Except.ok ⟨off⟩ := by
      simp [Gpiod.gpiod_chip_get_line, hlt]
    have hw := gpiod_line_watch_ok
      { s with calls := s.calls ++ [core_call.chip_get_line_watched off] } ⟨off⟩ li hget hwf hio
    have hacq : Core.gpiod_chip_get_line_watched s off
        = (some ⟨off⟩,
           { chip := { s.chip with lines := set_watched s.chip.lines off true },
             errno := s.errno,
             calls := s.calls ++ [core_call.chip_get_line_watched off]
                        ++ [core_call.line_watch off] }) := by
      simp only [Core.gpiod_chip_get_line_watched, hg, hw]
      simp
    have hadd : gpiod_line_bulk_add acc ⟨off⟩ = some (acc ++ [⟨off⟩]) := by
      unfold gpiod_line_bulk_add
      rw [if_pos (by omega)]
    have hnd2 := List.nodup_cons.mp hnd
    obtain ⟨s1, hs1⟩ := ih
      { chip := { s.chip with lines := set_watched s.chip.lines off true },
        errno := s.errno,
        calls := s.calls ++ [core_call.chip_get_line_watched off]
                   ++ [core_call.line_watch off] }
      (acc ++ [⟨off⟩])
      (by simp only [List.length_append, List.length_singleton]; omega)
      hnd2.2
      (by
        intro o ho
        obtain ⟨lo, hlo⟩ := hlines o (List.mem_cons_of_mem _ ho)
        refine ⟨lo, ?_, hlo.2⟩
        have hne : o ≠ off := by
          intro h
          rw [h] at ho
          exact hnd2.1 ho
        simp only
        rw [set_watched_get_ne _ _ _ _ hne]
        exact hlo.1)
    refine ⟨s1, ?_⟩
    simp only [chip_get_lines_loop, if_true, hacq, hadd, hs1]
    simp

/-- C12 (amended): for every request of at most 64 offsets (the capacity of a
bulk set) gpiod_chip_get_lines and gpiod_chip_get_lines_watched (chip_get_lines
without and with watching) return, with 0 or -1, and the bulk set is never
reordered: on success (return 0) it holds exactly num_offsets lines, all of them
lines of the chip, and the line at index i is the line the chip returns for
offsets[i]. Without watching, success is reached whenever the offsets are
offsets of the chip; with watching, whenever they are pairwise different offsets
of lines that are not watched and accept the watch. -/
theorem chip_get_lines_keeps_order (s : State) (offsets : List Nat) (watched : Bool)
    (hcap : offsets.length ≤ GPIOD_LINE_BULK_MAX_LINES) :
    (gpiod_chip_get_lines s offsets = chip_get_lines s offsets false
      ∧ gpiod_chip_get_lines_watched s offsets = chip_get_lines s offsets true)
    ∧ (∃ ret b s1, chip_get_lines s offsets watched = some (ret, b, s1)
        ∧ (ret = 0 ∨ ret = -1)
        ∧ (ret = 0 →
            b = offsets.map gpiod_line.mk
            ∧ b.length = offsets.length
            ∧ (∀ l ∈ b, l.offset < gpiod_chip_num_lines s.chip)
            ∧ ∀ i o, offsets.get? i = some o →
                ∃ l, b.get? i = some l ∧ gpiod_chip_get_line s.chip o = Except.ok l))
    ∧ ((∀ o ∈ offsets, o < gpiod_chip_num_lines s.chip) →
        ∃ s1, gpiod_chip_get_lines s offsets = some (0, offsets.map gpiod_line.mk, s1))
    ∧ (offsets.Nodup →
        (∀ o ∈ offsets, ∃ li, s.chip.lines.get? o = some li ∧ li.watched = false
            ∧ li.ioerr = none) →
        ∃ s1, gpiod_chip_get_lines_watched s offsets
                = some (0, offsets.map gpiod_line.mk, s1)) := by
  refine ⟨⟨rfl, rfl⟩, ?_, ?_, ?_⟩
  · obtain ⟨ret, b, s1, h⟩ := chip_get_lines_loop_returns watched offsets s []
      (by simpa using hcap)
    obtain ⟨h0, h1, _⟩ := chip_get_lines_loop_spec watched offsets s [] ret b s1 h
    refine ⟨ret, b, s1, h, ?_, ?_⟩
    · by_cases hret : ret = 0
      · exact Or.inl hret
      · exact Or.inr (h1 hret).1
    · intro hret
      obtain ⟨hb, hvalid⟩ := h0 hret
      simp only [List.nil_append] at hb
      subst hb
      refine ⟨rfl, by simp, ?_, ?_⟩
      · intro l hl
        obtain ⟨o, ho, hol⟩ := List.mem_map.mp hl
        rw [← hol]
        exact hvalid o ho
      · intro i o hio
        refine ⟨⟨o⟩, ?_, ?_⟩
        · rw [List.get?_eq_getElem?] at hio ⊢
          rw [List.getElem?_map, hio]
          rfl
        · have hlt := hvalid o (mem_of_get? _ _ _ hio)
          simp [gpiod_chip_get_line, hlt]
  · intro hvalid
    obtain ⟨ret, b, s1, h⟩ := chip_get_lines_loop_returns false offsets s []
      (by simpa using hcap)
    obtain ⟨h0, h1, _⟩ := chip_get_lines_loop_spec false offsets s [] ret b s1 h
    by_cases hret : ret = 0
    · subst hret
      obtain ⟨hb, _⟩ := h0 rfl
      simp only [List.nil_append] at hb
      subst hb
      exact ⟨s1, h⟩
    · exfalso
      obtain ⟨_, k, hk, _, _, hbad⟩ := h1 hret
      have hget : offsets.get? k = some (offsets.get ⟨k, hk⟩) := List.get?_eq_get hk
      exact hbad rfl _ hget (hvalid _ (List.get_mem offsets k hk))
  · intro hnd hlines
    obtain ⟨s1, h⟩ := chip_get_lines_loop_watched_ok offsets s [] (by simpa using hcap)
      hnd hlines
    exact ⟨s1, by simpa using h⟩

/-- Instances of the amended C12: the offsets 2, 3, 5, 7 on a chip of eight
lines, watched (as in the watch tests) and not watched. -/
theorem chip_get_lines_keeps_order_witness :
    (∃ ret b s1, chip_get_lines (plain_state 8) [2, 3, 5, 7] true = some (ret, b, s1)
        ∧ (ret = 0 ∨ ret = -1)
        ∧ (ret = 0 →
            b = ([2, 3, 5, 7] : List Nat).map gpiod_line.mk
            ∧ b.length = ([2, 3, 5, 7] : List Nat).length
            ∧ (∀ l ∈ b, l.offset < gpiod_chip_num_lines (plain_state 8).chip)
            ∧ ∀ i o, ([2, 3, 5, 7] : List Nat).get? i = some o →
                ∃ l, b.get? i = some l
                  ∧ gpiod_chip_get_line (plain_state 8).chip o = Except.ok l))
    ∧ (∃ s1, gpiod_chip_get_lines (plain_state 8) [2, 3, 5, 7]
        = some (0, ([2, 3, 5, 7] : List Nat).map gpiod_line.mk, s1))
    ∧ ∃ s1, gpiod_chip_get_lines_watched (plain_state 8) [2, 3, 5, 7]
        = some (0, ([2, 3, 5, 7] : List Nat).map gpiod_line.mk, s1) :=
  ⟨(chip_get_lines_keeps_order (plain_state 8) [2, 3, 5, 7] true (by decide)).2.1,
   (chip_get_lines_keeps_order (plain_state 8) [2, 3, 5, 7] false (by decide)).2.2.1
      (by decide),
   (chip_get_lines_keeps_order (plain_state 8) [2, 3, 5, 7] true (by decide)).2.2.2
      (by decide) (by decide)⟩

set_option maxRecDepth 100000 in
/-- C12 as stated fails: on a chip of 65 lines gpiod_chip_get_lines with the 65
offsets 0, ..., 64, all of them offsets of the chip, obtains every line; the
first 64 fill the bulk set in order, the 65th is added to the full set (a
precondition violation of the add), and the call does not end with a bulk set
of the 65 lines. -/
theorem chip_get_lines_order_past_capacity :
    (∀ o ∈ List.range 65, o < gpiod_chip_num_lines (plain_state 65).chip)
    ∧ output_bulk (gpiod_chip_get_lines (plain_state 65) (List.range 64))
        = some ((List.range 64).map gpiod_line.mk)
    ∧ (Core.gpiod_chip_get_line
        (final_state (gpiod_chip_get_lines (plain_state 65) (List.range 64))
          (plain_state 65)) 64).1 = some ⟨64⟩
    ∧ gpiod_line_bulk_add ((List.range 64).map gpiod_line.mk) ⟨64⟩ = none
    ∧ gpiod_chip_get_lines (plain_state 65) (List.range 65) = none
    ∧ ¬ ∃ s1, gpiod_chip_get_lines (plain_state 65) (List.range 65)
          = some (0, (List.range 65).map gpiod_line.mk, s1) := by
  have h : gpiod_chip_get_lines (plain_state 65) (List.range 65) = none := by rfl
  refine ⟨by decide, by rfl, by rfl, by rfl, h, ?_⟩
  rw [h]
  exact fun ⟨_, hc⟩ => Option.noConfusion hc

/-- C13 (amended): for gpiod_chip_get_lines and gpiod_chip_get_lines_watched
(chip_get_lines without and with watching). Whenever the lines of offsets[0],
..., offsets[k-1] are obtained and the line at offsets[k] cannot be obtained (the
acquisition made in the state reached then gives NULL), the call returns -1 and
the output bulk set holds exactly the k lines obtained for offsets[0], ...,
offsets[k-1], in order, so it is empty only when k = 0. Every failure is of that
kind: a call that does not return 0 returns -1 and has such a k. A request of at
most 64 offsets always returns. -/
theorem chip_get_lines_failure_keeps_fetched (s : State) (offsets : List Nat) (watched : Bool) :
    (∀ k o b0 sk, offsets.get? k = some o →
        chip_get_lines s (offsets.take k) watched = some (0, b0, sk) →
        (if watched then Core.gpiod_chip_get_line_watched sk o
          else Core.gpiod_chip_get_line sk o).1 = none →
        chip_get_lines s offsets watched
          = some (-1, (offsets.take k).map gpiod_line.mk,
              if watched then
                (gpiod_chip_unwatch_all (Core.gpiod_chip_get_line_watched sk o).2).2
              else (Core.gpiod_chip_get_line sk o).2)
        ∧ ((offsets.take k).map gpiod_line.mk).length = k)
    ∧ (∀ ret b s1, chip_get_lines s offsets watched = some (ret, b, s1) → ret ≠ 0 →
        ret = -1
        ∧ ∃ k o sk, offsets.get? k = some o
            ∧ chip_get_lines s (offsets.take k) watched
                = some (0, (offsets.take k).map gpiod_line.mk, sk)
            ∧ (if watched then Core.gpiod_chip_get_line_watched sk o
                else Core.gpiod_chip_get_line sk o).1 = none
            ∧ b = (offsets.take k).map gpiod_line.mk
            ∧ b.length = k)
    ∧ (offsets.length ≤ GPIOD_LINE_BULK_MAX_LINES →
        ∃ ret b s1, chip_get_lines s offsets watched = some (ret, b, s1)
          ∧ (ret = 0 ∨ ret = -1)) := by
  refine ⟨?_, ?_, ?_⟩
  · intro k o b0 sk hk hrun hfail
    have hlt : k < offsets.length := by
      by_contra hge
      rw [List.get?_eq_none.mpr (by omega)] at hk
      exact Option.noConfusion hk
    have hb0 : b0 = (offsets.take k).map gpiod_line.mk := by
      obtain ⟨h0, _, _⟩ := chip_get_lines_loop_spec watched (offsets.take k) s [] 0 b0 sk hrun
      simpa using (h0 rfl).1
    have hsplit : offsets = offsets.take k ++ o :: offsets.drop (k + 1) := by
      have hd : offsets.drop k = o :: offsets.drop (k + 1) := by
        rw [List.get?_eq_getElem?] at hk
        have hk2 := List.getElem?_eq_some_iff.mp hk
        obtain ⟨hlt2, hget⟩ := hk2
        rw [← hget]
        exact List.drop_eq_getElem_cons hlt2
      rw [← hd]
      exact (List.take_append_drop k offsets).symm
    refine ⟨?_, ?_⟩
    · have happ := chip_get_lines_loop_append watched (offsets.take k) s [] b0 sk hrun
        (o :: offsets.drop (k + 1))
      rw [← hsplit] at happ
      unfold chip_get_lines gpiod_line_bulk_init
      rw [happ, ← hb0]
      simp only [chip_get_lines_loop, hfail]
      cases watched <;> rfl
    · simp only [List.length_map, List.length_take]
      omega
  · intro ret b s1 h hret
    obtain ⟨_, h1, _⟩ := chip_get_lines_loop_spec watched offsets s [] ret b s1 h
    obtain ⟨k, o, sk, hk, hrun, hfail, _⟩ :=
      chip_get_lines_loop_failure_point watched offsets s [] ret b s1 h hret
    have hlt : k < offsets.length := by
      by_contra hge
      rw [List.get?_eq_none.mpr (by omega)] at hk
      exact Option.noConfusion hk
    have hb : b = (offsets.take k).map gpiod_line.mk := by
      obtain ⟨h0, _, _⟩ := chip_get_lines_loop_spec watched (offsets.take k) s [] 0 b sk hrun
      simpa using (h0 rfl).1
    refine ⟨(h1 hret).1, k, o, sk, hk, ?_, hfail, hb, ?_⟩
    · rw [← hb]
      exact hrun
    · rw [hb]
      simp only [List.length_map, List.length_take]
      omega
  · intro hcap
    obtain ⟨ret, b, s1, h⟩ := chip_get_lines_loop_returns watched offsets s []
      (by simpa using hcap)
    obtain ⟨_, h1, _⟩ := chip_get_lines_loop_spec watched offsets s [] ret b s1 h
    refine ⟨ret, b, s1, h, ?_⟩
    by_cases hret : ret = 0
    · exact Or.inl hret
    · exact Or.inr (h1 hret).1

/-- Instances of the amended C13 on a chip of two lines: the offsets 0, 1, 5
without watching, and the offsets 1, 0, 1 with watching, where line 1 cannot be
obtained a second time because it is already watched; both leave the two lines
obtained first in the bulk set. -/
theorem chip_get_lines_failure_keeps_fetched_witness :
    (chip_get_lines (plain_state 2) [0, 1, 5] false
        = some (-1, (([0, 1, 5] : List Nat).take 2).map gpiod_line.mk,
            if false then
              (gpiod_chip_unwatch_all (Core.gpiod_chip_get_line_watched
                (final_state (chip_get_lines (plain_state 2) [0, 1] false) (plain_state 2))
                5).2).2
            else (Core.gpiod_chip_get_line
                (final_state (chip_get_lines (plain_state 2) [0, 1] false) (plain_state 2))
                5).2)
      ∧ ((([0, 1, 5] : List Nat).take 2).map gpiod_line.mk).length = 2)
    ∧ (chip_get_lines (plain_state 2) [1, 0, 1] true
        = some (-1, (([1, 0, 1] : List Nat).take 2).map gpiod_line.mk,
            if true then
              (gpiod_chip_unwatch_all (Core.gpiod_chip_get_line_watched
                (final_state (chip_get_lines (plain_state 2) [1, 0] true) (plain_state 2))
                1).2).2
            else (Core.gpiod_chip_get_line
                (final_state (chip_get_lines (plain_state 2) [1, 0] true) (plain_state 2))
                1).2)
      ∧ ((([1, 0, 1] : List Nat).take 2).map gpiod_line.mk).length = 2)
    ∧ ∃ ret b s1, chip_get_lines (plain_state 2) [1, 0, 1] true = some (ret, b, s1)
        ∧ (ret = 0 ∨ ret = -1) :=
  ⟨(chip_get_lines_failure_keeps_fetched (plain_state 2) [0, 1, 5] false).1 2 5
      [⟨0⟩, ⟨1⟩] _ rfl (bulk_result_eq _ (plain_state 2) _ _ rfl rfl) rfl,
   (chip_get_lines_failure_keeps_fetched (plain_state 2) [1, 0, 1] true).1 2 1
      [⟨1⟩, ⟨0⟩] _ rfl (bulk_result_eq _ (plain_state 2) _ _ rfl rfl) rfl,
   (chip_get_lines_failure_keeps_fetched (plain_state 2) [1, 0, 1] true).2.2 (by decide)⟩

/-- C13 as stated fails: on a chip of two lines gpiod_chip_get_lines with the
offsets 0 and 5 fails (returns -1) because the line at offset 5 cannot be
obtained, and the output bulk set holds the line of offset 0. -/
theorem chip_get_lines_failure_partial_bulk :
    returned (gpiod_chip_get_lines (plain_state 2) [0, 5]) = some (-1)
    ∧ (Core.gpiod_chip_get_line
        (final_state (gpiod_chip_get_lines (plain_state 2) [0]) (plain_state 2)) 5).1 = none
    ∧ output_bulk (gpiod_chip_get_lines (plain_state 2) [0, 5]) = some [⟨0⟩]
    ∧ output_bulk (gpiod_chip_get_lines (plain_state 2) [0, 5]) ≠ some [] := by
  decide

/-- The bulk set chip_get_lines leaves when it returns never holds more lines
than there are offsets and never more than the bulk capacity (64); for every
request of at most 64 offsets the call returns (with 0 or -1) without ever adding
a line to a full set. -/
theorem chip_get_lines_within_capacity (s : State) (offsets : List Nat) (watched : Bool) :
    (∀ ret b s1, chip_get_lines s offsets watched = some (ret, b, s1) →
        b.length ≤ offsets.length ∧ b.length ≤ GPIOD_LINE_BULK_MAX_LINES)
    ∧ (offsets.length ≤ GPIOD_LINE_BULK_MAX_LINES →
        ∃ ret b s1, chip_get_lines s offsets watched = some (ret, b, s1)
          ∧ (ret = 0 ∨ ret = -1) ∧ b.length ≤ GPIOD_LINE_BULK_MAX_LINES) := by
  have key : ∀ ret b s1, chip_get_lines s offsets watched = some (ret, b, s1) →
      (ret = 0 ∨ ret = -1) ∧ b.length ≤ offsets.length
        ∧ b.length ≤ GPIOD_LINE_BULK_MAX_LINES := by
    intro ret b s1 h
    obtain ⟨h0, h1, h2⟩ := chip_get_lines_loop_spec watched offsets s [] ret b s1 h
    have hcap := h2 (by simp)
    by_cases hret : ret = 0
    · obtain ⟨hb, _⟩ := h0 hret
      refine ⟨Or.inl hret, ?_, hcap⟩
      rw [hb]
      simp
    · obtain ⟨e1, k, hk, e2, _, _⟩ := h1 hret
      refine ⟨Or.inr e1, ?_, hcap⟩
      rw [e2]
      simp only [List.nil_append, List.length_map, List.length_take]
      omega
  refine ⟨fun ret b s1 h => (key ret b s1 h).2, ?_⟩
  intro hcap
  obtain ⟨ret, b, s1, h⟩ := chip_get_lines_loop_returns watched offsets s []
    (by simpa using hcap)
  exact ⟨ret, b, s1, h, (key ret b s1 h).1, (key ret b s1 h).2.2⟩

/-- A request of 64 times the offset 0 on a chip of one line fills the bulk set
exactly. -/
theorem chip_get_lines_within_capacity_full :
    ∃ ret b s1, chip_get_lines (plain_state 1) (List.replicate 64 0) false = some (ret, b, s1)
      ∧ (ret = 0 ∨ ret = -1) ∧ b.length ≤ GPIOD_LINE_BULK_MAX_LINES :=
  (chip_get_lines_within_capacity (plain_state 1) (List.replicate 64 0) false).2 (by decide)

set_option maxRecDepth 100000 in
/-- C16, evaluated on the code: chip_get_lines never compares num_offsets with
the capacity. With 65 times the offset 0 on a chip of one line,
gpiod_chip_get_lines does not fail: the first 64 lines fill the bulk set, the
line for the 65th offset is obtained, and it is added to the full set (a
precondition violation of the add, a write past the array of the set) instead of
-1 being returned. -/
theorem chip_get_lines_past_capacity :
    output_bulk (gpiod_chip_get_lines (plain_state 1) (List.replicate 64 0))
        = some (List.replicate 64 ⟨0⟩)
    ∧ (Core.gpiod_chip_get_line
        (final_state (gpiod_chip_get_lines (plain_state 1) (List.replicate 64 0))
          (plain_state 1)) 0).1 = some ⟨0⟩
    ∧ gpiod_line_bulk_add (List.replicate 64 ⟨0⟩) ⟨0⟩ = none
    ∧ gpiod_chip_get_lines (plain_state 1) (List.replicate 65 0) = none
    ∧ returned (gpiod_chip_get_lines (plain_state 1) (List.replicate 65 0)) ≠ some (-1) := by
  refine ⟨by rfl, by rfl, by rfl, by rfl, ?_⟩
  have h : gpiod_chip_get_lines (plain_state 1) (List.replicate 65 0) = none := by rfl
  rw [h]
  exact fun hc => Option.noConfusion hc

/-! ## Theorems: chip::find_lines and the watch status -/

/-- C11, evaluated on the code: on the chip with lines gpio-a, (unnamed), gpio-b,
gpio-a, none of them watched, chip::find_lines for the names gpio-b and
nonexistent with watched = true yields the empty result because the second name
is not found, no unwatch is made, and the line at offset 2 is watched after the
call. The C helper gpiod_chip_find_lines_watched on the same input leaves no line
watched. -/
theorem chip_find_lines_leaves_line_watched :
    (chip.find_lines { _m_chip := some 1 } named_state ["gpio-b", "nonexistent"] true).1
        = Except.ok []
    ∧ (gpiod_chip_find_line named_state "nonexistent").1 = none
    ∧ (gpiod_chip_find_line named_state "nonexistent").2.errno = ENOENT
    ∧ (named_state.chip.lines.get? 2).map line_info.watched = some false
    ∧ ((chip.find_lines { _m_chip := some 1 } named_state
          ["gpio-b", "nonexistent"] true).2.chip.lines.get? 2).map line_info.watched = some true
    ∧ (chip.find_lines { _m_chip := some 1 } named_state ["gpio-b", "nonexistent"] true).2.calls
        = [core_call.line_iter_new, core_call.line_watch 2, core_call.line_iter_new]
    ∧ ((final_state (gpiod_chip_find_lines_watched named_state ["gpio-b", "nonexistent"])
          named_state).chip.lines.get? 2).map line_info.watched = some false := by
  refine ⟨rfl, by decide, by decide, by decide, by decide, by decide, by decide⟩

/-! ## Theorems: timeouts and timestamps -/

/-- For a timeout that is not negative, the timespec built by
chip::watch_event_wait represents it exactly, with tv_nsec below one second. -/
theorem timeout_to_timespec_nonneg (n : Int) (h0 : 0 ≤ n) (h1 : n < 2 ^ 63) :
    (timeout_to_timespec n).tv_sec * 1000000000 + (timeout_to_timespec n).tv_nsec = n
    ∧ 0 ≤ (timeout_to_timespec n).tv_nsec ∧ (timeout_to_timespec n).tv_nsec < 1000000000
    ∧ 0 ≤ (timeout_to_timespec n).tv_sec := by
  have hu : n % 2 ^ 64 = n := Int.emod_eq_of_lt h0 (by omega)
  simp only [timeout_to_timespec, hu]
  refine ⟨?_, ?_, ?_, ?_⟩
  · have := Int.ediv_add_emod n 1000000000
    omega
  · exact Int.emod_nonneg n (by decide)
  · exact Int.emod_lt_of_pos n (by decide)
  · exact Int.ediv_nonneg h0 (by decide)

/-- C17, evaluated on the code: for the timeout of -1 ns, a value the
std::chrono::nanoseconds argument can hold, chip::watch_event_wait on an open
chip hands the core the timespec of 18446744073 s and 709551615 ns, which
stands for 2^64 - 1 ns, not for -1 ns; a timeout of 0 gives 0 s and 0 ns. -/
theorem watch_event_wait_negative_timeout (a : Nat) (s : State) :
    timeout_to_timespec (-1) = { tv_sec := 18446744073, tv_nsec := 709551615 }
    ∧ (timeout_to_timespec (-1)).tv_sec * 1000000000 + (timeout_to_timespec (-1)).tv_nsec
        = 2 ^ 64 - 1
    ∧ (timeout_to_timespec (-1)).tv_sec * 1000000000 + (timeout_to_timespec (-1)).tv_nsec
        ≠ -1
    ∧ (chip.watch_event_wait { _m_chip := some a } s (-1)).2.calls
        = s.calls ++ [core_call.watch_event_wait { tv_sec := 18446744073, tv_nsec := 709551615 }]
    ∧ timeout_to_timespec 0 = { tv_sec := 0, tv_nsec := 0 } := by
  have h : timeout_to_timespec (-1) = { tv_sec := 18446744073, tv_nsec := 709551615 } := by
    decide
  refine ⟨h, by rw [h]; decide, by rw [h]; decide, ?_, by decide⟩
  simp only [chip.watch_event_wait, chip.throw_if_noref, Core.gpiod_chip_watch_event_wait, h]
  cases s.chip.poll_err with
  | none =>
    simp only
    split <;> split <;> rfl
  | some e =>
    simp only
    split <;> rfl

/-- Past the signed 64-bit range the timestamp of chip::make_watch_event is not
the sum: for 9223372037 s (the year 2262) and 0 ns the count is negative. -/
theorem make_watch_event_timestamp_wraps :
    (chip.make_watch_event { _m_chip := some 1 }
        ⟨GPIOD_WATCH_EVENT_LINE_REQUESTED, ⟨9223372037, 0⟩, ⟨4⟩⟩).timestamp
      = 9223372037 * 1000000000 - 2 ^ 64 := by
  decide

/-- C19: chip::watch_event_read_multiple on an open chip makes one call of the
core read with a buffer of 32 records and nothing else. When the core reports
the k records buf read, k is at most 32, the records are the first k of the
queue, in queue order, and they are dequeued: after the call the queue holds
what followed them. The result has exactly k elements, and its i-th element is
built from the i-th record: its source wraps the record's line and is bound to
the chip being read, and its type is REQUESTED, RELEASED or CONFIG_CHANGED
according to the record's type. -/
theorem watch_event_read_multiple_fifo (self : chip) (a : Nat) (hopen : self._m_chip = some a)
    (s : State) (buf : List gpiod_watch_event)
    (hcore : (Core.gpiod_chip_watch_event_read_multiple s 32).1 = some buf) :
    buf.length ≤ 32
    ∧ buf = s.chip.fifo.take 32
    ∧ (self.watch_event_read_multiple s).2 = (Core.gpiod_chip_watch_event_read_multiple s 32).2
    ∧ (self.watch_event_read_multiple s).2.calls
        = s.calls ++ [core_call.watch_event_read_multiple 32]
    ∧ s.chip.fifo = buf ++ (self.watch_event_read_multiple s).2.chip.fifo
    ∧ (self.watch_event_read_multiple s).2.chip.fifo = s.chip.fifo.drop buf.length
    ∧ ∃ events, (self.watch_event_read_multiple s).1 = Except.ok events
        ∧ events.length = buf.length
        ∧ ∀ i rec, buf.get? i = some rec →
            ∃ ev, events.get? i = some ev
              ∧ ev.source = { _m_line := some rec.line, _m_chip := self }
              ∧ (rec.event_type = GPIOD_WATCH_EVENT_LINE_REQUESTED →
                  ev.event_type = some watch_event_type.REQUESTED)
              ∧ (rec.event_type = GPIOD_WATCH_EVENT_LINE_RELEASED →
                  ev.event_type = some watch_event_type.RELEASED)
              ∧ (rec.event_type = GPIOD_WATCH_EVENT_LINE_CONFIG_CHANGED →
                  ev.event_type = some watch_event_type.CONFIG_CHANGED) := by
  have hpoll : s.chip.poll_err = none := by
    unfold Core.gpiod_chip_watch_event_read_multiple at hcore
    cases hp : s.chip.poll_err with
    | some e =>
      rw [hp] at hcore
      exact Option.noConfusion hcore
    | none => rfl
  have hbuf : buf = s.chip.fifo.take 32 := by
    unfold Core.gpiod_chip_watch_event_read_multiple at hcore
    rw [hpoll] at hcore
    exact (Option.some.inj hcore).symm
  have hstate : (self.watch_event_read_multiple s).2
      = (Core.gpiod_chip_watch_event_read_multiple s 32).2 := by
    simp only [chip.watch_event_read_multiple, throw_if_noref_open self a hopen, hcore]
  have hafter : (Core.gpiod_chip_watch_event_read_multiple s 32).2
      = { chip := { s.chip with fifo := s.chip.fifo.drop 32 },
          errno := s.errno,
          calls := s.calls ++ [core_call.watch_event_read_multiple 32] } := by
    simp only [Core.gpiod_chip_watch_event_read_multiple, hpoll]
  have hlen : buf.length ≤ 32 := by
    rw [hbuf, List.length_take]
    omega
  have hdrop : s.chip.fifo.drop 32 = s.chip.fifo.drop buf.length := by
    rw [hbuf, List.length_take]
    by_cases hl : 32 ≤ s.chip.fifo.length
    · rw [Nat.min_eq_left hl]
    · rw [Nat.min_eq_right (by omega), List.drop_eq_nil_of_le (by omega),
        List.drop_eq_nil_of_le (Nat.le_refl _)]
  refine ⟨hlen, hbuf, hstate, ?_, ?_, ?_, buf.map self.make_watch_event, ?_, by simp, ?_⟩
  · rw [hstate, hafter]
  · rw [hstate, hafter, hbuf]
    exact (List.take_append_drop 32 s.chip.fifo).symm
  · rw [hstate, hafter]
    exact hdrop
  · simp only [chip.watch_event_read_multiple, throw_if_noref_open self a hopen, hcore]
  · intro i rec hrec
    refine ⟨self.make_watch_event rec, ?_, rfl, ?_, ?_, ?_⟩
    · rw [List.get?_eq_getElem?] at hrec ⊢
      rw [List.getElem?_map, hrec]
      rfl
    · intro h
      simp [chip.make_watch_event, h]
    · intro h
      simp [chip.make_watch_event, h, GPIOD_WATCH_EVENT_LINE_RELEASED,
        GPIOD_WATCH_EVENT_LINE_REQUESTED]
    · intro h
      simp [chip.make_watch_event, h, GPIOD_WATCH_EVENT_LINE_RELEASED,
        GPIOD_WATCH_EVENT_LINE_REQUESTED, GPIOD_WATCH_EVENT_LINE_CONFIG_CHANGED]

/-- Instance of C19: three queued events for line 2 (requested, configuration
changed, released) are read in that order, and the queue is empty afterwards. -/
theorem watch_event_read_multiple_fifo_witness :
    (queued_state.chip.fifo.take 32).length ≤ 32
    ∧ (chip.watch_event_read_multiple { _m_chip := some 1 } queued_state).2.calls
        = queued_state.calls ++ [core_call.watch_event_read_multiple 32]
    ∧ (chip.watch_event_read_multiple { _m_chip := some 1 } queued_state).2.chip.fifo
        = queued_state.chip.fifo.drop (queued_state.chip.fifo.take 32).length
    ∧ ∃ events, (chip.watch_event_read_multiple { _m_chip := some 1 } queued_state).1
          = Except.ok events
        ∧ events.length = (queued_state.chip.fifo.take 32).length
        ∧ ∀ i rec, (queued_state.chip.fifo.take 32).get? i = some rec →
            ∃ ev, events.get? i = some ev
              ∧ ev.source = { _m_line := some rec.line, _m_chip := { _m_chip := some 1 } }
              ∧ (rec.event_type = GPIOD_WATCH_EVENT_LINE_REQUESTED →
                  ev.event_type = some watch_event_type.REQUESTED)
              ∧ (rec.event_type = GPIOD_WATCH_EVENT_LINE_RELEASED →
                  ev.event_type = some watch_event_type.RELEASED)
              ∧ (rec.event_type = GPIOD_WATCH_EVENT_LINE_CONFIG_CHANGED →
                  ev.event_type = some watch_event_type.CONFIG_CHANGED) :=
  ⟨(watch_event_read_multiple_fifo { _m_chip := some 1 } 1 rfl queued_state
      (queued_state.chip.fifo.take 32) rfl).1,
   (watch_event_read_multiple_fifo { _m_chip := some 1 } 1 rfl queued_state
      (queued_state.chip.fifo.take 32) rfl).2.2.2.1,
   (watch_event_read_multiple_fifo { _m_chip := some 1 } 1 rfl queued_state
      (queued_state.chip.fifo.take 32) rfl).2.2.2.2.2.1,
   (watch_event_read_multiple_fifo { _m_chip := some 1 } 1 rfl queued_state
      (queued_state.chip.fifo.take 32) rfl).2.2.2.2.2.2⟩

/-! ## Theorems: GLib event requests -/

theorem requests_made_append (xs ys : List line_call) :
    requests_made (xs ++ ys) = requests_made xs ++ requests_made ys := by
  induction xs with
  | nil => rfl
  | cons x xs ih =>
    cases x <;> simp [requests_made, ih]

/-- Once the request type is chosen, g_gpiod_line_request_event issues exactly
one line request, of that type and with default value 0, whatever happens next. -/
theorem request_event_with_requests (env : LineEnv) (st : GpiodLineState) (consumer : String)
    (active_low : Bool) (rt : request_type) :
    requests_made (request_event_with env st consumer active_low rt).2.calls
      = requests_made st.calls
          ++ [({ consumer := consumer, request_type := rt,
                 flags := if active_low then GPIOD_LINE_REQUEST_FLAG_ACTIVE_LOW else 0 }, 0)] := by
  unfold request_event_with g_gpiod_line_request
  cases env.request_err with
  | some e => simp [requests_made_append, requests_made]
  | none =>
    simp only
    split <;> simp [requests_made_append, requests_made]

/-- C20: g_gpiod_line_request_event with neither edge selected returns FALSE with
the error code G_GPIOD_ERR_INVAL and makes no call at all, so no line request;
otherwise it issues exactly one line request, whose type is BOTH_EDGES when both
edges are selected, RISING_EDGE when only rising_edge is, and FALLING_EDGE when
only falling_edge is. -/
theorem g_gpiod_line_request_event_edges (env : LineEnv) (st : GpiodLineState)
    (consumer : String) (active_low : Bool) :
    g_gpiod_line_request_event env st consumer active_low false false
        = (Except.error GpiodError.G_GPIOD_ERR_INVAL, st)
    ∧ requests_made (g_gpiod_line_request_event env st consumer active_low true true).2.calls
        = requests_made st.calls
            ++ [({ consumer := consumer,
                   request_type := request_type.GPIOD_LINE_REQUEST_EVENT_BOTH_EDGES,
                   flags := if active_low then GPIOD_LINE_REQUEST_FLAG_ACTIVE_LOW else 0 }, 0)]
    ∧ requests_made (g_gpiod_line_request_event env st consumer active_low true false).2.calls
        = requests_made st.calls
            ++ [({ consumer := consumer,
                   request_type := request_type.GPIOD_LINE_REQUEST_EVENT_RISING_EDGE,
                   flags := if active_low then GPIOD_LINE_REQUEST_FLAG_ACTIVE_LOW else 0 }, 0)]
    ∧ requests_made (g_gpiod_line_request_event env st consumer active_low false true).2.calls
        = requests_made st.calls
            ++ [({ consumer := consumer,
                   request_type := request_type.GPIOD_LINE_REQUEST_EVENT_FALLING_EDGE,
                   flags := if active_low then GPIOD_LINE_REQUEST_FLAG_ACTIVE_LOW else 0 }, 0)] := by
  refine ⟨rfl, ?_, ?_, ?_⟩
  · exact request_event_with_requests env st consumer active_low _
  · exact request_event_with_requests env st consumer active_low _
  · exact request_event_with_requests env st consumer active_low _

/-- C21: g_gpiod_error_from_errno sends EACCES, EPERM, ENOENT, EBUSY, EINVAL and
EIO to ACCES, PERM, NOENT, BUSY, INVAL and IO; on the seventeen listed errno
values (pairwise different) two different values get different codes, none of
them G_GPIOD_ERR_FAILED; every other value gets G_GPIOD_ERR_FAILED. -/
theorem g_gpiod_error_from_errno_table :
    (g_gpiod_error_from_errno EACCES = GpiodError.G_GPIOD_ERR_ACCES
      ∧ g_gpiod_error_from_errno EPERM = GpiodError.G_GPIOD_ERR_PERM
      ∧ g_gpiod_error_from_errno ENOENT = GpiodError.G_GPIOD_ERR_NOENT
      ∧ g_gpiod_error_from_errno EBUSY = GpiodError.G_GPIOD_ERR_BUSY
      ∧ g_gpiod_error_from_errno EINVAL = GpiodError.G_GPIOD_ERR_INVAL
      ∧ g_gpiod_error_from_errno EIO = GpiodError.G_GPIOD_ERR_IO)
    ∧ (listed_errnos.length = 17 ∧ listed_errnos.Nodup)
    ∧ (∀ a ∈ listed_errnos, ∀ b ∈ listed_errnos,
        a ≠ b → g_gpiod_error_from_errno a ≠ g_gpiod_error_from_errno b)
    ∧ (∀ a ∈ listed_errnos, g_gpiod_error_from_errno a ≠ GpiodError.G_GPIOD_ERR_FAILED)
    ∧ (∀ e : Int, e ∉ listed_errnos →
        g_gpiod_error_from_errno e = GpiodError.G_GPIOD_ERR_FAILED) := by
  refine ⟨by decide, by decide, by decide, by decide, ?_⟩
  intro e he
  simp only [listed_errnos, List.mem_cons, List.mem_singleton, not_or, List.not_mem_nil,
    or_false] at he
  obtain ⟨h1, h2, h3, h4, h5, h6, h7, h8, h9, h10, h11, h12, h13, h14, h15, h16, h17⟩ := he
  simp only [g_gpiod_error_from_errno, h1, h2, h3, h4, h5, h6, h7, h8, h9, h10, h11, h12, h13,
    h14, h15, h16, h17, if_false]

theorem g_gpiod_error_from_errno_table_witness :
    g_gpiod_error_from_errno EBUSY ≠ g_gpiod_error_from_errno EINVAL
    ∧ g_gpiod_error_from_errno ENOTTY ≠ GpiodError.G_GPIOD_ERR_FAILED
    ∧ g_gpiod_error_from_errno 9999 = GpiodError.G_GPIOD_ERR_FAILED
    ∧ g_gpiod_error_from_errno (-1) = GpiodError.G_GPIOD_ERR_FAILED :=
  ⟨g_gpiod_error_from_errno_table.2.2.1 EBUSY (by decide) EINVAL (by decide) (by decide),
   g_gpiod_error_from_errno_table.2.2.2.1 ENOTTY (by decide),
   g_gpiod_error_from_errno_table.2.2.2.2 9999 (by decide),
   g_gpiod_error_from_errno_table.2.2.2.2 (-1) (by decide)⟩

/-- Core gpiod_line_watch that returns 0 leaves the line watched. -/
theorem watch_success_watched (s : State) (l : gpiod_line)
    (h : (Core.gpiod_line_watch s l).1 = 0) :
    ∃ li, (Core.gpiod_line_watch s l).2.chip.lines.get? l.offset = some li
      ∧ li.watched = true := by
  cases hget : s.chip.lines.get? l.offset with
  | none =>
    have hr : (Core.gpiod_line_watch s l).1 = -1 := by
      unfold Core.gpiod_line_watch; rw [hget]
    rw [hr] at h
    exact absurd h (by decide)
  | some li0 =>
    cases hw : li0.watched with
    | true =>
      have hr : (Core.gpiod_line_watch s l).1 = -1 := by
        unfold Core.gpiod_line_watch; rw [hget]; simp [hw]
      rw [hr] at h
      exact absurd h (by decide)
    | false =>
      cases hio : li0.ioerr with
      | some e =>
        have hr : (Core.gpiod_line_watch s l).1 = -1 := by
          unfold Core.gpiod_line_watch; rw [hget]; simp [hw, hio]
        rw [hr] at h
        exact absurd h (by decide)
      | none =>
        rw [gpiod_line_watch_ok s l li0 hget hw hio]
        refine ⟨{ li0 with watched := true }, ?_, rfl⟩
        simp only
        rw [set_watched_get_eq, hget]
        rfl

/-- C22: core gpiod_line_watch on a line of the chip that is already watched
returns -1 with errno EBUSY and changes nothing else, so the line stays watched;
this is the case of a line that gpiod_chip_get_line_watched has just returned;
core gpiod_line_unwatch on a line that is not watched returns -1 with errno EBUSY
and changes nothing else, so the line stays unwatched. -/
theorem watch_status_mismatch_is_ebusy (s : State) (l : gpiod_line) :
    (∀ li, s.chip.lines.get? l.offset = some li → li.watched = true →
      Core.gpiod_line_watch s l
        = (-1, { chip := s.chip, errno := EBUSY,
                 calls := s.calls ++ [core_call.line_watch l.offset] }))
    ∧ (∀ s0 offset, Core.gpiod_chip_get_line_watched s0 offset = (some l, s) →
        (Core.gpiod_line_watch s l).1 = -1
        ∧ (Core.gpiod_line_watch s l).2.errno = EBUSY
        ∧ (Core.gpiod_line_watch s l).2.chip = s.chip)
    ∧ (∀ li, s.chip.lines.get? l.offset = some li → li.watched = false →
      Core.gpiod_line_unwatch s l
        = (-1, { chip := s.chip, errno := EBUSY,
                 calls := s.calls ++ [core_call.line_unwatch l.offset] })) := by
  have hwatch : ∀ li, s.chip.lines.get? l.offset = some li → li.watched = true →
      Core.gpiod_line_watch s l
        = (-1, { chip := s.chip, errno := EBUSY,
                 calls := s.calls ++ [core_call.line_watch l.offset] }) := by
    intro li hget hw
    unfold Core.gpiod_line_watch
    rw [hget]
    simp [hw]
  refine ⟨hwatch, ?_, ?_⟩
  · intro s0 offset hacq
    have hex : ∃ li, s.chip.lines.get? l.offset = some li ∧ li.watched = true := by
      unfold Core.gpiod_chip_get_line_watched at hacq
      cases hcore : Gpiod.gpiod_chip_get_line s0.chip offset with
      | error e =>
        rw [hcore] at hacq
        simp at hacq
      | ok l0 =>
        rw [hcore] at hacq
        simp only at hacq
        split at hacq
        · rename_i h0
          simp only [Prod.mk.injEq, Option.some.injEq] at hacq
          obtain ⟨hl, hs⟩ := hacq
          subst hl
          have := watch_success_watched _ l0 h0
          rw [hs] at this
          exact this
        · simp at hacq
    obtain ⟨li, hget, hw⟩ := hex
    rw [hwatch li hget hw]
    exact ⟨rfl, rfl, rfl⟩
  · intro li hget hw
    unfold Core.gpiod_line_unwatch
    rw [hget]
    simp [hw]

theorem watch_status_mismatch_is_ebusy_witness :
    Core.gpiod_line_watch watching_state ⟨2⟩
        = (-1, { chip := watching_state.chip, errno := EBUSY,
                 calls := watching_state.calls ++ [core_call.line_watch 2] })
    ∧ ((Core.gpiod_line_watch (Core.gpiod_chip_get_line_watched named_state 1).2 ⟨1⟩).1 = -1
        ∧ (Core.gpiod_line_watch (Core.gpiod_chip_get_line_watched named_state 1).2 ⟨1⟩).2.errno
            = EBUSY
        ∧ (Core.gpiod_line_watch (Core.gpiod_chip_get_line_watched named_state 1).2 ⟨1⟩).2.chip
            = (Core.gpiod_chip_get_line_watched named_state 1).2.chip)
    ∧ Core.gpiod_line_unwatch watching_state ⟨3⟩
        = (-1, { chip := watching_state.chip, errno := EBUSY,
                 calls := watching_state.calls ++ [core_call.line_unwatch 3] }) :=
  ⟨(watch_status_mismatch_is_ebusy watching_state ⟨2⟩).1
      { name := some "gpio-b", watched := true, ioerr := none } rfl rfl,
   (watch_status_mismatch_is_ebusy (Core.gpiod_chip_get_line_watched named_state 1).2 ⟨1⟩).2.1
      named_state 1 rfl,
   (watch_status_mismatch_is_ebusy watching_state ⟨3⟩).2.2
      { name := some "gpio-a", watched := false, ioerr := none } rfl rfl⟩

/-- C23: chip::unwatch_all on an open chip never raises: on the chip whose line
iterator cannot be created, gpiod_chip_unwatch_all returns -1 with errno ENOMEM
and leaves the first line watched, and chip::unwatch_all returns normally. -/
theorem chip_unwatch_all_hides_failure :
    (gpiod_chip_unwatch_all stuck_state).1 = -1
    ∧ (gpiod_chip_unwatch_all stuck_state).2.errno = ENOMEM
    ∧ ((gpiod_chip_unwatch_all stuck_state).2.chip.lines.get? 0).map line_info.watched
        = some true
    ∧ (chip.unwatch_all ⟨some 1⟩ stuck_state).1 = Except.ok ()
    ∧ (chip.unwatch_all ⟨some 1⟩ stuck_state).2 = (gpiod_chip_unwatch_all stuck_state).2
    ∧ ∀ (a : Nat) (s : State), (chip.unwatch_all ⟨some a⟩ s).1 = Except.ok () :=
  ⟨rfl, rfl, rfl, rfl, rfl, fun _ _ => rfl⟩

/-- C27: on the chip with lines 0 and 2 watched and lines 1 and 3 not, the four
unwatch calls of gpiod_chip_unwatch_all give 0, -1 with EBUSY, 0, -1 with EBUSY,
and the function returns -1; on the chip with no watched line it returns -1 as
well, every unwatch having failed with EBUSY. -/
theorem gpiod_chip_unwatch_all_returns_last_result :
    (Core.gpiod_line_unwatch (Core.gpiod_line_iter_new watching_state).2 ⟨0⟩).1 = 0
    ∧ ((Core.gpiod_line_unwatch
          (Core.gpiod_line_unwatch (Core.gpiod_line_iter_new watching_state).2 ⟨0⟩).2 ⟨1⟩).1 = -1
       ∧ (Core.gpiod_line_unwatch
          (Core.gpiod_line_unwatch (Core.gpiod_line_iter_new watching_state).2 ⟨0⟩).2 ⟨1⟩).2.errno
           = EBUSY)
    ∧ (Core.gpiod_line_unwatch
        (Core.gpiod_line_unwatch
          (Core.gpiod_line_unwatch (Core.gpiod_line_iter_new watching_state).2 ⟨0⟩).2 ⟨1⟩).2
        ⟨2⟩).1 = 0
    ∧ (Core.gpiod_line_unwatch
        (Core.gpiod_line_unwatch
          (Core.gpiod_line_unwatch
            (Core.gpiod_line_unwatch (Core.gpiod_line_iter_new watching_state).2 ⟨0⟩).2 ⟨1⟩).2
          ⟨2⟩).2 ⟨3⟩)
        = gpiod_chip_unwatch_all watching_state
    ∧ (gpiod_chip_unwatch_all watching_state).1 = -1
    ∧ (gpiod_chip_unwatch_all watching_state).2.errno = EBUSY
    ∧ (gpiod_chip_unwatch_all watching_state).2.chip.lines.map line_info.watched
        = [false, false, false, false]
    ∧ (gpiod_chip_unwatch_all named_state).1 = -1
    ∧ (gpiod_chip_unwatch_all named_state).2.errno = EBUSY
    ∧ (gpiod_chip_unwatch_all named_state).2.calls
        = [core_call.line_iter_new, core_call.line_unwatch 0, core_call.line_unwatch 1,
           core_call.line_unwatch 2, core_call.line_unwatch 3] :=
  ⟨rfl, ⟨rfl, rfl⟩, rfl, rfl, rfl, rfl, rfl, rfl, rfl, rfl⟩

/-- C29: g_gpiod_line_release leaves the stored event-source id as it was; after
a successful event request, a release, an input request and a second release, the
source id 1 has been removed twice. -/
theorem g_gpiod_line_release_keeps_source_id :
    (∀ st, (g_gpiod_line_release st).event_source = st.event_source)
    ∧ (g_gpiod_line_request_event willing_env fresh_line "c" false true false).1 = Except.ok ()
    ∧ (g_gpiod_line_release
        (g_gpiod_line_request_event willing_env fresh_line "c" false true false).2).event_source
        = 1
    ∧ (g_gpiod_line_request_input willing_env
        (g_gpiod_line_release
          (g_gpiod_line_request_event willing_env fresh_line "c" false true false).2)
        "c" false).1 = Except.ok ()
    ∧ (g_gpiod_line_release
        (g_gpiod_line_request_input willing_env
          (g_gpiod_line_release
            (g_gpiod_line_request_event willing_env fresh_line "c" false true false).2)
          "c" false).2).calls
        = [ line_call.line_request
              { consumer := "c",
                request_type := request_type.GPIOD_LINE_REQUEST_EVENT_RISING_EDGE,
                flags := 0 } 0,
            line_call.line_event_get_fd,
            line_call.unix_fd_add 7,
            line_call.source_remove 1,
            line_call.line_release,
            line_call.line_request
              { consumer := "c",
                request_type := request_type.GPIOD_LINE_REQUEST_DIRECTION_INPUT,
                flags := 0 } 0,
            line_call.source_remove 1,
            line_call.line_release ] := by
  refine ⟨?_, rfl, rfl, rfl, rfl⟩
  intro st
  unfold g_gpiod_line_release
  split <;> rfl

/-- C30: isuint of the empty string is true, and for every system
gpiod_chip_open_lookup of the empty descriptor and the tools' chip_open_lookup of
it are gpiod_chip_open of /dev/gpiochip0: that one path is the only thing
probed. -/
theorem open_lookup_empty_descriptor (w : World) :
    isuint "" = true
    ∧ strtoul "" = 0
    ∧ gpiod_chip_open_lookup w "" = gpiod_chip_open w "/dev/gpiochip0"
    ∧ chip_open_lookup w "" = gpiod_chip_open w "/dev/gpiochip0"
    ∧ (gpiod_chip_open_lookup w "").2 = [Probe.open_path "/dev/gpiochip0"]
    ∧ (chip_open_lookup w "").2 = [Probe.open_path "/dev/gpiochip0"] :=
  ⟨rfl, rfl, rfl, rfl, rfl, rfl⟩

/-- One chip of gpiod_line_find on which the lookup finds a line. -/
theorem line_find_loop_found (name : String) (e : Nat) (c : gpiod_chip)
    (rest seen : List gpiod_chip) (l : gpiod_line) (hiter : c.iter_err = none)
    (hscan : scan_all { chip := c, errno := e, calls := [] } name = some l) :
    line_find_loop name e (c :: rest) seen
      = { line := some (c, l), errno := e, examined := seen ++ [c] } := by
  have h := chip_find_line_unwatched { chip := c, errno := e, calls := [] } name hiter
  rw [hscan] at h
  simp only [line_find_loop, gpiod_chip_find_line, h]

/-- One chip of gpiod_line_find that is scanned without error and has no line of
the name: the loop goes on with the next chip. -/
theorem line_find_loop_skip (name : String) (e : Nat) (c : gpiod_chip)
    (rest seen : List gpiod_chip) (hiter : c.iter_err = none)
    (hno : ∀ li ∈ c.lines, li.name ≠ some name) :
    line_find_loop name e (c :: rest) seen = line_find_loop name ENOENT rest (seen ++ [c]) := by
  have h := chip_find_line_not_found { chip := c, errno := e, calls := [] } name false hiter
    (scan_all_none_of_no_name _ name hno)
  simp only [line_find_loop, gpiod_chip_find_line, h, ne_eq, not_true_eq_false, if_false]

/-- One chip of gpiod_line_find whose scan fails with an errno other than
ENOENT: the loop ends there. -/
theorem line_find_loop_fails (name : String) (e : Nat) (c : gpiod_chip)
    (rest seen : List gpiod_chip) (e1 : Nat) (hiter : c.iter_err = some e1)
    (hne : e1 ≠ ENOENT) :
    line_find_loop name e (c :: rest) seen
      = { line := none, errno := e1, examined := seen ++ [c] } := by
  have h := chip_find_line_iter_fails { chip := c, errno := e, calls := [] } name false e1 hiter
  simp only [line_find_loop, gpiod_chip_find_line, h, ne_eq, hne, not_false_eq_true, if_true]

/-- Chips scanned without error and without a line of the name are passed
over. -/
theorem line_find_loop_prefix (name : String) (pre : List gpiod_chip) :
    ∀ (e : Nat) (rest seen : List gpiod_chip),
      (∀ p ∈ pre, p.iter_err = none ∧ ∀ li ∈ p.lines, li.name ≠ some name) →
      ∃ e1, line_find_loop name e (pre ++ rest) seen
              = line_find_loop name e1 rest (seen ++ pre) := by
  induction pre with
  | nil =>
    intro e rest seen _
    exact ⟨e, by simp⟩
  | cons p pre ih =>
    intro e rest seen h
    have hp := h p (List.mem_cons_self _ _)
    obtain ⟨e1, he1⟩ := ih ENOENT rest (seen ++ [p])
      (fun q hq => h q (List.mem_cons_of_mem _ hq))
    refine ⟨e1, ?_⟩
    rw [List.cons_append, line_find_loop_skip name e p _ seen hp.1 hp.2, he1]
    simp

/-- When no failing scan reports ENOENT, the loop of gpiod_line_find ends with
NULL and ENOENT exactly when every chip is scanned without error and has no line
of the name. -/
theorem line_find_loop_enoent (name : String) (chips : List gpiod_chip) :
    ∀ (e : Nat) (seen : List gpiod_chip),
      (∀ c ∈ chips, c.iter_err ≠ some ENOENT) →
      (((line_find_loop name e chips seen).line = none
          ∧ (line_find_loop name e chips seen).errno = ENOENT)
        ↔ ∀ c ∈ chips, c.iter_err = none ∧ ∀ li ∈ c.lines, li.name ≠ some name) := by
  induction chips with
  | nil =>
    intro e seen _
    simp [line_find_loop]
  | cons c rest ih =>
    intro e seen henv
    have hrest : ∀ c ∈ rest, c.iter_err ≠ some ENOENT :=
      fun q hq => henv q (List.mem_cons_of_mem _ hq)
    cases hiter : c.iter_err with
    | some e1 =>
      have hne : e1 ≠ ENOENT := by
        intro h
        exact henv c (List.mem_cons_self _ _) (by rw [hiter, h])
      rw [line_find_loop_fails name e c rest seen e1 hiter hne]
      constructor
      · intro h
        exact absurd h.2 hne
      · intro h
        have := (h c (List.mem_cons_self _ _)).1
        rw [hiter] at this
        exact absurd this (by simp)
    | none =>
      by_cases hhas : ∃ li ∈ c.lines, li.name = some name
      · obtain ⟨l, hl⟩ := scan_all_some_of_name { chip := c, errno := e, calls := [] } name hhas
        rw [line_find_loop_found name e c rest seen l hiter hl]
        constructor
        · intro h
          exact absurd h.1 (by simp)
        · intro h
          obtain ⟨li, hmem, hname⟩ := hhas
          exact absurd hname ((h c (List.mem_cons_self _ _)).2 li hmem)
      · have hno : ∀ li ∈ c.lines, li.name ≠ some name := by
          intro li hmem hname
          exact hhas ⟨li, hmem, hname⟩
        rw [line_find_loop_skip name e c rest seen hiter hno, ih ENOENT (seen ++ [c]) hrest]
        constructor
        · intro h q hq
          rcases List.mem_cons.mp hq with rfl | hq
          · exact ⟨hiter, hno⟩
          · exact h q hq
        · intro h q hq
          exact h q (List.mem_cons_of_mem _ hq)

/-- C24 (amended): gpiod_line_find when the chip iterator is created, over the
chips it yields, and when a failing line scan never reports ENOENT (the errno
kept for "not found"). If the chips
before some chip are scanned without error and have no line of the name, and that
chip is scanned without error and has one, the result is that chip with its first
line of the name. The result is NULL with errno ENOENT exactly when every chip is
scanned without error and none has a line of the name. If the chips before some
chip are scanned without error and have no line of the name, and the scan of that
chip fails with an errno, the result is NULL with that errno and the chips
examined are those up to that chip, none after it. -/
theorem gpiod_line_find_outcomes (w : World) (chips : List gpiod_chip) (e0 : Nat)
    (name : String) (hchips : w.chip_iter = Except.ok chips)
    (henv : ∀ c ∈ chips, c.iter_err ≠ some ENOENT) :
    (∀ pre c post, chips = pre ++ c :: post →
      (∀ p ∈ pre, p.iter_err = none ∧ ∀ li ∈ p.lines, li.name ≠ some name) →
      c.iter_err = none → (∃ li ∈ c.lines, li.name = some name) →
      ∃ l, (gpiod_line_find w e0 name).line = some (c, l)
        ∧ (gpiod_line_find w e0 name).examined = pre ++ [c]
        ∧ (c.lines.get? l.offset).map line_info.name = some (some name)
        ∧ ∀ j, j < l.offset → (c.lines.get? j).map line_info.name ≠ some (some name))
    ∧ (((gpiod_line_find w e0 name).line = none ∧ (gpiod_line_find w e0 name).errno = ENOENT)
        ↔ ∀ c ∈ chips, c.iter_err = none ∧ ∀ li ∈ c.lines, li.name ≠ some name)
    ∧ (∀ pre c post e, chips = pre ++ c :: post →
        (∀ p ∈ pre, p.iter_err = none ∧ ∀ li ∈ p.lines, li.name ≠ some name) →
        c.iter_err = some e →
        (gpiod_line_find w e0 name).line = none
        ∧ (gpiod_line_find w e0 name).errno = e
        ∧ (gpiod_line_find w e0 name).examined = pre ++ [c]) := by
  have hfind : gpiod_line_find w e0 name = line_find_loop name e0 chips [] := by
    simp only [gpiod_line_find, hchips]
  rw [hfind]
  refine ⟨?_, line_find_loop_enoent name chips e0 [] henv, ?_⟩
  · intro pre c post hsplit hpre hiter hhas
    obtain ⟨e1, he1⟩ := line_find_loop_prefix name pre e0 (c :: post) [] hpre
    obtain ⟨l, hl⟩ := scan_all_some_of_name { chip := c, errno := e1, calls := [] } name hhas
    have hspec := scan_all_spec { chip := c, errno := e1, calls := [] } name
    rw [hl] at hspec
    simp only at hspec
    obtain ⟨hlt, hname, hfirst⟩ := hspec
    refine ⟨l, ?_, ?_, ?_, ?_⟩
    · rw [hsplit, he1, line_find_loop_found name e1 c post _ l hiter hl]
    · rw [hsplit, he1, line_find_loop_found name e1 c post _ l hiter hl]
      simp
    · unfold Core.gpiod_line_name at hname
      simp only at hname
      cases hget : c.lines.get? l.offset with
      | none =>
        rw [hget] at hname
        simp at hname
      | some li =>
        rw [hget] at hname
        simp only at hname
        simp [hname]
    · intro j hj hjname
      apply hfirst j hj
      unfold Core.gpiod_line_name
      simp only
      cases hget : c.lines.get? j with
      | none =>
        rw [hget] at hjname
        simp at hjname
      | some li =>
        rw [hget] at hjname
        simp only [Option.map_some', Option.some.injEq] at hjname
        exact hjname
  · intro pre c post e hsplit hpre hiter
    have hne : e ≠ ENOENT := by
      intro h
      apply henv c (by rw [hsplit]; simp)
      rw [hiter, h]
    obtain ⟨e1, he1⟩ := line_find_loop_prefix name pre e0 (c :: post) [] hpre
    rw [hsplit, he1, line_find_loop_fails name e1 c post _ e hiter hne]
    simp

theorem gpiod_line_find_outcomes_witness :
    (∃ l, (gpiod_line_find three_chip_world 0 "gpio-b").line = some (named_chip, l)
        ∧ (gpiod_line_find three_chip_world 0 "gpio-b").examined = [plain_chip 2] ++ [named_chip]
        ∧ (named_chip.lines.get? l.offset).map line_info.name = some (some "gpio-b")
        ∧ ∀ j, j < l.offset →
            (named_chip.lines.get? j).map line_info.name ≠ some (some "gpio-b"))
    ∧ (((gpiod_line_find (one_chip_world (plain_chip 2)) 0 "gpio-b").line = none
          ∧ (gpiod_line_find (one_chip_world (plain_chip 2)) 0 "gpio-b").errno = ENOENT)
        ↔ ∀ c ∈ [plain_chip 2], c.iter_err = none ∧ ∀ li ∈ c.lines, li.name ≠ some "gpio-b")
    ∧ ((gpiod_line_find broken_middle_world 0 "gpio-b").line = none
        ∧ (gpiod_line_find broken_middle_world 0 "gpio-b").errno = EIO
        ∧ (gpiod_line_find broken_middle_world 0 "gpio-b").examined
            = [plain_chip 2] ++ [failing_state.chip]) :=
  ⟨(gpiod_line_find_outcomes three_chip_world [plain_chip 2, named_chip, failing_state.chip] 0
      "gpio-b" rfl (by decide)).1 [plain_chip 2] named_chip [failing_state.chip] rfl
      (by decide) rfl (by decide),
   (gpiod_line_find_outcomes (one_chip_world (plain_chip 2)) [plain_chip 2] 0 "gpio-b" rfl
      (by decide)).2.1,
   (gpiod_line_find_outcomes broken_middle_world [plain_chip 2, failing_state.chip, named_chip]
      0 "gpio-b" rfl (by decide)).2.2 [plain_chip 2] failing_state.chip [named_chip] EIO rfl
      (by decide) rfl⟩

/-- C24 as stated fails: when the line scan of the only chip fails with ENOENT,
gpiod_line_find returns NULL with errno ENOENT although that chip was not scanned
without error, and although it has a line of the name; with the named chip
after it, the failing scan does not end the search and the line of the later
chip is returned; and when the chip iterator itself fails with ENOENT the result
is NULL with ENOENT without any chip being examined. -/
theorem gpiod_line_find_enoent_scan_failure :
    gpiod_chip_find_line { chip := enoent_chip, errno := 0, calls := [] } "gpio-b"
        = (none, { chip := enoent_chip, errno := ENOENT, calls := [core_call.line_iter_new] })
    ∧ (∃ li ∈ enoent_chip.lines, li.name = some "gpio-b")
    ∧ gpiod_line_find enoent_scan_world 0 "gpio-b"
        = { line := none, errno := ENOENT, examined := [enoent_chip] }
    ∧ ¬ (((gpiod_line_find enoent_scan_world 0 "gpio-b").line = none
            ∧ (gpiod_line_find enoent_scan_world 0 "gpio-b").errno = ENOENT)
          ↔ ∀ c ∈ [enoent_chip], c.iter_err = none ∧ ∀ li ∈ c.lines, li.name ≠ some "gpio-b")
    ∧ gpiod_line_find enoent_then_named_world 0 "gpio-b"
        = { line := some (named_chip, ⟨2⟩), errno := ENOENT,
            examined := [enoent_chip, named_chip] }
    ∧ gpiod_line_find no_chip_iter_world 0 "gpio-b"
        = { line := none, errno := ENOENT, examined := [] } := by
  refine ⟨by decide, by decide, by decide, ?_, by decide, by decide⟩
  intro h
  have h2 := (h.mp ⟨by decide, by decide⟩) enoent_chip (List.mem_singleton.mpr rfl)
  exact absurd h2.1 (by decide)

/-- C25: getopt_long returns the character f for -f and for --filter, the switch
of the option loop has no case for it and ends in abort, whatever the argument
and whatever options came before with success; and the events printed from a
batch are all of them, or none in silent mode, whatever their types. -/
theorem gpiowatch_filter_option_aborts :
    getopt_short 'f' = 'f'
    ∧ getopt_long_name "filter" = 'f'
    ∧ (∀ settings optarg, handle_option settings 'f' optarg = opt_outcome.abort)
    ∧ (∀ rest, option_loop initial_settings (('f', "request") :: rest) = opt_outcome.abort)
    ∧ (∀ rest, option_loop initial_settings (('V', "") :: ('f', "request,config") :: rest)
        = opt_outcome.abort)
    ∧ (∀ settings events, printed_events settings events
        = if settings.silent then [] else events) := by
  refine ⟨by decide, by decide, fun _ _ => rfl, fun _ => rfl, fun _ => rfl, ?_⟩
  intro settings events
  unfold printed_events
  cases settings.silent <;> rfl

/-- C26: the GpiodChip objects that g_gpiod_get_all_chips builds have no line
registry: on the system with one chip of two lines it returns one object with the
handle set and the registry NULL, and on that object both g_gpiod_chip_get_line,
at every offset, and g_gpiod_chip_get_all_lines read through the NULL registry;
in general, constructed leaves an object that already has a handle as it is. -/
theorem g_gpiod_get_all_chips_no_registry :
    g_gpiod_get_all_chips demo_world = some (Except.ok [handle_built_chip])
    ∧ handle_built_chip.handle = some (plain_chip 2)
    ∧ handle_built_chip.lines = none
    ∧ (∀ next_id core_calls offset,
        (g_gpiod_chip_get_line
          { chip := handle_built_chip, next_id := next_id, core_calls := core_calls } offset).1
          = GLineResult.invalid_read)
    ∧ (∀ next_id core_calls,
        (g_gpiod_chip_get_all_lines
          { chip := handle_built_chip, next_id := next_id, core_calls := core_calls }).1
          = GAllLinesResult.invalid_read)
    ∧ (∀ w handle, g_object_new_chip w handle
        = some { devname := none, construct_err := none, handle := some handle,
                 lines := none }) :=
  ⟨rfl, rfl, rfl, fun _ _ _ => rfl, fun _ _ => rfl, fun _ _ => rfl⟩

/-- The snapshot loop never changes the number of slots. -/
theorem store_snapshots_length {α : Type} (idx : Nat → gpiod_line → Nat)
    (snap : gpiod_line → α) (lines : List gpiod_line) :
    ∀ (cfg : List (Option α)) (i : Nat) (out : List (Option α)),
      store_snapshots idx snap cfg i lines = some out → out.length = cfg.length := by
  induction lines with
  | nil =>
    intro cfg i out h
    simp only [store_snapshots, Option.some.injEq] at h
    rw [← h]
  | cons line rest ih =>
    intro cfg i out h
    simp only [store_snapshots] at h
    split at h
    · have := ih _ _ _ h
      simpa using this
    · simp at h

/-- C28: gpiowatch on a chip of 65 lines watching offset 64 gets that line, and
whatever index the snapshot loop stores it under, the loop writes outside the 64
slots or the lookup for an event on that line reads outside them; with the loop
variable being the position in the bulk set, watching only offset 4 stores the
snapshot in slot 0, and the lookup for an event on line 4 reads slot 4, a NULL
pointer. -/
theorem gpiowatch_snapshot_index_mismatch {α : Type} (snap : gpiod_line → α)
    (event_type : Nat) (ts : timespec) :
    output_bulk (gpiod_chip_get_lines_watched (plain_state 65) [64]) = some [⟨64⟩]
    ∧ returned (gpiod_chip_get_lines_watched (plain_state 65) [64]) = some 0
    ∧ (∀ idx : Nat → gpiod_line → Nat,
        store_snapshots idx snap (cfg_init α) 0 [⟨64⟩] = none
        ∨ ∃ cfg, store_snapshots idx snap (cfg_init α) 0 [⟨64⟩] = some cfg
            ∧ lookup_snapshot cfg ⟨event_type, ts, ⟨64⟩⟩ = none)
    ∧ store_snapshots (fun i _ => i) snap (cfg_init α) 0 [⟨4⟩]
        = some (some (snap ⟨4⟩) :: List.replicate 63 none)
    ∧ lookup_snapshot (some (snap ⟨4⟩) :: List.replicate 63 none) ⟨event_type, ts, ⟨4⟩⟩
        = some none := by
  refine ⟨by decide, by decide, ?_, rfl, rfl⟩
  intro idx
  cases h : store_snapshots idx snap (cfg_init α) 0 [⟨64⟩] with
  | none => exact Or.inl rfl
  | some cfg =>
    refine Or.inr ⟨cfg, rfl, ?_⟩
    have hlen := store_snapshots_length idx snap _ _ _ _ h
    unfold lookup_snapshot snapshot_index gpiod_line_offset
    apply List.get?_eq_none.mpr
    rw [hlen]
    simp [cfg_init, GPIOD_LINE_BULK_MAX_LINES]

end Gpiod
